import Mathlib

/-!
# Monkstore (`src/backend/server.js`, `src/frontend/js`): token codec, queries, routes, cart

A shallow embedding of the request-authentication, routing and data-access
code of the marketplace backend, and of the cart functions of its frontend.

Modelling conventions
* A JavaScript string is the list of its characters (`JsString`); strings with
  unpaired surrogates are outside the model.
* A JavaScript number is an exact decimal `mant * 10 ^ exp10` (`JsNum`); the
  rounding of IEEE doubles is not modelled, so the model is exact on integers
  of absolute value below `2 ^ 53` and on short decimals.
* An object is the list of its members in the order of the text or of the
  literal that made it; JavaScript lists integer-like keys first, and no
  object below has such a key.
* `null` results of the helpers are `none`; a thrown exception inside a helper
  that has no `try` is `none` of the helper's `Option` result and is turned
  into `Outcome.throws` by the handler that called it.
* The platform functions whose definition is not part of the repository and
  whose values no result below depends on (HMAC-SHA256, SHA-256, the
  string-to-number coercion of the `<` operator) are fields of `Env`, next to
  the signing secret and the clock.
* A handler is a function from the request to an `Outcome`; the callback that
  a handler gives to `runQuery` is a function from a `StoreResult` to an
  `Outcome`.
* What PostgreSQL, `psql` and the shell make of a text is not code of the
  repository; the documented meaning of `LIKE`, of `CASE` under `ORDER BY`, of
  `INSERT ... ON CONFLICT`, of the output format of `psql` and of shell
  quoting is stated in definitions of its own.
* A function of the frontend is modelled on what it reads (the response to
  its request, the text of an element) and by what the claims observe of it
  (the request it sends, the address it redirects to, the number it shows).
-/

namespace Monkstore

/-! ## Values -/

/-- A JavaScript string, as the list of its characters. -/
abbrev JsString := List Char

/-- A JavaScript number, as the exact decimal `mant * 10 ^ exp10`. -/
structure JsNum where
  mant : Int
  exp10 : Int
deriving DecidableEq, Repr

/-- The JavaScript values that `JSON.parse` can produce, and `undefined`.
An object is the list of its members in source order; a later member with the
same key shadows an earlier one (see `getProp`). -/
inductive JsVal where
  | undefined
  | null
  | bool (b : Bool)
  | num (n : JsNum)
  | str (s : JsString)
  | arr (items : List JsVal)
  | obj (members : List (JsString × JsVal))
deriving Repr

/-- The number with integer value `n`. -/
def JsVal.int (n : Int) : JsVal := .num ⟨n, 0⟩

/-- Own-property test on the member list of an object. -/
def hasKey (members : List (JsString × JsVal)) (key : JsString) : Bool :=
  members.any fun m => m.1 = key

/-- Own-property lookup on the member list of an object: the last member with
the key wins, as in `JSON.parse`. -/
def lookupKey : List (JsString × JsVal) → JsString → Option JsVal
  | [], _ => none
  | (k, v) :: rest, key =>
    match lookupKey rest key with
    | some w => some w
    | none => if k = key then some v else none

/-- Property read `v.key` for a key that no prototype defines (`exp`, `userId`,
`nftId`, ...): `none` is the `TypeError` of reading a property of `null` or
`undefined`; a missing property reads as `undefined`. -/
def getProp (v : JsVal) (key : JsString) : Option JsVal :=
  match v with
  | .undefined => none
  | .null => none
  | .obj members => some ((lookupKey members key).getD .undefined)
  | _ => some .undefined

/-- JavaScript truthiness (`if (v)`, `!v`, `v && ...`). -/
def truthy : JsVal → Bool
  | .undefined => false
  | .null => false
  | .bool b => b
  | .num n => n.mant ≠ 0
  | .str s => s ≠ []
  | .arr _ => true
  | .obj _ => true

/-! ## Numbers to text -/

/-- Split the decimal digits of a positive integer into the digits without the
trailing zeros and the number of trailing zeros. -/
def stripZeros : List Char → List Char × Nat
  | [] => ([], 0)
  | c :: cs =>
    if (stripZeros cs).1 = [] ∧ c = '0' then ([], (stripZeros cs).2 + 1)
    else (c :: (stripZeros cs).1, (stripZeros cs).2)

/-- `Number.prototype.toString()` (radix 10) on an exact decimal, following
ECMA-262 `Number::toString`: with `ds` the `k` significant digits and `n` the
position of the decimal point, plain digits for `k ≤ n ≤ 21`, a decimal point
inside for `0 < n ≤ 21`, leading `0.00` for `-6 < n ≤ 0`, exponent form
otherwise. -/
def numToString (x : JsNum) : JsString :=
  if x.mant = 0 then ['0'] else
  let sign : JsString := if x.mant < 0 then ['-'] else []
  let all := Nat.toDigits 10 x.mant.natAbs
  let ds := (stripZeros all).1
  let z := (stripZeros all).2
  let k : Int := ds.length
  let n : Int := k + z + x.exp10
  sign ++
  if k ≤ n ∧ n ≤ 21 then ds ++ List.replicate (n - k).toNat '0'
  else if 0 < n ∧ n ≤ 21 then ds.take n.toNat ++ '.' :: ds.drop n.toNat
  else if -6 < n ∧ n ≤ 0 then '0' :: '.' :: (List.replicate (-n).toNat '0' ++ ds)
  else
    let e := n - 1
    let es := (if e < 0 then '-' else '+') :: Nat.toDigits 10 e.natAbs
    match ds with
    | [] => []
    | [d] => d :: 'e' :: es
    | d :: rest => d :: '.' :: (rest ++ 'e' :: es)

/-- The characters that occur in a printed number. -/
def isNumberChar (c : Char) : Bool :=
  (48 ≤ c.toNat && c.toNat ≤ 57) || c = '-' || c = '.' || c = 'e' || c = '+'

/-! ## `String(value)` -/

mutual
/-- `String(v)`: `none` is the `TypeError` thrown for an object whose own
`toString` member (never callable in parsed JSON) shadows the inherited one. -/
def toStr : JsVal → Option JsString
  | .undefined => some "undefined".toList
  | .null => some "null".toList
  | .bool true => some "true".toList
  | .bool false => some "false".toList
  | .num n => some (numToString n)
  | .str s => some s
  | .arr items => joinItems items
  | .obj members => if hasKey members "toString".toList then none else some "[object Object]".toList
/-- `Array.prototype.join(",")`: `null` and `undefined` elements are empty. -/
def joinItems : List JsVal → Option JsString
  | [] => some []
  | v :: rest =>
    let head : Option JsString :=
      match v with
      | .undefined => some []
      | .null => some []
      | w => toStr w
    match head, joinItems rest with
    | some h, some t => some (if rest.isEmpty then h else h ++ ',' :: t)
    | _, _ => none
end

/-! ## Query text -/

/-- `s.replace(/'/g, "''")`: every single quote is replaced by two. -/
def doubleQuotes : JsString → JsString
  | [] => []
  | c :: cs => if c = '\'' then '\'' :: '\'' :: doubleQuotes cs else c :: doubleQuotes cs

/-- A string between single quotes, its own single quotes doubled:
the template `'${String(value).replace(/'/g, "''")}'` of `escapeSQL`. -/
def quoteLiteral (s : JsString) : JsString :=
  '\'' :: (doubleQuotes s ++ ['\''])

/-- `escapeSQL(value)`; `none` when `String(value)` throws. -/
def escapeSQL (value : JsVal) : Option JsString :=
  match value with
  | .null => some "NULL".toList
  | .undefined => some "NULL".toList
  | .num n => some (numToString n)
  | v => (toStr v).map quoteLiteral

/-- The name condition that `GET /api/monkeys` pushes for `query.search`. -/
def searchFilter (search : JsString) : JsString :=
  "LOWER(m.name) LIKE LOWER('%".toList ++ doubleQuotes search ++ "%')".toList

/-- The rarity condition that `GET /api/monkeys` pushes for `query.rarity`. -/
def rarityFilter (rarity : JsString) : JsString :=
  "m.rarity = '".toList ++ doubleQuotes rarity ++ "'".toList

/-- Reading a SQL string literal after its opening quote: the decoded content
and the text after the closing quote.  A doubled quote stands for one quote,
every other character for itself; `none` when the literal is not closed. -/
def readLiteralBody : JsString → Option (JsString × JsString)
  | [] => none
  | c :: cs =>
    if c = '\'' then
      match cs with
      | [] => some ([], [])
      | d :: ds =>
        if d = '\'' then
          match readLiteralBody ds with
          | some (content, rest) => some ('\'' :: content, rest)
          | none => none
        else some ([], d :: ds)
    else
      match readLiteralBody cs with
      | some (content, rest) => some (c :: content, rest)
      | none => none

/-- Reading one SQL string literal at the start of a text: quote, then a run of
non-quote characters or doubled quotes, then quote. -/
def readLiteral : JsString → Option (JsString × JsString)
  | [] => none
  | c :: cs => if c = '\'' then readLiteralBody cs else none

/-! ## Bytes, UTF-8 and base64 (the `Buffer` conversions) -/

/-- An octet. -/
abbrev Byte := Fin 256

/-- The octet of a natural number below 256. -/
def byteOfNat (n : Nat) : Byte := ⟨n % 256, Nat.mod_lt n (by decide)⟩

/-- UTF-8 encoding of one character. -/
def utf8EncodeChar (c : Char) : List Byte :=
  let n := c.toNat
  if n < 0x80 then [byteOfNat n]
  else if n < 0x800 then [byteOfNat (0xC0 + n / 64), byteOfNat (0x80 + n % 64)]
  else if n < 0x10000 then
    [byteOfNat (0xE0 + n / 4096), byteOfNat (0x80 + n / 64 % 64), byteOfNat (0x80 + n % 64)]
  else
    [byteOfNat (0xF0 + n / 262144), byteOfNat (0x80 + n / 4096 % 64),
     byteOfNat (0x80 + n / 64 % 64), byteOfNat (0x80 + n % 64)]

/-- `Buffer.from(s)`: the UTF-8 encoding of a string. -/
def utf8Encode : JsString → List Byte
  | [] => []
  | c :: cs => utf8EncodeChar c ++ utf8Encode cs

/-- U+FFFD, which replaces an ill-formed byte sequence. -/
def replacementChar : Char := Char.ofNat 0xFFFD

/-- The UTF-8 decoder with replacement of ill-formed sequences (the decoder of
the WHATWG Encoding standard, which `buf.toString()` follows): `needed` is the
number of continuation bytes still expected, `cp` the bits read so far and
`lower .. upper` the range allowed for the next continuation byte. -/
def utf8DecodeAux (needed cp lower upper : Nat) : List Byte → JsString
  | [] => if needed = 0 then [] else [replacementChar]
  | b :: bs =>
    let n := b.val
    if needed ≠ 0 ∧ lower ≤ n ∧ n ≤ upper then
      if needed = 1 then Char.ofNat (cp * 64 + n % 64) :: utf8DecodeAux 0 0 0x80 0xBF bs
      else utf8DecodeAux (needed - 1) (cp * 64 + n % 64) 0x80 0xBF bs
    else
      (if needed ≠ 0 then [replacementChar] else []) ++
      (if n ≤ 0x7F then Char.ofNat n :: utf8DecodeAux 0 0 0x80 0xBF bs
       else if 0xC2 ≤ n ∧ n ≤ 0xDF then utf8DecodeAux 1 (n % 32) 0x80 0xBF bs
       else if 0xE0 ≤ n ∧ n ≤ 0xEF then
         utf8DecodeAux 2 (n % 16) (if n = 0xE0 then 0xA0 else 0x80) (if n = 0xED then 0x9F else 0xBF) bs
       else if 0xF0 ≤ n ∧ n ≤ 0xF4 then
         utf8DecodeAux 3 (n % 8) (if n = 0xF0 then 0x90 else 0x80) (if n = 0xF4 then 0x8F else 0xBF) bs
       else replacementChar :: utf8DecodeAux 0 0 0x80 0xBF bs)

/-- `buf.toString()`: UTF-8 decoding. -/
def utf8Decode (bs : List Byte) : JsString := utf8DecodeAux 0 0 0x80 0xBF bs

/-- The base64 character of a 6-bit value. -/
def b64Char (n : Nat) : Char :=
  if n < 26 then Char.ofNat (65 + n)
  else if n < 52 then Char.ofNat (71 + n)
  else if n < 62 then Char.ofNat (n - 4)
  else if n = 62 then '+'
  else '/'

/-- `buf.toString('base64')`: standard base64 with `=` padding. -/
def base64Encode : List Byte → JsString
  | [] => []
  | [a] => [b64Char (a.val / 4), b64Char (a.val % 4 * 16), '=', '=']
  | [a, b] =>
    [b64Char (a.val / 4), b64Char (a.val % 4 * 16 + b.val / 16), b64Char (b.val % 16 * 4), '=']
  | a :: b :: c :: rest =>
    b64Char (a.val / 4) :: b64Char (a.val % 4 * 16 + b.val / 16) ::
      b64Char (b.val % 16 * 4 + c.val / 64) :: b64Char (c.val % 64) :: base64Encode rest

/-- The 6-bit value of a base64 character, of the standard or of the URL-safe
alphabet; `none` for every other character. -/
def unbase64 (c : Char) : Option Nat :=
  let n := c.toNat
  if 65 ≤ n ∧ n ≤ 90 then some (n - 65)
  else if 97 ≤ n ∧ n ≤ 122 then some (n - 71)
  else if 48 ≤ n ∧ n ≤ 57 then some (n + 4)
  else if c = '+' ∨ c = '-' then some 62
  else if c = '/' ∨ c = '_' then some 63
  else none

/-- The 6-bit values that the base64 decoder reads: it stops at the first `=`
and skips every character outside the alphabet. -/
def sextets : JsString → List Nat
  | [] => []
  | c :: cs =>
    if c = '=' then []
    else
      match unbase64 c with
      | some v => v :: sextets cs
      | none => sextets cs

/-- Four 6-bit values give three octets; a final group of two or three values
gives one or two octets, a single left-over value none. -/
def bytesOfSextets : List Nat → List Byte
  | a :: b :: c :: d :: rest =>
    byteOfNat (a * 4 + b / 16) :: byteOfNat (b % 16 * 16 + c / 4) :: byteOfNat (c % 4 * 64 + d) ::
      bytesOfSextets rest
  | [a, b, c] => [byteOfNat (a * 4 + b / 16), byteOfNat (b % 16 * 16 + c / 4)]
  | [a, b] => [byteOfNat (a * 4 + b / 16)]
  | _ => []

/-- `Buffer.from(s, 'base64')`: the lenient base64 decoder of Node. -/
def base64Decode (s : JsString) : List Byte := bytesOfSextets (sextets s)

/-! ## `JSON.stringify` -/

/-- A lower-case hexadecimal digit. -/
def hexDigit (n : Nat) : Char :=
  if n < 10 then Char.ofNat (48 + n) else Char.ofNat (87 + n)

/-- The text of one character inside a JSON string (`QuoteJSONString`). -/
def jsonEscapeChar (c : Char) : JsString :=
  if c = '"' then ['\\', '"']
  else if c = '\\' then ['\\', '\\']
  else if c = '\x08' then ['\\', 'b']
  else if c = '\x0c' then ['\\', 'f']
  else if c = '\n' then ['\\', 'n']
  else if c = '\r' then ['\\', 'r']
  else if c = '\t' then ['\\', 't']
  else if c.toNat < 0x20 then ['\\', 'u', '0', '0', hexDigit (c.toNat / 16), hexDigit (c.toNat % 16)]
  else [c]

/-- The characters of a string, escaped for a JSON string. -/
def jsonEscape : JsString → JsString
  | [] => []
  | c :: cs => jsonEscapeChar c ++ jsonEscape cs

/-- A string as JSON text. -/
def quoteJSON (s : JsString) : JsString := '"' :: (jsonEscape s ++ ['"'])

mutual
/-- `JSON.stringify(v)` for a value other than `undefined`. -/
def stringifyVal : JsVal → JsString
  | .undefined => "null".toList
  | .null => "null".toList
  | .bool true => "true".toList
  | .bool false => "false".toList
  | .num n => numToString n
  | .str s => quoteJSON s
  | .arr items => '[' :: (stringifyItems items ++ [']'])
  | .obj members => '\x7b' :: (stringifyMembers members false ++ ['\x7d'])
/-- The elements of an array, separated by commas; `undefined` gives `null`. -/
def stringifyItems : List JsVal → JsString
  | [] => []
  | v :: rest => stringifyVal v ++ (if rest.isEmpty then [] else ',' :: stringifyItems rest)
/-- The members of an object, separated by commas; a member whose value is
`undefined` is left out.  `sep` tells whether a member was already written. -/
def stringifyMembers : List (JsString × JsVal) → Bool → JsString
  | [], _ => []
  | (k, v) :: rest, sep =>
    match v with
    | .undefined => stringifyMembers rest sep
    | w => (if sep then [','] else []) ++ quoteJSON k ++ ':' :: (stringifyVal w ++ stringifyMembers rest true)
end

/-! ## `JSON.parse` -/

/-- JSON white space. -/
def isWs (c : Char) : Bool := c = ' ' || c = '\t' || c = '\n' || c = '\r'

/-- Skip JSON white space. -/
def skipWs : JsString → JsString
  | [] => []
  | c :: cs => if isWs c then skipWs cs else c :: cs

/-- The value of a hexadecimal digit. -/
def hexVal (c : Char) : Option Nat :=
  let n := c.toNat
  if 48 ≤ n ∧ n ≤ 57 then some (n - 48)
  else if 97 ≤ n ∧ n ≤ 102 then some (n - 87)
  else if 65 ≤ n ∧ n ≤ 70 then some (n - 55)
  else none

/-- The value of four hexadecimal digits. -/
def hex4 (a b c d : Char) : Option Nat :=
  match hexVal a, hexVal b, hexVal c, hexVal d with
  | some x, some y, some z, some w => some (x * 4096 + y * 256 + z * 16 + w)
  | _, _, _, _ => none

/-- The character of a two-character escape `\e`. -/
def simpleEscape (e : Char) : Option Char :=
  if e = '"' then some '"'
  else if e = '\\' then some '\\'
  else if e = '/' then some '/'
  else if e = 'b' then some '\x08'
  else if e = 'f' then some '\x0c'
  else if e = 'n' then some '\n'
  else if e = 'r' then some '\r'
  else if e = 't' then some '\t'
  else none

/-- The characters that a pending high surrogate stands for when no low
surrogate follows it: the replacement character (a lone surrogate is not a
character of the model). -/
def flushPending : Option Nat → JsString
  | none => []
  | some _ => [replacementChar]

/-- A JSON string after its opening quote: the decoded string and the text
after the closing quote.  `pending` holds the high surrogate of a `\uD8xx`
escape that waits for its low surrogate. -/
def parseStringBody (pending : Option Nat) : JsString → Option (JsString × JsString)
  | [] => none
  | c :: cs =>
    if c = '"' then some (flushPending pending, cs)
    else if c = '\\' then
      match cs with
      | [] => none
      | e :: rest =>
        if e = 'u' then
          match rest with
          | a :: b :: c2 :: d :: rest2 =>
            match hex4 a b c2 d with
            | none => none
            | some u =>
              if 0xD800 ≤ u ∧ u ≤ 0xDBFF then
                (parseStringBody (some u) rest2).map fun r => (flushPending pending ++ r.1, r.2)
              else if 0xDC00 ≤ u ∧ u ≤ 0xDFFF then
                match pending with
                | some hi =>
                  (parseStringBody none rest2).map fun r =>
                    (Char.ofNat (0x10000 + (hi - 0xD800) * 1024 + (u - 0xDC00)) :: r.1, r.2)
                | none => (parseStringBody none rest2).map fun r => (replacementChar :: r.1, r.2)
              else
                (parseStringBody none rest2).map fun r => (flushPending pending ++ Char.ofNat u :: r.1, r.2)
          | _ => none
        else
          match simpleEscape e with
          | none => none
          | some x => (parseStringBody none rest).map fun r => (flushPending pending ++ x :: r.1, r.2)
    else if c.toNat < 0x20 then none
    else (parseStringBody none cs).map fun r => (flushPending pending ++ c :: r.1, r.2)

/-- ASCII digit test. -/
def isDigit (c : Char) : Bool := 48 ≤ c.toNat && c.toNat ≤ 57

/-- The longest prefix of digits, and the rest. -/
def spanDigits : JsString → JsString × JsString
  | [] => ([], [])
  | c :: cs => if isDigit c then ((c :: (spanDigits cs).1), (spanDigits cs).2) else ([], c :: cs)

/-- The value of a sequence of decimal digits, after digits of value `acc`. -/
def digitsToNat : JsString → Nat → Nat
  | [], acc => acc
  | c :: cs, acc => digitsToNat cs (acc * 10 + (c.toNat - 48))

/-- A character that can follow a number in JSON text without being read as
part of it. -/
def endsNumber (c : Char) : Bool :=
  !isDigit c && decide (c ≠ '.') && decide (c ≠ 'e') && decide (c ≠ 'E')

/-- The exponent part of a JSON number at the start of a text: its value and
the rest; `some (0, input)` when there is none, `none` when `e` is not followed
by digits. -/
def parseExponent (input : JsString) : Option (Int × JsString) :=
  match input with
  | [] => some (0, [])
  | c :: cs =>
    if c = 'e' ∨ c = 'E' then
      match cs with
      | [] => none
      | s :: rest =>
        if s = '-' then
          if (spanDigits rest).1 = [] then none
          else some (-(digitsToNat (spanDigits rest).1 0 : Int), (spanDigits rest).2)
        else if s = '+' then
          if (spanDigits rest).1 = [] then none
          else some ((digitsToNat (spanDigits rest).1 0 : Int), (spanDigits rest).2)
        else
          if (spanDigits cs).1 = [] then none
          else some ((digitsToNat (spanDigits cs).1 0 : Int), (spanDigits cs).2)
    else some (0, c :: cs)

/-- The fraction part of a JSON number at the start of a text: its digits and
the rest; no digits when there is none, `none` when `.` is not followed by a
digit. -/
def parseFraction (input : JsString) : Option (JsString × JsString) :=
  match input with
  | [] => some ([], [])
  | c :: cs =>
    if c = '.' then
      if (spanDigits cs).1 = [] then none else some (spanDigits cs)
    else some ([], c :: cs)

/-- An unsigned JSON number at the start of a text (`0` or a digit other than
`0` followed by digits, then an optional fraction and exponent): mantissa,
decimal exponent and rest. -/
def parseUnsigned (input : JsString) : Option (Nat × Int × JsString) :=
  match input with
  | [] => none
  | c :: cs =>
    if ¬ isDigit c then none
    else
      let intPart : JsString × JsString := if c = '0' then (['0'], cs) else spanDigits (c :: cs)
      match parseFraction intPart.2 with
      | none => none
      | some (frac, afterFrac) =>
        match parseExponent afterFrac with
        | none => none
        | some (e, rest) => some (digitsToNat (intPart.1 ++ frac) 0, e - frac.length, rest)

/-- A JSON number at the start of a text, as the exact decimal that the text
denotes; `JSON.parse` gives the double nearest to it, which is the same number
for an integer of absolute value at most `2 ^ 53`. What is proved of a parsed
number is stated for integers. -/
def parseNumber (input : JsString) : Option (JsNum × JsString) :=
  match input with
  | [] => none
  | c :: cs =>
    if c = '-' then
      (parseUnsigned cs).map fun r => (⟨-(r.1 : Int), r.2.1⟩, r.2.2)
    else
      (parseUnsigned (c :: cs)).map fun r => (⟨(r.1 : Int), r.2.1⟩, r.2.2)

/-- The text after the word `word` at the start of `input`, if it is there. -/
def dropWord : JsString → JsString → Option JsString
  | [], input => some input
  | _ :: _, [] => none
  | w :: ws, c :: cs => if w = c then dropWord ws cs else none

/-- Set the member `key` of an object that is being parsed: a repeated key
overwrites the value of the earlier member. -/
def setMember : List (JsString × JsVal) → JsString → JsVal → List (JsString × JsVal)
  | [], key, v => [(key, v)]
  | (k, w) :: rest, key, v => if k = key then (k, v) :: rest else (k, w) :: setMember rest key v

mutual
/-- A JSON value at the start of a text, after optional white space: the value
and the text after it.  Every call that goes one level down or one element to
the right uses one unit of `fuel`. -/
def parseValue : Nat → JsString → Option (JsVal × JsString)
  | 0, _ => none
  | fuel + 1, input =>
    match skipWs input with
    | [] => none
    | c :: cs =>
      if c = '\x7b' then
        match skipWs cs with
        | [] => none
        | d :: ds => if d = '\x7d' then some (.obj [], ds) else parseMembers fuel (d :: ds) []
      else if c = '[' then
        match skipWs cs with
        | [] => none
        | d :: ds => if d = ']' then some (.arr [], ds) else parseElements fuel (d :: ds) []
      else if c = '"' then
        (parseStringBody none cs).map fun r => (.str r.1, r.2)
      else if c = 't' then (dropWord "rue".toList cs).map fun r => (.bool true, r)
      else if c = 'f' then (dropWord "alse".toList cs).map fun r => (.bool false, r)
      else if c = 'n' then (dropWord "ull".toList cs).map fun r => (.null, r)
      else (parseNumber (c :: cs)).map fun r => (.num r.1, r.2)
/-- The elements of an array after `[` or after a comma, `acc` being the
elements read so far. -/
def parseElements : Nat → JsString → List JsVal → Option (JsVal × JsString)
  | 0, _, _ => none
  | fuel + 1, input, acc =>
    match parseValue fuel input with
    | none => none
    | some (v, rest) =>
      match skipWs rest with
      | [] => none
      | d :: ds =>
        if d = ',' then parseElements fuel ds (acc ++ [v])
        else if d = ']' then some (.arr (acc ++ [v]), ds)
        else none
/-- The members of an object after `{` or after a comma, `acc` being the
members read so far. -/
def parseMembers : Nat → JsString → List (JsString × JsVal) → Option (JsVal × JsString)
  | 0, _, _ => none
  | fuel + 1, input, acc =>
    match skipWs input with
    | [] => none
    | q :: afterQuote =>
      if q ≠ '"' then none
      else
        match parseStringBody none afterQuote with
        | none => none
        | some (key, afterKey) =>
          match skipWs afterKey with
          | [] => none
          | colon :: afterColon =>
            if colon ≠ ':' then none
            else
              match parseValue fuel afterColon with
              | none => none
              | some (v, rest) =>
                match skipWs rest with
                | [] => none
                | d :: ds =>
                  if d = ',' then parseMembers fuel ds (setMember acc key v)
                  else if d = '\x7d' then some (.obj (setMember acc key v), ds)
                  else none
end

/-- `JSON.parse(text)`: `none` is the `SyntaxError`.  The fuel is never used
up: every unit is spent on a call that comes after at most one other call on
the same text position, so two units per character are enough. -/
def jsonParse (text : JsString) : Option JsVal :=
  match parseValue (2 * text.length + 2) text with
  | none => none
  | some (v, rest) => if skipWs rest = [] then some v else none

/-! ## Strings: `split`, the identifier pattern -/

/-- `s.split(sep)` for a one-character separator: never empty. -/
def jsSplit (sep : Char) : JsString → List JsString
  | [] => [[]]
  | c :: cs =>
    if c = sep then [] :: jsSplit sep cs
    else
      match jsSplit sep cs with
      | [] => [[c]]
      | p :: ps => (c :: p) :: ps

/-- `pathname.split('/').pop()`: the text after the last `/`. -/
def lastSegment (pathname : JsString) : JsString :=
  ((jsSplit '/' pathname).getLast?).getD []

/-- `/^monk-\d{3}$/.test(s)` on a string. -/
def isMonkId (s : JsString) : Bool :=
  match s with
  | [c0, c1, c2, c3, c4, d0, d1, d2] =>
    c0 = 'm' && c1 = 'o' && c2 = 'n' && c3 = 'k' && c4 = '-' && isDigit d0 && isDigit d1 && isDigit d2
  | _ => false

/-! ## The environment of a request -/

/-- What the code reads from its environment while it serves one request. -/
structure Env where
  /-- The signing secret `JWT_SECRET`. -/
  JWT_SECRET : JsString
  /-- The value of `Date.now()`, in milliseconds. -/
  now : Nat
  /-- The digest `crypto.createHmac('sha256', key).update(text).digest()`,
  as a function of `key` and `text`. -/
  hmacSha256 : JsString → JsString → List Byte
  /-- The result of `s < n` for a string `s` and a number `n`, which converts
  `s` to a number first. -/
  stringLess : JsString → Nat → Bool
  /-- The digest `crypto.createHash('sha256').update(text).digest('hex')`, as a
  function of `text`. -/
  sha256Hex : JsString → JsString

/-! ## Token codec -/

/-- The object `{ alg: 'HS256', typ: 'JWT' }`. -/
def tokenHeader : JsVal :=
  .obj [("alg".toList, .str "HS256".toList), ("typ".toList, .str "JWT".toList)]

/-- The expiry `Math.floor(Date.now() / 1000) + (60 * 60 * 24 * 7)` of a token
issued now, in seconds. -/
def tokenExpiry (env : Env) : Nat := env.now / 1000 + 60 * 60 * 24 * 7

/-- The object `{ userId, exp }` with the expiry of a token issued now. -/
def tokenPayload (env : Env) (userId : JsVal) : JsVal :=
  .obj [("userId".toList, userId), ("exp".toList, .int (tokenExpiry env : Nat))]

/-- A user identifier that is a string or an integer (an integer that prints
without exponent, that is of absolute value below `10 ^ 21`). -/
def isStringOrInteger : JsVal → Bool
  | .str _ => true
  | .num x => decide (x.exp10 = 0) && decide (x.mant.natAbs < 10 ^ 21)
  | _ => false

/-- The largest time value of a JavaScript `Date`, in milliseconds. -/
def maxTime : Nat := 8640000000000000

/-- `Buffer.from(JSON.stringify(v)).toString('base64')`. -/
def encodeSegment (v : JsVal) : JsString :=
  base64Encode (utf8Encode (stringifyVal v))

/-- The base64 HMAC-SHA256 of `header.payload` under the secret. -/
def sign (env : Env) (header payload : JsString) : JsString :=
  base64Encode (env.hmacSha256 env.JWT_SECRET (header ++ '.' :: payload))

/-- The first segment of every token: the encoded header. -/
def headerSegment : JsString := encodeSegment tokenHeader

/-- The second segment of the token issued now for `userId`. -/
def payloadSegment (env : Env) (userId : JsVal) : JsString :=
  encodeSegment (tokenPayload env userId)

/-- The third segment of the token issued now for `userId`. -/
def signatureSegment (env : Env) (userId : JsVal) : JsString :=
  sign env headerSegment (payloadSegment env userId)

/-- `generateToken(userId)`. -/
def generateToken (env : Env) (userId : JsVal) : JsString :=
  let header := encodeSegment tokenHeader
  let payload := encodeSegment (tokenPayload env userId)
  let signature := sign env header payload
  header ++ '.' :: (payload ++ '.' :: signature)

/-- A token with an arbitrary header and payload, signed the way
`generateToken` signs: what the holder of the secret can build. -/
def signedToken (env : Env) (header payload : JsVal) : JsString :=
  let h := encodeSegment header
  let p := encodeSegment payload
  h ++ '.' :: (p ++ '.' :: sign env h p)

/-- `x < n` for an exact decimal `x` and a natural number `n`. -/
def numLess (x : JsNum) (n : Nat) : Bool :=
  if 0 ≤ x.exp10 then decide (x.mant * 10 ^ x.exp10.toNat < (n : Int))
  else decide (x.mant < (n : Int) * 10 ^ (-x.exp10).toNat)

/-- `v < n` for a number `n`: numbers are compared, `true` counts as 1, `null`
and `false` as 0, `undefined` is not below anything, a string is converted by
the platform, an array or object is first converted to a string; `none` is the
`TypeError` of that conversion. -/
def lessThan (env : Env) (v : JsVal) (n : Nat) : Option Bool :=
  match v with
  | .undefined => some false
  | .null => some (decide (0 < n))
  | .bool b => some (decide ((if b then 1 else 0) < n))
  | .num x => some (numLess x n)
  | .str s => some (env.stringLess s n)
  | w => (toStr w).map fun s => env.stringLess s n

/-- The end of the `try` block of `verifyToken`, for the parsed payload:
`if (payload.exp && payload.exp < Math.floor(Date.now() / 1000)) return null;
return payload;`, where an exception gives `null` as well. -/
def checkExpiry (env : Env) (payload : JsVal) : Option JsVal :=
  match getProp payload "exp".toList with
  | none => none
  | some exp =>
    if truthy exp then
      match lessThan env exp (env.now / 1000) with
      | none => none
      | some true => none
      | some false => some payload
    else some payload

/-- `verifyToken(token)`; the argument `none` is a `null` token, the result
`none` is `null`. -/
def verifyToken (env : Env) (token : Option JsString) : Option JsVal :=
  match token with
  | none => none
  | some t =>
    if t = [] then none
    else
      match jsSplit '.' t with
      | [p0, p1, p2] =>
        if sign env p0 p1 ≠ p2 then none
        else
          match jsonParse (utf8Decode (base64Decode p1)) with
          | none => none
          | some payload => checkExpiry env payload
      | _ => none

/-- A sample environment: the fallback secret of the source, a clock in
November 2023, and stand-ins for the platform functions (the digest of a text
is the UTF-8 encoding of the key followed by the text). -/
def sampleEnv : Env where
  JWT_SECRET := "defaultsecret".toList
  now := 1700000000000
  hmacSha256 := fun key text => utf8Encode (key ++ text)
  stringLess := fun _ _ => false
  sha256Hex := fun text =>
    (utf8Encode text).flatMap (fun b => [hexDigit (b.val / 16), hexDigit (b.val % 16)])

/-! ## Requests and handlers -/

/-- The parts of a request that the handlers read. -/
structure Request where
  /-- The method `req.method`. -/
  method : JsString
  /-- The path `url.parse(req.url, true).pathname`. -/
  pathname : JsString
  /-- The header `req.headers['authorization']`, if present. -/
  authorization : Option JsString
  /-- The request body, all chunks joined. -/
  body : JsString
  /-- The object `url.parse(req.url, true).query`: one member for each
  parameter name, a string, or an array of strings for a repeated name. -/
  query : List (JsString × JsVal) := []

/-- `getAuthToken(req)`. -/
def getAuthToken (req : Request) : Option JsString :=
  match req.authorization with
  | none => none
  | some auth =>
    if auth = [] then none
    else
      match jsSplit ' ' auth with
      | [p0, p1] => if p0 ≠ "Bearer".toList then none else some p1
      | _ => none

/-- How the synchronous part of a handler ends: with a response written by
`respond(res, code, payload)`, with a call of `runQuery(sql, cb)` (the response
is then written by the callback), or with an exception that nothing catches. -/
inductive Outcome where
  | respond (code : Nat) (payload : JsVal)
  | runQuery (sql : JsString)
  | throws
  /-- The answer to `OPTIONS`: status 204 and no body. -/
  | preflight
deriving Repr

/-- The payload `{ error: code }`. -/
def errorBody (code : String) : JsVal := .obj [("error".toList, .str code.toList)]

/-- The text of the register query before the username. -/
def registerHead : JsString :=
  "\n        INSERT INTO profile (username, email, password)\n        VALUES (".toList

/-- The text of the register query after the password digest. -/
def registerTail : JsString :=
  ")\n        RETURNING id, username, email;".toList

/-- The query text of `POST /api/register`. -/
def registerSQL (username email hashedPassword : JsVal) : Option JsString :=
  match escapeSQL username, escapeSQL email, escapeSQL hashedPassword with
  | some u, some e, some h =>
    some (registerHead ++ u ++ ", ".toList ++ e ++ ", ".toList ++ h ++ registerTail)
  | _, _, _ => none

/-- The text of the item query before the identifier. -/
def monkeyByIdHead : JsString :=
  "\n      SELECT row_to_json(x) FROM (\n        SELECT m.id,\n               m.name,\n               m.image_url   AS image,\n               m.rarity,\n               (m.price) AS price,\n               json_build_object(\n                 'background', t.background,\n                 'fur',        t.fur,\n                 'headgear',   t.headgear,\n                 'prop',       t.prop\n               ) AS traits\n        FROM monkeys m\n        JOIN monkey_traits t ON t.monkey_id = m.id\n        WHERE m.id = ".toList

/-- The text of the item query after the identifier. -/
def monkeyByIdTail : JsString :=
  "\n      ) x;".toList

/-- The query text of `GET /api/monkeys/:id`. -/
def monkeyByIdSQL (id : JsVal) : Option JsString :=
  match escapeSQL id with
  | some i => some (monkeyByIdHead ++ i ++ monkeyByIdTail)
  | none => none

/-- The text of the cart insert before the account identifier. -/
def cartInsertHead : JsString :=
  "\n        INSERT INTO shoppingcart (profile_id, monkey_id, quantity)\n        VALUES (".toList

/-- The text of the cart insert after the item identifier. -/
def cartInsertTail : JsString :=
  ", 1)\n        ON CONFLICT (profile_id, monkey_id)\n          DO UPDATE SET quantity = shoppingcart.quantity + 1;".toList

/-- The query text of `POST /api/cart`. -/
def cartInsertSQL (userId nftId : JsVal) : Option JsString :=
  match escapeSQL userId, escapeSQL nftId with
  | some u, some i => some (cartInsertHead ++ u ++ ", ".toList ++ i ++ cartInsertTail)
  | _, _ => none

/-- The text of the cart delete before the account identifier. -/
def cartDeleteHead : JsString :=
  "\n      DELETE FROM shoppingcart\n      WHERE profile_id = ".toList

/-- The query text of `DELETE /api/cart/:id`. -/
def cartDeleteSQL (userId id : JsVal) : Option JsString :=
  match escapeSQL userId, escapeSQL id with
  | some u, some i =>
    some (cartDeleteHead ++ u ++ " AND monkey_id = ".toList ++ i ++ ";".toList)
  | _, _ => none

/-- The test `!payload` of the protected routes on the result of
`verifyToken(getAuthToken(req))`, negated: the request carries a token that
`verifyToken` accepts with a truthy payload. -/
def authenticated (env : Env) (req : Request) : Bool :=
  match verifyToken env (getAuthToken req) with
  | none => false
  | some payload => truthy payload

/-- The handler's end when the query text is built, or its exception. -/
def issue (sql : Option JsString) : Outcome :=
  match sql with
  | some q => .runQuery q
  | none => .throws

/-- The handler of `GET /api/monkeys/:id`. -/
def getMonkeyById (req : Request) : Outcome :=
  let id := lastSegment req.pathname
  if !isMonkId id then .respond 400 (errorBody "invalid_id")
  else issue (monkeyByIdSQL (.str id))

/-- The handler of `POST /api/cart`. -/
def postCart (env : Env) (req : Request) : Outcome :=
  match verifyToken env (getAuthToken req) with
  | none => .respond 401 (errorBody "unauthorized")
  | some payload =>
    if !truthy payload then .respond 401 (errorBody "unauthorized")
    else
      match jsonParse req.body with
      | none => .respond 400 (errorBody "invalid_json")
      | some d =>
        match getProp d "nftId".toList with
        | none => .throws
        | some nftId =>
          if !truthy nftId then .respond 400 (errorBody "missing_nftId")
          else
            match toStr nftId with
            | none => .throws
            | some s =>
              if !isMonkId s then .respond 400 (errorBody "invalid_nftId")
              else issue (cartInsertSQL ((getProp payload "userId".toList).getD .undefined) nftId)

/-- The handler of `DELETE /api/cart/:id`. -/
def deleteCart (env : Env) (req : Request) : Outcome :=
  match verifyToken env (getAuthToken req) with
  | none => .respond 401 (errorBody "unauthorized")
  | some payload =>
    if !truthy payload then .respond 401 (errorBody "unauthorized")
    else
      let id := lastSegment req.pathname
      if !isMonkId id then .respond 400 (errorBody "invalid_id")
      else issue (cartDeleteSQL ((getProp payload "userId".toList).getD .undefined) (.str id))

/-! ## The list of items: filters and ordering -/

/-- The test `s.startsWith(p)`. -/
def startsWith : JsString → JsString → Bool
  | _, [] => true
  | [], _ :: _ => false
  | c :: s, d :: p => c = d && startsWith s p

/-- The test `s.includes(part)`. -/
def includes : JsString → JsString → Bool
  | [], part => startsWith [] part
  | c :: s, part => startsWith (c :: s) part || includes s part

/-- The characters that `parseInt` skips in front of its input and that `trim`
removes: white space and line terminators. -/
def isStrWhiteSpace (c : Char) : Bool :=
  c.toNat = 9 || c.toNat = 10 || c.toNat = 11 || c.toNat = 12 || c.toNat = 13 ||
  c.toNat = 32 || c.toNat = 0xA0 || c.toNat = 0x1680 ||
  (0x2000 ≤ c.toNat && c.toNat ≤ 0x200A) || c.toNat = 0x2028 || c.toNat = 0x2029 ||
  c.toNat = 0x202F || c.toNat = 0x205F || c.toNat = 0x3000 || c.toNat = 0xFEFF

/-- The input without its leading white space. -/
def trimStart : JsString → JsString
  | [] => []
  | c :: rest => if isStrWhiteSpace c then trimStart rest else c :: rest

/-- The method `s.trim()`. -/
def jsTrim (s : JsString) : JsString := (trimStart (trimStart s).reverse).reverse

/-- The sign that `parseInt` reads, and the input after it. -/
def readSign : JsString → Bool × JsString
  | '-' :: rest => (true, rest)
  | '+' :: rest => (false, rest)
  | s => (false, s)

/-- The call `parseInt(text, 10)`: leading white space is skipped, one sign is
read, and the longest run of decimal digits that follows is the value; whatever
comes after the digits is ignored. `none` is `NaN` (no digit was found). The
value is the integer that the digits denote; `parseInt` returns the double
nearest to it, which is that integer when its absolute value is at most
`2 ^ 53`. What is proved of the value is stated within this range. -/
def parseInt10 (text : JsString) : Option Int :=
  let signed := readSign (trimStart text)
  let digits := (spanDigits signed.2).1
  if digits = [] then none
  else if signed.1 then some (-(digitsToNat digits 0 : Int))
  else some (digitsToNat digits 0 : Int)

/-- The condition `m.price <= <price>` of the price filter, for a price of
absolute value at most `2 ^ 53` (see `parseInt10`). -/
def priceFilter (price : Int) : JsString :=
  "m.price <= ".toList ++ numToString ⟨price, 0⟩

/-- What `if (query.search) filters.push(...)` adds to `filters`: nothing for
a falsy value, one condition for a string; any other value has no method
`replace`, and the call throws a `TypeError` (`none`). -/
def searchConditions (search : JsVal) : Option (List JsString) :=
  if !truthy search then some []
  else
    match search with
    | .str s => some [searchFilter s]
    | _ => none

/-- What `if (query.rarity) filters.push(...)` adds to `filters`. -/
def rarityConditions (rarity : JsVal) : Option (List JsString) :=
  if !truthy rarity then some []
  else
    match rarity with
    | .str s => some [rarityFilter s]
    | _ => none

/-- What `if (query.maxPrice) { ... }` adds to `filters`: nothing for a falsy
value or when `parseInt` gives `NaN`, else the price condition. -/
def priceConditions (maxPrice : JsVal) : Option (List JsString) :=
  if !truthy maxPrice then some []
  else
    match toStr maxPrice with
    | none => none
    | some text =>
      match parseInt10 text with
      | none => some []
      | some price => some [priceFilter price]

/-- The array `filters` when all three parameters have been looked at. -/
def filtersOf (search rarity maxPrice : JsVal) : Option (List JsString) :=
  match searchConditions search, rarityConditions rarity, priceConditions maxPrice with
  | some a, some b, some c => some (a ++ b ++ c)
  | _, _, _ => none

/-- The text `whereClause`. -/
def whereClause (filters : List JsString) : JsString :=
  if filters.length ≠ 0 then "WHERE ".toList ++ List.intercalate " AND ".toList filters
  else []

/-- The ordering for `sortBy=rarity-asc`. -/
def rarityAscOrder : JsString :=
  "\n          CASE m.rarity\n            WHEN 'Common' THEN 1\n            WHEN 'Rare' THEN 2\n            WHEN 'Epic' THEN 3\n            WHEN 'Legendary' THEN 4\n            WHEN 'Mythic' THEN 5\n            ELSE 99\n          END ASC".toList

/-- The ordering for `sortBy=rarity-desc`. -/
def rarityDescOrder : JsString :=
  "\n          CASE m.rarity\n            WHEN 'Common' THEN 1\n            WHEN 'Rare' THEN 2\n            WHEN 'Epic' THEN 3\n            WHEN 'Legendary' THEN 4\n            WHEN 'Mythic' THEN 5\n            ELSE 99\n          END DESC".toList

/-- The text `orderBy`: the default `m.id`, replaced when `query.sortBy` is
truthy and strictly equal to one of the four `case` labels. -/
def orderByOf (sortBy : JsVal) : JsString :=
  if !truthy sortBy then "m.id".toList
  else
    match sortBy with
    | .str s =>
      if s = "price-asc".toList then "m.price ASC".toList
      else if s = "price-desc".toList then "m.price DESC".toList
      else if s = "rarity-asc".toList then rarityAscOrder
      else if s = "rarity-desc".toList then rarityDescOrder
      else "m.id".toList
    | _ => "m.id".toList

/-- The text of the list query before the `WHERE` clause. -/
def listHead : JsString :=
  "\n    SELECT COALESCE(JSON_AGG(row_to_json(x)), '[]'::json)\n    FROM (\n      SELECT m.id,\n             m.name,\n             m.image_url   AS image,\n             m.rarity,\n             (m.price) AS price,\n             json_build_object(\n               'background', t.background,\n               'fur',        t.fur,\n               'headgear',   t.headgear,\n               'prop',       t.prop\n             ) AS traits\n      FROM monkeys m\n      JOIN monkey_traits t ON t.monkey_id = m.id\n      ".toList

/-- The query text of `GET /api/monkeys`. -/
def listSQL (filters : List JsString) (orderBy : JsString) : JsString :=
  listHead ++ whereClause filters ++ "\n      ORDER BY ".toList ++ orderBy ++ "\n    ) x;".toList

/-- The value of `query.<name>`: `undefined` when the parameter is absent. -/
def queryParam (req : Request) (name : String) : JsVal :=
  (lookupKey req.query name.toList).getD .undefined

/-- The value of `query.<name>` for a parameter that is absent (`undefined`)
or that occurs once (a string). -/
def paramValue : Option JsString → JsVal
  | none => .undefined
  | some s => .str s

/-- The handler of `GET /api/monkeys`. -/
def listMonkeys (req : Request) : Outcome :=
  match filtersOf (queryParam req "search") (queryParam req "rarity")
      (queryParam req "maxPrice") with
  | none => .throws
  | some filters => .runQuery (listSQL filters (orderByOf (queryParam req "sortBy")))

/-! ## Accounts -/

/-- What `runQuery` hands to its callback: `cb(err)` with the message of the
failure, or `cb(null, out.trim())` with what `psql` wrote. -/
inductive StoreResult where
  | failed (message : JsString)
  | output (stdout : JsString)
deriving Repr

/-- The payload `{ error: 'db_error', detail: message }`. -/
def dbError (message : JsString) : JsVal :=
  .obj [("error".toList, .str "db_error".toList), ("detail".toList, .str message)]

/-- `hashPassword(password)`: the digest of `password + JWT_SECRET`; `none`
when the conversion of `password` to a string throws. -/
def hashPassword (env : Env) (password : JsVal) : Option JsString :=
  match toStr password with
  | none => none
  | some p => some (env.sha256Hex (p ++ env.JWT_SECRET))

/-- The text of the login query before the username. -/
def loginHead : JsString :=
  "\n        SELECT row_to_json(u) FROM (\n          SELECT id, username, email\n          FROM profile\n          WHERE username = ".toList

/-- The query text of `POST /api/login`. -/
def loginSQL (username hashedPassword : JsVal) : Option JsString :=
  match escapeSQL username, escapeSQL hashedPassword with
  | some u, some h =>
    some (loginHead ++ u ++ "\n            AND password = ".toList ++ h ++ "\n        ) u;".toList)
  | _, _ => none

/-- The text of the profile query before the account identifier. -/
def profileHead : JsString :=
  "\n      SELECT row_to_json(u) FROM (\n        SELECT id, username, email, joined_at\n        FROM profile\n        WHERE id = ".toList

/-- The query text of `GET /api/profile`. -/
def profileSQL (userId : JsVal) : Option JsString :=
  match escapeSQL userId with
  | some u => some (profileHead ++ u ++ "\n      ) u;".toList)
  | none => none

/-- The text of the cart query before the account identifier. -/
def cartListHead : JsString :=
  "\n      SELECT COALESCE(JSON_AGG(row_to_json(x)), '[]'::json)\n      FROM (\n        SELECT m.id,\n               m.name,\n               m.image_url   AS image,\n               (m.price) AS price,\n               c.quantity\n        FROM shoppingcart c\n        JOIN monkeys m ON m.id = c.monkey_id\n        WHERE c.profile_id = ".toList

/-- The query text of `GET /api/cart`. -/
def cartListSQL (userId : JsVal) : Option JsString :=
  match escapeSQL userId with
  | some u => some (cartListHead ++ u ++ "\n      ) x;".toList)
  | none => none

/-- The handler of `POST /api/register`, up to its call of `runQuery`. Reading
`d.username` throws when `d` is `null`; the exception is raised in the `end`
listener, outside the `try`. -/
def register (env : Env) (req : Request) : Outcome :=
  match jsonParse req.body with
  | none => .respond 400 (errorBody "invalid_json")
  | some d =>
    match getProp d "username".toList with
    | none => .throws
    | some username =>
      let email := (getProp d "email".toList).getD .undefined
      let password := (getProp d "password".toList).getD .undefined
      if !truthy username || !truthy email || !truthy password then
        .respond 400 (errorBody "missing_fields")
      else
        match hashPassword env password with
        | none => .throws
        | some hashedPassword => issue (registerSQL username email (.str hashedPassword))

/-- The callback that `POST /api/register` gives to `runQuery`. An exception
of `JSON.parse(result)` or of `user.id` is caught. -/
def registerDone (env : Env) (r : StoreResult) : Outcome :=
  match r with
  | .failed message =>
    if includes message "duplicate key".toList then .respond 409 (errorBody "user_exists")
    else .respond 500 (dbError message)
  | .output stdout =>
    match jsonParse (jsTrim stdout) with
    | none => .respond 500 (errorBody "parse_error")
    | some user =>
      match getProp user "id".toList with
      | none => .respond 500 (errorBody "parse_error")
      | some id =>
        .respond 201 (.obj [("user".toList, user), ("token".toList, .str (generateToken env id))])

/-- The handler of `POST /api/login`, up to its call of `runQuery`. -/
def login (env : Env) (req : Request) : Outcome :=
  match jsonParse req.body with
  | none => .respond 400 (errorBody "invalid_json")
  | some d =>
    match getProp d "username".toList with
    | none => .throws
    | some username =>
      let password := (getProp d "password".toList).getD .undefined
      if !truthy username || !truthy password then
        .respond 400 (errorBody "missing_credentials")
      else
        match hashPassword env password with
        | none => .throws
        | some hashedPassword => issue (loginSQL username (.str hashedPassword))

/-- The callback that `POST /api/login` gives to `runQuery`. -/
def loginDone (env : Env) (r : StoreResult) : Outcome :=
  match r with
  | .failed message => .respond 500 (dbError message)
  | .output stdout =>
    if jsTrim stdout = [] then .respond 401 (errorBody "invalid_credentials")
    else
      match jsonParse (jsTrim stdout) with
      | none => .respond 500 (errorBody "parse_error")
      | some user =>
        match getProp user "id".toList with
        | none => .respond 500 (errorBody "parse_error")
        | some id =>
          .respond 200 (.obj [("user".toList, user), ("token".toList, .str (generateToken env id))])

/-- The handler of `GET /api/profile`, up to its call of `runQuery`. -/
def getProfile (env : Env) (req : Request) : Outcome :=
  match verifyToken env (getAuthToken req) with
  | none => .respond 401 (errorBody "unauthorized")
  | some payload =>
    if !truthy payload then .respond 401 (errorBody "unauthorized")
    else issue (profileSQL ((getProp payload "userId".toList).getD .undefined))

/-- The handler of `GET /api/cart`, up to its call of `runQuery`. -/
def getCart (env : Env) (req : Request) : Outcome :=
  match verifyToken env (getAuthToken req) with
  | none => .respond 401 (errorBody "unauthorized")
  | some payload =>
    if !truthy payload then .respond 401 (errorBody "unauthorized")
    else issue (cartListSQL ((getProp payload "userId".toList).getD .undefined))

/-! ## The router -/

/-- The request listener of `http.createServer`: the routes are tried in the
order of the source, and the first whose test holds serves the request. -/
def server (env : Env) (req : Request) : Outcome :=
  if req.method = "OPTIONS".toList then .preflight
  else if req.method = "GET".toList ∧ req.pathname = "/health".toList then
    .respond 200 (.obj [("status".toList, .str "healthy".toList)])
  else if req.method = "POST".toList ∧ req.pathname = "/api/register".toList then
    register env req
  else if req.method = "POST".toList ∧ req.pathname = "/api/login".toList then
    login env req
  else if req.method = "GET".toList ∧ req.pathname = "/api/profile".toList then
    getProfile env req
  else if req.method = "GET".toList ∧ req.pathname = "/api/monkeys".toList then
    listMonkeys req
  else if req.method = "GET".toList ∧ startsWith req.pathname "/api/monkeys/".toList then
    getMonkeyById req
  else if req.method = "GET".toList ∧ req.pathname = "/api/cart".toList then
    getCart env req
  else if req.method = "POST".toList ∧ req.pathname = "/api/cart".toList then
    postCart env req
  else if req.method = "DELETE".toList ∧ startsWith req.pathname "/api/cart/".toList then
    deleteCart env req
  else .respond 404 (errorBody "not_found")

/-! ## The store's reading of the list query

The conditions and orderings above are texts; what they select and how they
order is decided by PostgreSQL. The definitions of this section state the
documented meaning of the operators that occur in them. -/

/-- Whether `f` holds of the text or of one of its tails. -/
def anyTail (f : JsString → Bool) : JsString → Bool
  | [] => f []
  | c :: rest => f (c :: rest) || anyTail f rest

/-- The operator `text LIKE pattern` with the default escape character: `%`
matches any run of characters, `_` any one character, a backslash makes the
pattern character after it literal, and any other character matches itself.
A pattern that ends in a lone backslash matches nothing (PostgreSQL raises an
error for it). The pattern is the first argument. -/
def likeMatch : JsString → JsString → Bool
  | [] => fun text => text.isEmpty
  | p :: ps => fun text =>
    if p = '%' then anyTail (likeMatch ps) text
    else if p = '\\' then
      match ps with
      | [] => false
      | c :: ps2 =>
        match text with
        | [] => false
        | t :: ts => t = c && likeMatch ps2 ts
    else
      match text with
      | [] => false
      | t :: ts => (p = '_' || t = p) && likeMatch ps ts

/-- The function `LOWER` on the letters `A` to `Z`. -/
def sqlLower (s : JsString) : JsString := s.map Char.toLower

/-- The value of the condition `searchFilter search` on an item called `name`:
`LOWER(m.name) LIKE LOWER(pattern)`, where `pattern` is the text that the
literal of the condition denotes, `%` followed by `search` and `%`. -/
def nameMatches (search name : JsString) : Bool :=
  likeMatch (sqlLower ('%' :: (search ++ ['%']))) (sqlLower name)

/-- The arms `WHEN rarity THEN rank` of the two rarity orderings. -/
def rarityArms : List (JsString × Nat) :=
  [("Common".toList, 1), ("Rare".toList, 2), ("Epic".toList, 3), ("Legendary".toList, 4),
   ("Mythic".toList, 5)]

/-- The text of `CASE m.rarity WHEN ... ELSE otherwise END direction`, laid
out as in the source. -/
def renderCase (arms : List (JsString × Nat)) (otherwise : Nat) (direction : JsString) :
    JsString :=
  "\n          CASE m.rarity\n".toList ++
  arms.flatMap (fun arm =>
    "            WHEN '".toList ++ arm.1 ++ "' THEN ".toList ++ Nat.toDigits 10 arm.2 ++ ['\n']) ++
  "            ELSE ".toList ++ Nat.toDigits 10 otherwise ++ "\n          END ".toList ++ direction

/-- The value of `CASE value WHEN ... ELSE otherwise END`: the rank of the
first arm that equals the value. -/
def evalCase : List (JsString × Nat) → Nat → JsString → Nat
  | [], otherwise, _ => otherwise
  | arm :: rest, otherwise, value =>
    if value = arm.1 then arm.2 else evalCase rest otherwise value

/-- The sort key of an item under the two rarity orderings. -/
def rarityKey (rarity : JsString) : Nat := evalCase rarityArms 99 rarity

/-- Whether `ORDER BY key ASC` (or `DESC`) puts every item of rarity `a` in
front of every item of rarity `b`. -/
def placedBefore (descending : Bool) (a b : JsString) : Bool :=
  if descending then decide (rarityKey b < rarityKey a)
  else decide (rarityKey a < rarityKey b)

/-- What `psql -t -A -F ''` writes for the rows of a result: the fields of a
row with nothing between them, and a line end after each row. -/
def psqlOutput (rows : List (List JsString)) : JsString :=
  rows.flatMap (fun row => row.foldr (fun field rest => field ++ rest) [] ++ ['\n'])

/-! ## Responses and the callbacks of the store calls -/

/-- What a handler hands to the transport: the status, the `Content-Length`
header if one is set, and the body passed to `res.end`. -/
structure Response where
  statusCode : Nat
  contentLength : Option Nat
  body : JsString
deriving DecidableEq, Repr

/-- The helper `respond(res, code, payload)`: the body is
`JSON.stringify(payload)` and `Content-Length` is its length in bytes. -/
def respond (code : Nat) (payload : JsVal) : Response :=
  { statusCode := code,
    contentLength := some (utf8Encode (stringifyVal payload)).length,
    body := stringifyVal payload }

/-- The answer to `OPTIONS`: `res.writeHead(204, ...)` without a
`Content-Length`, then `res.end()`. -/
def preflightResponse : Response :=
  { statusCode := 204, contentLength := none, body := [] }

/-- The callback that `GET /api/profile` gives to `runQuery`. -/
def profileDone (r : StoreResult) : Outcome :=
  match r with
  | .failed message => .respond 500 (dbError message)
  | .output stdout =>
    if jsTrim stdout = [] then .respond 404 (errorBody "user_not_found")
    else
      match jsonParse (jsTrim stdout) with
      | none => .respond 500 (errorBody "parse_error")
      | some user => .respond 200 (.obj [("user".toList, user)])

/-- The callback that `GET /api/monkeys` and `GET /api/cart` give to
`runQuery`: `JSON.parse(j || '[]')` is not inside a `try`. -/
def listDone (r : StoreResult) : Outcome :=
  match r with
  | .failed message => .respond 500 (dbError message)
  | .output stdout =>
    match jsonParse (if jsTrim stdout = [] then "[]".toList else jsTrim stdout) with
    | none => .throws
    | some items => .respond 200 items

/-- The callback that `GET /api/monkeys/:id` gives to `runQuery`:
`JSON.parse(j)` is not inside a `try`. -/
def itemDone (r : StoreResult) : Outcome :=
  match r with
  | .failed message => .respond 500 (dbError message)
  | .output stdout =>
    if jsTrim stdout = [] then .respond 404 (errorBody "not_found")
    else
      match jsonParse (jsTrim stdout) with
      | none => .throws
      | some item => .respond 200 item

/-- The callback that `POST /api/cart` gives to `runQuery`. -/
def cartInsertDone (r : StoreResult) : Outcome :=
  match r with
  | .failed message => .respond 500 (dbError message)
  | .output _ => .respond 201 (.obj [("ok".toList, .bool true)])

/-- The callback that `DELETE /api/cart/:id` gives to `runQuery`. -/
def cartDeleteDone (r : StoreResult) : Outcome :=
  match r with
  | .failed message => .respond 500 (dbError message)
  | .output _ => .respond 204 (.obj [])

/-! ## The command line of `runQuery` -/

/-- The replacement `sql.replace(/'/g, "'\\''")`: every single quote becomes
the four characters quote, backslash, quote, quote. -/
def shellEscape : JsString → JsString
  | [] => []
  | c :: cs =>
    if c = '\'' then '\'' :: '\\' :: '\'' :: '\'' :: shellEscape cs else c :: shellEscape cs

/-- The word after `-c` in the command of `runQuery`. -/
def commandWord (sql : JsString) : JsString := '\'' :: (shellEscape sql ++ ['\''])

/-- The command `cmd` of `runQuery`. -/
def commandLine (databaseUrl sql : JsString) : JsString :=
  "psql \"".toList ++ databaseUrl ++ "\" -t -A -F '' -c ".toList ++ commandWord sql

/-- The message of the error that `exec` hands to its callback when the
command fails: `Command failed: `, the command, a line end, and what the
command wrote to its error output. -/
def execMessage (cmd stderr : JsString) : JsString :=
  "Command failed: ".toList ++ cmd ++ '\n' :: stderr

/-- What `runQuery` hands to its callback when `psql` fails with the error
output `stderr`. -/
def runQueryFailure (databaseUrl sql stderr : JsString) : StoreResult :=
  .failed (execMessage (commandLine databaseUrl sql) stderr)

/-- The unquoted characters that end a word of a shell command. -/
def endsWord (c : Char) : Bool :=
  c = ' ' || c = '\t' || c = '\n' || c = '|' || c = '&' || c = ';' || c = '<' || c = '>' ||
  c = '(' || c = ')'

/-- Reading one word of a shell command by the quoting rules of POSIX: between
single quotes every character stands for itself up to the next single quote;
outside them a backslash makes the next character literal (and removes a line
end), and a blank or an operator ends the word. The flag says whether the
reader is between single quotes. The result is the text the word denotes and
the input after it; `none` when a quote is not closed, and for double quotes,
dollar signs and backquotes outside single quotes, which this reader does not
expand. -/
def shellWord : Bool → JsString → Option (JsString × JsString)
  | true, [] => none
  | false, [] => some ([], [])
  | true, c :: cs =>
    if c = '\'' then shellWord false cs
    else (shellWord true cs).map (fun r => (c :: r.1, r.2))
  | false, c :: cs =>
    if c = '\'' then shellWord true cs
    else if c = '\\' then
      match cs with
      | [] => none
      | d :: ds =>
        if d = '\n' then shellWord false ds
        else (shellWord false ds).map (fun r => (d :: r.1, r.2))
    else if endsWord c then some ([], c :: cs)
    else if c = '"' || c = '$' || c = Char.ofNat 96 then none
    else (shellWord false cs).map (fun r => (c :: r.1, r.2))

/-! ## The cart table under the insert of `POST /api/cart` -/

/-- A row of `shoppingcart`. -/
structure CartLine where
  account : JsString
  item : JsString
  quantity : Nat
deriving DecidableEq, Repr

/-- The quantity in `VALUES (..., 1)` of the cart insert. -/
def cartInitialQuantity : Nat := 1

/-- The increment in `DO UPDATE SET quantity = shoppingcart.quantity + 1`. -/
def cartIncrement : Nat := 1

/-- Whether a row is the line of the pair. -/
def isLineOf (account item : JsString) (line : CartLine) : Bool :=
  line.account = account && line.item = item

/-- The statement `INSERT ... VALUES (account, item, initial) ON CONFLICT
(profile_id, monkey_id) DO UPDATE SET quantity = shoppingcart.quantity +
increment` on a table: the row of the pair gets the increment; without such a
row a new one is added. -/
def upsertLine (initial increment : Nat) (account item : JsString) :
    List CartLine → List CartLine
  | [] => [{ account := account, item := item, quantity := initial }]
  | line :: rest =>
    if isLineOf account item line then { line with quantity := line.quantity + increment } :: rest
    else line :: upsertLine initial increment account item rest

/-- The table after a successful `POST /api/cart` of the account for the
item. -/
def addToCart (account item : JsString) (table : List CartLine) : List CartLine :=
  upsertLine cartInitialQuantity cartIncrement account item table

/-- The table after `n` successive adds. -/
def addToCartTimes : Nat → JsString → JsString → List CartLine → List CartLine
  | 0, _, _, table => table
  | n + 1, account, item, table => addToCartTimes n account item (addToCart account item table)

/-- The uniqueness constraint on `(profile_id, monkey_id)`. -/
def uniqueLines (table : List CartLine) : Prop :=
  (table.map (fun line => (line.account, line.item))).Nodup

/-! ## The frontend (`src/frontend/js`) -/

/-- What the data client reads of a `fetch` response. -/
structure FetchResponse where
  status : Nat
  body : JsString
deriving DecidableEq, Repr

/-- The property `res.ok`: the status is in the range 200 to 299. -/
def FetchResponse.ok (res : FetchResponse) : Bool :=
  decide (200 ≤ res.status) && decide (res.status ≤ 299)

/-- What a function of the data client does with a response besides
returning: the address it assigns to `window.location.href`, if any, and
whether it ends with an exception. -/
structure ClientEffect where
  location : Option JsString
  failed : Bool
deriving DecidableEq, Repr

/-- The function `getAuthHeaders` of `api.js`: the `Authorization` header for
the token in local storage, if there is a non-empty one. -/
def getAuthHeaders (authToken : Option JsString) : Option JsString :=
  match authToken with
  | none => none
  | some token => if token = [] then none else some ("Bearer ".toList ++ token)

/-- The function `getCart` of `api.js` on the response to its request:
`if (!res.ok) throw ...; return res.json()`. -/
def Api.getCart (res : FetchResponse) : ClientEffect :=
  if !res.ok then { location := none, failed := true }
  else { location := none, failed := (jsonParse res.body).isNone }

/-- The function `addToCart` of `api.js` on the response to its request. -/
def Api.addToCart (res : FetchResponse) : ClientEffect :=
  if res.status = 401 then { location := some "/login.html".toList, failed := false }
  else { location := none, failed := false }

/-- The function `removeFromCart` of `api.js` on the response to its
request. -/
def Api.removeFromCart (res : FetchResponse) : ClientEffect :=
  if res.status = 401 then { location := some "/login.html".toList, failed := false }
  else { location := none, failed := false }

/-- The request that `addToCart` of `api.js` sends for an item. -/
def Api.addToCartRequest (authToken : Option JsString) (id : JsString) : Request :=
  { method := "POST".toList, pathname := "/api/cart".toList,
    authorization := getAuthHeaders authToken,
    body := stringifyVal (.obj [("nftId".toList, .str id)]) }

/-- The request that `handleIncreaseQuantity` of `cart.js` sends for the line
of an item: its only header is `Content-Type`; the token in local storage is
not read. -/
def handleIncreaseQuantity (_authToken : Option JsString) (itemId : JsString) : Request :=
  { method := "POST".toList, pathname := "/api/cart".toList, authorization := none,
    body := stringifyVal (.obj [("nftId".toList, .str itemId)]) }

/-- The longest run of hexadecimal digits at the start of a text. -/
def spanHex : JsString → JsString
  | [] => []
  | c :: cs => if (hexVal c).isSome then c :: spanHex cs else []

/-- The value of a run of hexadecimal digits, after digits of value `acc`. -/
def hexToNat : JsString → Nat → Nat
  | [], acc => acc
  | c :: cs, acc => hexToNat cs (acc * 16 + (hexVal c).getD 0)

/-- The call `parseInt(text)` without a radix: as `parseInt(text, 10)`, except
that digits after `0x` or `0X` are read in base 16. `none` is `NaN`. -/
def parseIntAuto (text : JsString) : Option Int :=
  let signed := readSign (trimStart text)
  match signed.2 with
  | '0' :: x :: rest =>
    if x = 'x' ∨ x = 'X' then
      if spanHex rest = [] then none
      else if signed.1 then some (-(hexToNat (spanHex rest) 0 : Int))
      else some (hexToNat (spanHex rest) 0 : Int)
    else parseInt10 text
  | _ => parseInt10 text

/-- Whether `handleDecreaseQuantity` of `cart.js` calls `handleRemoveItem` for
a line whose quantity is displayed as `quantityText`: it returns early for a
quantity of at most 1, and removes the line when the quantity is 2. -/
def handleDecreaseQuantity (quantityText : JsString) : Bool :=
  match parseIntAuto quantityText with
  | none => false
  | some currentQuantity =>
    if currentQuantity ≤ 1 then false
    else decide (currentQuantity = 2)

/-- A line of the cart as `GET /api/cart` returns it, with an integer
price. -/
structure CartItem where
  price : Int
  quantity : Int
deriving DecidableEq, Repr

/-- The total of `updateCartSummary` in `cart.js`. -/
def updateCartSummary (items : List CartItem) : Int :=
  items.foldl (fun sum item => sum + item.price * item.quantity) 0

/-- The total of `handleCheckout` in `cart.js`. -/
def handleCheckout (cartItems : List CartItem) : Int :=
  cartItems.foldl (fun sum item => sum + item.price * item.quantity) 0

/-- The total of `displayCart` in `main.js`. -/
def displayCart (cart : List CartItem) : Int :=
  cart.foldl (fun sum nft => sum + nft.price) 0

/-! ## Query text: quoting -/

theorem doubleQuotes_append (s t : JsString) :
    doubleQuotes (s ++ t) = doubleQuotes s ++ doubleQuotes t := by
  induction s with
  | nil => rfl
  | cons c cs ih =>
    by_cases h : c = '\''
    · simp [doubleQuotes, h, ih]
    · simp [doubleQuotes, h, ih]

theorem doubleQuotes_of_no_quote (s : JsString) (h : '\'' ∉ s) : doubleQuotes s = s := by
  induction s with
  | nil => rfl
  | cons c cs ih =>
    have hc : c ≠ '\'' := fun e => h (by simp [e])
    have hcs : '\'' ∉ cs := fun e => h (by simp [e])
    simp [doubleQuotes, hc, ih hcs]

theorem readLiteralBody_doubleQuotes (s rest : JsString) (h : rest.head? ≠ some '\'') :
    readLiteralBody (doubleQuotes s ++ '\'' :: rest) = some (s, rest) := by
  induction s with
  | nil =>
    cases rest with
    | nil => simp [doubleQuotes, readLiteralBody]
    | cons d ds =>
      have hd : d ≠ '\'' := by simpa using h
      simp [doubleQuotes, readLiteralBody, hd]
  | cons c cs ih =>
    by_cases hc : c = '\''
    · subst hc
      simp [doubleQuotes, readLiteralBody, ih]
    · simp only [doubleQuotes, hc, if_false, List.cons_append]
      rw [readLiteralBody.eq_def]
      simp [hc, ih]

theorem readLiteral_quoteLiteral (s rest : JsString) (h : rest.head? ≠ some '\'') :
    readLiteral (quoteLiteral s ++ rest) = some (s, rest) := by
  simp [quoteLiteral, readLiteral, readLiteralBody_doubleQuotes s rest h]

theorem readLiteral_quoteLiteral_nil (s : JsString) :
    readLiteral (quoteLiteral s) = some (s, []) := by
  have h := readLiteral_quoteLiteral s [] (by simp)
  simpa using h

/-- C1: for every string `s`, `escapeSQL(s)` is a quote, `s` with every quote
doubled, and a quote; the search filter puts `'%`, the doubled `s` and `%'`
into the query, the rarity filter the same text as `escapeSQL`; each of these
texts, read as a SQL string literal, is one complete literal with nothing left
over, and inside the filters the reading stops exactly at the closing quote
(before the `)` of the search condition). -/
theorem escapeSQL_is_one_literal (s : JsString) :
    escapeSQL (.str s) = some ('\'' :: (doubleQuotes s ++ ['\''])) ∧
    searchFilter s =
      "LOWER(m.name) LIKE LOWER(".toList ++ ('\'' :: '%' :: (doubleQuotes s ++ ['%', '\''])) ++ [')'] ∧
    rarityFilter s = "m.rarity = ".toList ++ ('\'' :: (doubleQuotes s ++ ['\''])) ∧
    (readLiteral ('\'' :: (doubleQuotes s ++ ['\'']))).map Prod.snd = some [] ∧
    (readLiteral ('\'' :: '%' :: (doubleQuotes s ++ ['%', '\'']))).map Prod.snd = some [] ∧
    (readLiteral ('\'' :: '%' :: (doubleQuotes s ++ ['%', '\'']) ++ [')'])).map Prod.snd = some [')'] := by
  have hq : ('\'' :: '%' :: (doubleQuotes s ++ ['%', '\''])) = quoteLiteral ('%' :: (s ++ ['%'])) := by
    simp [quoteLiteral, doubleQuotes, doubleQuotes_append]
  refine ⟨rfl, ?_, ?_, ?_, ?_, ?_⟩
  · simp [searchFilter]
  · simp [rarityFilter]
  · have h := readLiteral_quoteLiteral_nil s
    simp only [quoteLiteral] at h
    simp [h]
  · rw [hq, readLiteral_quoteLiteral_nil]
    rfl
  · rw [hq, readLiteral_quoteLiteral _ [')'] (by simp)]
    rfl

/-- C2: decoding `escapeSQL(s)` as a SQL string literal gives back exactly `s`
with nothing left over, so `escapeSQL` is injective on strings; in the
query of `POST /api/register` the username and the email are such literals
(each followed by a comma), which decode to the username and the email. -/
theorem escapeSQL_roundtrip (s : JsString) :
    (escapeSQL (.str s)).bind readLiteral = some (s, []) ∧
    Function.Injective (fun t : JsString => escapeSQL (.str t)) ∧
    (∀ email hashed : JsString,
      registerSQL (.str s) (.str email) (.str hashed) =
        some (registerHead ++ quoteLiteral s ++ ", ".toList ++ quoteLiteral email ++ ", ".toList ++
          quoteLiteral hashed ++ registerTail)) ∧
    (∀ rest : JsString, readLiteral (quoteLiteral s ++ ',' :: rest) = some (s, ',' :: rest)) := by
  refine ⟨?_, ?_, ?_, ?_⟩
  · show readLiteral (quoteLiteral s) = some (s, [])
    exact readLiteral_quoteLiteral_nil s
  · intro a b hab
    have h1 : (escapeSQL (.str a)).bind readLiteral = (escapeSQL (.str b)).bind readLiteral :=
      congrArg (fun o => o.bind readLiteral) hab
    have ha : (escapeSQL (.str a)).bind readLiteral = some (a, []) := readLiteral_quoteLiteral_nil a
    have hb : (escapeSQL (.str b)).bind readLiteral = some (b, []) := readLiteral_quoteLiteral_nil b
    rw [ha, hb] at h1
    simpa using h1
  · intro email hashed
    rfl
  · intro rest
    exact readLiteral_quoteLiteral s (',' :: rest) (by simp)

/-! ## `split` -/

theorem jsSplit_ne_nil (sep : Char) (s : JsString) : jsSplit sep s ≠ [] := by
  induction s with
  | nil => simp [jsSplit]
  | cons c cs ih =>
    by_cases h : c = sep
    · simp [jsSplit, h]
    · cases hs : jsSplit sep cs with
      | nil => exact absurd hs ih
      | cons p ps => simp [jsSplit, h, hs]

theorem jsSplit_of_not_mem (sep : Char) (a : JsString) (h : sep ∉ a) : jsSplit sep a = [a] := by
  induction a with
  | nil => rfl
  | cons c cs ih =>
    have hc : c ≠ sep := fun e => h (by simp [e])
    have hcs : sep ∉ cs := fun e => h (by simp [e])
    simp [jsSplit, hc, ih hcs]

theorem jsSplit_append (sep : Char) (a rest : JsString) (h : sep ∉ a) :
    jsSplit sep (a ++ sep :: rest) = a :: jsSplit sep rest := by
  induction a with
  | nil => simp [jsSplit]
  | cons c cs ih =>
    have hc : c ≠ sep := fun e => h (by simp [e])
    have hcs : sep ∉ cs := fun e => h (by simp [e])
    simp [jsSplit, hc, ih hcs]

/-- The parts of a split contain no separator, and joined by the separator
they give the text back. -/
theorem jsSplit_parts (sep : Char) (s : JsString) :
    (∀ p ∈ jsSplit sep s, sep ∉ p) ∧
    s = List.intercalate [sep] (jsSplit sep s) := by
  induction s with
  | nil => simp [jsSplit, List.intercalate]
  | cons c cs ih =>
    by_cases h : c = sep
    · subst h
      refine ⟨?_, ?_⟩
      · intro p hp
        simp only [jsSplit, if_true, List.mem_cons] at hp
        rcases hp with rfl | hp
        · simp
        · exact ih.1 p hp
      · have hne := jsSplit_ne_nil c cs
        cases hs : jsSplit c cs with
        | nil => exact absurd hs hne
        | cons p ps =>
          have h2 := ih.2
          rw [hs] at h2
          simp only [jsSplit, if_true, hs]
          rw [h2]
          simp [List.intercalate, List.intersperse]
    · cases hs : jsSplit sep cs with
      | nil => exact absurd hs (jsSplit_ne_nil sep cs)
      | cons p ps =>
        have h1 := ih.1
        have h2 := ih.2
        rw [hs] at h1 h2
        refine ⟨?_, ?_⟩
        · intro q hq
          simp only [jsSplit, h, if_false, hs, List.mem_cons] at hq
          rcases hq with rfl | hq
          · have := h1 p (by simp)
            intro hmem
            simp only [List.mem_cons] at hmem
            rcases hmem with e | e
            · exact h e.symm
            · exact this e
          · exact h1 q (by simp [hq])
        · simp only [jsSplit, h, if_false, hs]
          conv_lhs => rw [h2]
          cases ps <;> simp [List.intercalate, List.intersperse]

theorem jsSplit_eq_two (sep : Char) (s a b : JsString) :
    jsSplit sep s = [a, b] ↔ s = a ++ sep :: b ∧ sep ∉ a ∧ sep ∉ b := by
  constructor
  · intro h
    have hp := jsSplit_parts sep s
    rw [h] at hp
    refine ⟨?_, hp.1 a (by simp), hp.1 b (by simp)⟩
    have := hp.2
    simpa [List.intercalate, List.intersperse] using this
  · rintro ⟨rfl, ha, hb⟩
    rw [jsSplit_append sep a b ha, jsSplit_of_not_mem sep b hb]

theorem jsSplit_eq_three (sep : Char) (s a b c : JsString) :
    jsSplit sep s = [a, b, c] ↔ s = a ++ sep :: (b ++ sep :: c) ∧ sep ∉ a ∧ sep ∉ b ∧ sep ∉ c := by
  constructor
  · intro h
    have hp := jsSplit_parts sep s
    rw [h] at hp
    refine ⟨?_, hp.1 a (by simp), hp.1 b (by simp), hp.1 c (by simp)⟩
    have := hp.2
    simpa [List.intercalate, List.intersperse] using this
  · rintro ⟨rfl, ha, hb, hc⟩
    rw [jsSplit_append sep a _ ha, jsSplit_append sep b c hb, jsSplit_of_not_mem sep c hc]

/-- C10: `getAuthToken` returns a token `t` exactly when the `Authorization`
header is `Bearer`, one space and `t`, with no space in `t` (the text after
the space, which is empty for the header `Bearer` followed by one space); for
every other header value it returns `null`, as it does for a missing header. -/
theorem getAuthToken_bearer (req : Request) :
    (∀ t : JsString, getAuthToken req = some t ↔
      (req.authorization = some ("Bearer".toList ++ ' ' :: t) ∧ ' ' ∉ t)) ∧
    ((¬ ∃ t : JsString, req.authorization = some ("Bearer".toList ++ ' ' :: t) ∧ ' ' ∉ t) ↔
      getAuthToken req = none) ∧
    (getAuthToken { req with authorization := none } = none) := by
  have key : ∀ t : JsString, getAuthToken req = some t ↔
      (req.authorization = some ("Bearer".toList ++ ' ' :: t) ∧ ' ' ∉ t) := by
    intro t
    unfold getAuthToken
    cases hauth : req.authorization with
    | none => simp
    | some auth =>
      simp only [Option.some.injEq]
      by_cases hnil : auth = []
      · subst hnil
        simp
      · simp only [hnil, if_false]
        constructor
        · intro h
          split at h
          · rename_i p0 p1 hs
            split at h
            · exact absurd h (by simp)
            · rename_i hp0
              have hp0 : p0 = "Bearer".toList := by simpa using hp0
              have ht : p1 = t := by simpa using h
              subst ht
              subst hp0
              have := (jsSplit_eq_two ' ' auth _ _).1 hs
              exact ⟨this.1, this.2.2⟩
          · exact absurd h (by simp)
        · rintro ⟨rfl, ht⟩
          rw [(jsSplit_eq_two ' ' _ "Bearer".toList t).2 ⟨rfl, by decide, ht⟩]
          simp
  refine ⟨key, ?_, rfl⟩
  constructor
  · intro h
    cases hg : getAuthToken req with
    | none => rfl
    | some t => exact absurd ⟨t, (key t).1 hg⟩ h
  · rintro hg ⟨t, ht⟩
    have := (key t).2 ht
    rw [hg] at this
    exact absurd this (by simp)

/-! ## base64 -/

theorem b64Char_facts (n : Nat) (h : n < 64) :
    unbase64 (b64Char n) = some n ∧ b64Char n ≠ '=' ∧ b64Char n ≠ '.' := by
  interval_cases n <;> decide

theorem b64Char_ne_dot (n : Nat) : b64Char n ≠ '.' := by
  by_cases h : n < 64
  · exact (b64Char_facts n h).2.2
  · have h1 : ¬ n < 26 := by omega
    have h2 : ¬ n < 52 := by omega
    have h3 : ¬ n < 62 := by omega
    have h4 : n ≠ 62 := by omega
    simp [b64Char, h1, h2, h3, h4]

/-- Base64 text never contains a dot. -/
theorem base64Encode_no_dot (bs : List Byte) : '.' ∉ base64Encode bs := by
  induction bs using base64Encode.induct with
  | case1 => simp [base64Encode]
  | case2 a =>
    simp only [base64Encode, List.mem_cons, List.mem_singleton, not_or, List.not_mem_nil, or_false]
    exact ⟨(b64Char_ne_dot _).symm, (b64Char_ne_dot _).symm, by decide, by decide⟩
  | case3 a b =>
    simp only [base64Encode, List.mem_cons, List.mem_singleton, not_or, List.not_mem_nil, or_false]
    exact ⟨(b64Char_ne_dot _).symm, (b64Char_ne_dot _).symm, (b64Char_ne_dot _).symm, by decide⟩
  | case4 a b c rest ih =>
    simp only [base64Encode, List.mem_cons, not_or]
    exact ⟨(b64Char_ne_dot _).symm, (b64Char_ne_dot _).symm, (b64Char_ne_dot _).symm,
      (b64Char_ne_dot _).symm, ih⟩

theorem sextets_b64Char (n : Nat) (h : n < 64) (cs : JsString) :
    sextets (b64Char n :: cs) = n :: sextets cs := by
  have hf := b64Char_facts n h
  simp [sextets, hf.1, hf.2.1]

theorem byteOfNat_val (b : Byte) : byteOfNat b.val = b := by
  apply Fin.ext
  simp [byteOfNat, Nat.mod_eq_of_lt b.isLt]

theorem byteOfNat_eq (n : Nat) (b : Byte) (h : n = b.val) : byteOfNat n = b := by
  subst h
  exact byteOfNat_val b

/-- Decoding the base64 text of a byte sequence gives the bytes back. -/
theorem base64Decode_encode (bs : List Byte) : base64Decode (base64Encode bs) = bs := by
  unfold base64Decode
  induction bs using base64Encode.induct with
  | case1 => simp [base64Encode, sextets, bytesOfSextets]
  | case2 a =>
    have ha := a.isLt
    rw [base64Encode, sextets_b64Char _ (by omega), sextets_b64Char _ (by omega)]
    simp only [sextets, if_true, bytesOfSextets, List.cons.injEq, and_true]
    exact byteOfNat_eq _ _ (by omega)
  | case3 a b =>
    have ha := a.isLt
    have hb := b.isLt
    rw [base64Encode, sextets_b64Char _ (by omega), sextets_b64Char _ (by omega),
      sextets_b64Char _ (by omega)]
    simp only [sextets, if_true, bytesOfSextets, List.cons.injEq, and_true]
    exact ⟨byteOfNat_eq _ _ (by omega), byteOfNat_eq _ _ (by omega)⟩
  | case4 a b c rest ih =>
    have ha := a.isLt
    have hb := b.isLt
    have hc := c.isLt
    rw [base64Encode, sextets_b64Char _ (by omega), sextets_b64Char _ (by omega),
      sextets_b64Char _ (by omega), sextets_b64Char _ (by omega)]
    simp only [bytesOfSextets, List.cons.injEq]
    exact ⟨byteOfNat_eq _ _ (by omega), byteOfNat_eq _ _ (by omega),
      byteOfNat_eq _ _ (by omega), ih⟩

theorem base64Encode_injective : Function.Injective base64Encode := by
  intro a b h
  have := congrArg base64Decode h
  simpa [base64Decode_encode] using this

/-! ## UTF-8 -/

theorem byteOfNat_val_of_lt (n : Nat) (h : n < 256) : (byteOfNat n).val = n := by
  simp [byteOfNat, Nat.mod_eq_of_lt h]

theorem utf8_lead1 (b : Byte) (bs : List Byte) (h : b.val ≤ 0x7F) :
    utf8DecodeAux 0 0 0x80 0xBF (b :: bs) = Char.ofNat b.val :: utf8DecodeAux 0 0 0x80 0xBF bs := by
  rw [utf8DecodeAux]
  simp [h]

theorem utf8_lead2 (b : Byte) (bs : List Byte) (h1 : 0xC2 ≤ b.val) (h2 : b.val ≤ 0xDF) :
    utf8DecodeAux 0 0 0x80 0xBF (b :: bs) = utf8DecodeAux 1 (b.val % 32) 0x80 0xBF bs := by
  rw [utf8DecodeAux]
  have h3 : ¬ b.val ≤ 0x7F := by omega
  simp [h1, h2, h3]

theorem utf8_lead3 (b : Byte) (bs : List Byte) (h1 : 0xE0 ≤ b.val) (h2 : b.val ≤ 0xEF) :
    utf8DecodeAux 0 0 0x80 0xBF (b :: bs) =
      utf8DecodeAux 2 (b.val % 16) (if b.val = 0xE0 then 0xA0 else 0x80)
        (if b.val = 0xED then 0x9F else 0xBF) bs := by
  rw [utf8DecodeAux]
  have h3 : ¬ b.val ≤ 0x7F := by omega
  have h4 : ¬ (0xC2 ≤ b.val ∧ b.val ≤ 0xDF) := by omega
  simp [h1, h2, h3, h4]

theorem utf8_lead4 (b : Byte) (bs : List Byte) (h1 : 0xF0 ≤ b.val) (h2 : b.val ≤ 0xF4) :
    utf8DecodeAux 0 0 0x80 0xBF (b :: bs) =
      utf8DecodeAux 3 (b.val % 8) (if b.val = 0xF0 then 0x90 else 0x80)
        (if b.val = 0xF4 then 0x8F else 0xBF) bs := by
  rw [utf8DecodeAux]
  have h3 : ¬ b.val ≤ 0x7F := by omega
  have h4 : ¬ (0xC2 ≤ b.val ∧ b.val ≤ 0xDF) := by omega
  have h5 : ¬ (0xE0 ≤ b.val ∧ b.val ≤ 0xEF) := by omega
  simp [h1, h2, h3, h4, h5]

theorem utf8_cont_last (cp lower upper : Nat) (b : Byte) (bs : List Byte)
    (h1 : lower ≤ b.val) (h2 : b.val ≤ upper) :
    utf8DecodeAux 1 cp lower upper (b :: bs) =
      Char.ofNat (cp * 64 + b.val % 64) :: utf8DecodeAux 0 0 0x80 0xBF bs := by
  rw [utf8DecodeAux]
  simp [h1, h2]

theorem utf8_cont (k cp lower upper : Nat) (b : Byte) (bs : List Byte)
    (h1 : lower ≤ b.val) (h2 : b.val ≤ upper) :
    utf8DecodeAux (k + 2) cp lower upper (b :: bs) =
      utf8DecodeAux (k + 1) (cp * 64 + b.val % 64) 0x80 0xBF bs := by
  rw [utf8DecodeAux]
  simp [h1, h2]

theorem char_toNat_valid (c : Char) :
    c.toNat < 0xD800 ∨ (0xDFFF < c.toNat ∧ c.toNat < 0x110000) := c.valid

theorem utf8Decode_encodeChar (c : Char) (rest : List Byte) :
    utf8DecodeAux 0 0 0x80 0xBF (utf8EncodeChar c ++ rest) =
      c :: utf8DecodeAux 0 0 0x80 0xBF rest := by
  have hv := char_toNat_valid c
  have hc : Char.ofNat c.toNat = c := Char.ofNat_toNat c
  generalize hn : c.toNat = n at hv hc
  unfold utf8EncodeChar
  simp only [hn]
  by_cases h1 : n < 0x80
  · simp only [h1, if_true, List.singleton_append]
    have e := byteOfNat_val_of_lt n (by omega)
    rw [utf8_lead1 _ _ (by omega), e, hc]
  · by_cases h2 : n < 0x800
    · simp only [h1, h2, if_true, if_false, List.cons_append, List.nil_append]
      have e1 := byteOfNat_val_of_lt (0xC0 + n / 64) (by omega)
      have e2 := byteOfNat_val_of_lt (0x80 + n % 64) (by omega)
      rw [utf8_lead2 _ _ (by omega) (by omega), utf8_cont_last _ _ _ _ _ (by omega) (by omega), e1, e2]
      have : (192 + n / 64) % 32 * 64 + (128 + n % 64) % 64 = n := by omega
      rw [this, hc]
    · by_cases h3 : n < 0x10000
      · simp only [h1, h2, h3, if_true, if_false, List.cons_append, List.nil_append]
        have e1 := byteOfNat_val_of_lt (0xE0 + n / 4096) (by omega)
        have e2 := byteOfNat_val_of_lt (0x80 + n / 64 % 64) (by omega)
        have e3 := byteOfNat_val_of_lt (0x80 + n % 64) (by omega)
        rw [utf8_lead3 _ _ (by omega) (by omega), utf8_cont 0 _ _ _ _ _ ?_ ?_,
          utf8_cont_last _ _ _ _ _ (by omega) (by omega), e1, e2, e3]
        · have : ((224 + n / 4096) % 16 * 64 + (128 + n / 64 % 64) % 64) * 64 + (128 + n % 64) % 64 = n := by
            omega
          rw [this, hc]
        · rw [e1, e2]; split <;> omega
        · rw [e1, e2]; split <;> omega
      · simp only [h1, h2, h3, if_false, List.cons_append, List.nil_append]
        have e1 := byteOfNat_val_of_lt (0xF0 + n / 262144) (by omega)
        have e2 := byteOfNat_val_of_lt (0x80 + n / 4096 % 64) (by omega)
        have e3 := byteOfNat_val_of_lt (0x80 + n / 64 % 64) (by omega)
        have e4 := byteOfNat_val_of_lt (0x80 + n % 64) (by omega)
        rw [utf8_lead4 _ _ (by omega) (by omega), utf8_cont 1 _ _ _ _ _ ?_ ?_,
          utf8_cont 0 _ _ _ _ _ (by omega) (by omega),
          utf8_cont_last _ _ _ _ _ (by omega) (by omega), e1, e2, e3, e4]
        · have : (((240 + n / 262144) % 8 * 64 + (128 + n / 4096 % 64) % 64) * 64 +
              (128 + n / 64 % 64) % 64) * 64 + (128 + n % 64) % 64 = n := by
            omega
          rw [this, hc]
        · rw [e1, e2]; split <;> omega
        · rw [e1, e2]; split <;> omega

/-- Decoding the UTF-8 encoding of a string gives the string back. -/
theorem utf8Decode_encode (s : JsString) : utf8Decode (utf8Encode s) = s := by
  unfold utf8Decode
  induction s with
  | nil => simp [utf8Encode, utf8DecodeAux]
  | cons c cs ih => rw [utf8Encode, utf8Decode_encodeChar, ih]

/-! ## Decimal digits -/

theorem toDigitsCore_acc (fuel n : Nat) (acc : List Char) :
    Nat.toDigitsCore 10 fuel n acc = Nat.toDigitsCore 10 fuel n [] ++ acc := by
  induction fuel generalizing n acc with
  | zero => simp [Nat.toDigitsCore]
  | succ f ih =>
    simp only [Nat.toDigitsCore]
    split
    · simp
    · rw [ih (n / 10) (_ :: acc), ih (n / 10) [_]]
      simp

theorem toDigitsCore_eq_toDigits (fuel : Nat) :
    ∀ n, n < fuel → Nat.toDigitsCore 10 fuel n [] = Nat.toDigits 10 n := by
  induction fuel using Nat.strong_induction_on with
  | _ fuel ih =>
    intro n hn
    cases fuel with
    | zero => omega
    | succ f =>
      unfold Nat.toDigits
      simp only [Nat.toDigitsCore]
      by_cases h0 : n / 10 = 0
      · simp [h0]
      · simp only [h0, if_false]
        have hlt : n / 10 < n := by omega
        rw [toDigitsCore_acc f, toDigitsCore_acc n]
        rw [ih f (by omega) (n / 10) (by omega), ih n (by omega) (n / 10) hlt]

/-- The decimal digits of a number: one digit below ten, otherwise the digits
of the tenth followed by the last digit. -/
theorem toDigits_step (n : Nat) :
    Nat.toDigits 10 n =
      if n < 10 then [Nat.digitChar n] else Nat.toDigits 10 (n / 10) ++ [Nat.digitChar (n % 10)] := by
  conv_lhs => unfold Nat.toDigits
  simp only [Nat.toDigitsCore]
  by_cases h : n < 10
  · have h0 : n / 10 = 0 := by omega
    have h1 : n % 10 = n := by omega
    simp [h, h0, h1]
  · have h0 : ¬ n / 10 = 0 := by omega
    simp only [h, h0, if_false]
    rw [toDigitsCore_acc, toDigitsCore_eq_toDigits n (n / 10) (by omega)]

theorem digitChar_facts (d : Nat) (h : d < 10) :
    isDigit (Nat.digitChar d) = true ∧ (Nat.digitChar d).toNat - 48 = d ∧
    (d ≠ 0 → Nat.digitChar d ≠ '0') := by
  interval_cases d <;> decide

theorem toDigits_all_digits (n : Nat) : ∀ c ∈ Nat.toDigits 10 n, isDigit c = true := by
  induction n using Nat.strong_induction_on with
  | _ n ih =>
    intro c hc
    rw [toDigits_step] at hc
    by_cases h : n < 10
    · simp only [h, if_true, List.mem_singleton] at hc
      subst hc
      exact (digitChar_facts n h).1
    · simp only [h, if_false, List.mem_append, List.mem_singleton] at hc
      rcases hc with hc | hc
      · exact ih (n / 10) (by omega) c hc
      · subst hc
        exact (digitChar_facts (n % 10) (by omega)).1

theorem toDigits_head (n : Nat) (hn : 0 < n) :
    ∃ c cs, Nat.toDigits 10 n = c :: cs ∧ c ≠ '0' ∧ isDigit c = true := by
  induction n using Nat.strong_induction_on with
  | _ n ih =>
    rw [toDigits_step]
    by_cases h : n < 10
    · simp only [h, if_true]
      exact ⟨_, [], rfl, (digitChar_facts n h).2.2 (by omega), (digitChar_facts n h).1⟩
    · simp only [h, if_false]
      obtain ⟨c, cs, hc, h1, h2⟩ := ih (n / 10) (by omega) (by omega)
      exact ⟨c, cs ++ [Nat.digitChar (n % 10)], by simp [hc], h1, h2⟩

theorem digitsToNat_append (acc : Nat) (xs : JsString) (c : Char) :
    digitsToNat (xs ++ [c]) acc = digitsToNat xs acc * 10 + (c.toNat - 48) := by
  induction xs generalizing acc with
  | nil => simp only [List.nil_append, digitsToNat]
  | cons x xs ih =>
    simp only [List.cons_append, digitsToNat]
    exact ih _

theorem digitsToNat_toDigits (n : Nat) : digitsToNat (Nat.toDigits 10 n) 0 = n := by
  induction n using Nat.strong_induction_on with
  | _ n ih =>
    rw [toDigits_step]
    by_cases h : n < 10
    · simp only [h, if_true, digitsToNat]
      have := (digitChar_facts n h).2.1
      omega
    · simp only [h, if_false]
      rw [digitsToNat_append, ih (n / 10) (by omega), (digitChar_facts (n % 10) (by omega)).2.1]
      omega

theorem toDigits_length_le (n e : Nat) (h : n < 10 ^ e) (he : 0 < e) :
    (Nat.toDigits 10 n).length ≤ e :=
  Nat.toDigitsCore_length 10 (by decide) (n + 1) n e h he

theorem stripZeros_append (l : List Char) :
    (stripZeros l).1 ++ List.replicate (stripZeros l).2 '0' = l := by
  induction l with
  | nil => simp [stripZeros]
  | cons c cs ih =>
    simp only [stripZeros]
    split
    · rename_i h
      rw [h.1] at ih
      simp only [List.nil_append] at ih ⊢
      rw [List.replicate_succ, ih, h.2]
    · simp [ih]

theorem stripZeros_length (l : List Char) :
    (stripZeros l).1.length + (stripZeros l).2 = l.length := by
  have h := congrArg List.length (stripZeros_append l)
  simpa using h

/-- An integer of absolute value below `10 ^ 21` prints as its sign and its
plain decimal digits. -/
theorem numToString_int (n : Int) (h : n.natAbs < 10 ^ 21) :
    numToString ⟨n, 0⟩ =
      (if n < 0 then ['-'] else []) ++ Nat.toDigits 10 n.natAbs := by
  unfold numToString
  by_cases h0 : n = 0
  · subst h0
    simp
    decide
  · simp only [h0, if_false]
    have hlen := toDigits_length_le n.natAbs 21 h (by decide)
    have hs := stripZeros_length (Nat.toDigits 10 n.natAbs)
    have ha := stripZeros_append (Nat.toDigits 10 n.natAbs)
    have hcond : ((stripZeros (Nat.toDigits 10 n.natAbs)).1.length : Int) ≤
        ((stripZeros (Nat.toDigits 10 n.natAbs)).1.length : Int) +
          ((stripZeros (Nat.toDigits 10 n.natAbs)).2 : Int) + 0 ∧
        ((stripZeros (Nat.toDigits 10 n.natAbs)).1.length : Int) +
          ((stripZeros (Nat.toDigits 10 n.natAbs)).2 : Int) + 0 ≤ 21 := by
      constructor <;> omega
    rw [if_pos hcond]
    have hz : (((stripZeros (Nat.toDigits 10 n.natAbs)).1.length : Int) +
          ((stripZeros (Nat.toDigits 10 n.natAbs)).2 : Int) + 0 -
          ((stripZeros (Nat.toDigits 10 n.natAbs)).1.length : Int)).toNat =
        (stripZeros (Nat.toDigits 10 n.natAbs)).2 := by
      omega
    rw [hz, ha]

/-! ## Identifier validation -/

theorem isMonkId_iff (s : JsString) :
    isMonkId s = true ↔
      ∃ d0 d1 d2, s = ['m', 'o', 'n', 'k', '-', d0, d1, d2] ∧
        isDigit d0 = true ∧ isDigit d1 = true ∧ isDigit d2 = true := by
  constructor
  · intro h
    match s, h with
    | [c0, c1, c2, c3, c4, d0, d1, d2], h =>
      simp only [isMonkId, Bool.and_eq_true, decide_eq_true_eq] at h
      obtain ⟨⟨⟨⟨⟨⟨⟨rfl, rfl⟩, rfl⟩, rfl⟩, rfl⟩, h0⟩, h1⟩, h2⟩ := h
      exact ⟨d0, d1, d2, rfl, h0, h1, h2⟩
  · rintro ⟨d0, d1, d2, rfl, h0, h1, h2⟩
    simp [isMonkId, h0, h1, h2]

theorem isDigit_ne_quote (c : Char) (h : isDigit c = true) : c ≠ '\'' := by
  intro e
  subst e
  exact absurd h (by decide)

theorem quoteLiteral_monkId (s : JsString) (h : isMonkId s = true) :
    quoteLiteral s = '\'' :: (s ++ ['\'']) := by
  obtain ⟨d0, d1, d2, rfl, h0, h1, h2⟩ := (isMonkId_iff s).1 h
  have e0 := isDigit_ne_quote d0 h0
  have e1 := isDigit_ne_quote d1 h1
  have e2 := isDigit_ne_quote d2 h2
  have hq : '\'' ∉ ['m', 'o', 'n', 'k', '-', d0, d1, d2] := by
    simp only [List.mem_cons, List.mem_singleton, not_or, List.not_mem_nil, or_false]
    exact ⟨by decide, by decide, by decide, by decide, by decide, e0.symm, e1.symm, e2.symm⟩
  rw [quoteLiteral, doubleQuotes_of_no_quote _ hq]

theorem numChars_append (a b : JsString) (ha : ∀ c ∈ a, isNumberChar c = true)
    (hb : ∀ c ∈ b, isNumberChar c = true) : ∀ c ∈ a ++ b, isNumberChar c = true := by
  intro c hc
  rcases List.mem_append.1 hc with h | h
  · exact ha c h
  · exact hb c h

theorem numChars_cons (x : Char) (l : JsString) (hx : isNumberChar x = true)
    (hl : ∀ c ∈ l, isNumberChar c = true) : ∀ c ∈ x :: l, isNumberChar c = true := by
  intro c hc
  rcases List.mem_cons.1 hc with h | h
  · rw [h]; exact hx
  · exact hl c h

theorem numChars_replicate (n : Nat) : ∀ c ∈ List.replicate n '0', isNumberChar c = true := by
  intro c hc
  rw [List.eq_of_mem_replicate hc]
  decide

theorem numChars_digits (m : Nat) : ∀ c ∈ Nat.toDigits 10 m, isNumberChar c = true := by
  intro c hc
  have h := toDigits_all_digits m c hc
  simp only [isDigit, Bool.and_eq_true, decide_eq_true_eq] at h
  simp [isNumberChar, h.1, h.2]

/-- The characters of a printed number: digits, sign, point and exponent mark. -/
theorem numToString_chars (x : JsNum) : ∀ c ∈ numToString x, isNumberChar c = true := by
  have hds : ∀ c ∈ (stripZeros (Nat.toDigits 10 x.mant.natAbs)).1, isNumberChar c = true := by
    intro c hc
    apply numChars_digits x.mant.natAbs
    rw [← stripZeros_append (Nat.toDigits 10 x.mant.natAbs)]
    exact List.mem_append_left _ hc
  unfold numToString
  dsimp only
  generalize (stripZeros (Nat.toDigits 10 x.mant.natAbs)).1 = ds at hds ⊢
  generalize (stripZeros (Nat.toDigits 10 x.mant.natAbs)).2 = z
  have hsign : ∀ e : Int, isNumberChar (if e < 0 then '-' else '+') = true := by
    intro e
    split <;> decide
  have hes : ∀ e : Int, ∀ c ∈ 'e' :: (if e < 0 then '-' else '+') :: Nat.toDigits 10 e.natAbs,
      isNumberChar c = true := fun e =>
    numChars_cons _ _ (by decide) (numChars_cons _ _ (hsign e) (numChars_digits _))
  split
  · exact numChars_cons _ _ (by decide) (by simp)
  · apply numChars_append
    · split
      · exact numChars_cons _ _ (by decide) (by simp)
      · simp
    · split
      · exact numChars_append _ _ hds (numChars_replicate _)
      · split
        · exact numChars_append _ _ (fun c hc => hds c (List.mem_of_mem_take hc))
            (numChars_cons _ _ (by decide) (fun c hc => hds c (List.mem_of_mem_drop hc)))
        · split
          · exact numChars_cons _ _ (by decide) (numChars_cons _ _ (by decide)
              (numChars_append _ _ (numChars_replicate _) hds))
          · rcases ds with _ | ⟨d, _ | ⟨d2, rest⟩⟩
            · simp
            · exact numChars_cons _ _ (hds d (by simp)) (hes _)
            · exact numChars_cons _ _ (hds d (by simp)) (numChars_cons _ _ (by decide)
                (numChars_append _ _ (fun c hc => hds c (List.mem_cons_of_mem _ hc)) (hes _)))

theorem numToString_not_monkId (x : JsNum) : isMonkId (numToString x) = false := by
  cases h : isMonkId (numToString x) with
  | false => rfl
  | true =>
    obtain ⟨d0, d1, d2, hs, _⟩ := (isMonkId_iff _).1 h
    have hm : 'm' ∈ numToString x := by rw [hs]; simp
    have := numToString_chars x 'm' hm
    exact absurd this (by decide)

/-- A value whose string form is an item identifier is put into the query as
that identifier between single quotes. -/
theorem escapeSQL_monkId (v : JsVal) (s : JsString) (hs : toStr v = some s)
    (hm : isMonkId s = true) : escapeSQL v = some ('\'' :: (s ++ ['\''])) := by
  cases v with
  | undefined =>
    simp only [toStr, Option.some.injEq] at hs
    subst hs
    exact absurd hm (by decide)
  | null =>
    simp only [toStr, Option.some.injEq] at hs
    subst hs
    exact absurd hm (by decide)
  | num x =>
    simp only [toStr, Option.some.injEq] at hs
    subst hs
    rw [numToString_not_monkId] at hm
    exact absurd hm (by simp)
  | bool b =>
    simp only [escapeSQL, hs, Option.map_some', quoteLiteral_monkId s hm]
  | str t =>
    simp only [escapeSQL, hs, Option.map_some', quoteLiteral_monkId s hm]
  | arr a =>
    simp only [escapeSQL, hs, Option.map_some', quoteLiteral_monkId s hm]
  | obj o =>
    simp only [escapeSQL, hs, Option.map_some', quoteLiteral_monkId s hm]

/-! ## Identifier validation in the handlers -/

theorem issue_eq_runQuery (o : Option JsString) (sql : JsString) (h : issue o = .runQuery sql) :
    o = some sql := by
  cases o with
  | none => simp [issue] at h
  | some q =>
    simp only [issue, Outcome.runQuery.injEq] at h
    rw [h]

/-- C3 as stated fails: `DELETE /api/cart/abc` without a token has an
identifier that is not an item identifier, and the response is 401, not 400. -/
theorem delete_invalid_id_unauthorized :
    isMonkId (lastSegment "/api/cart/abc".toList) = false ∧
    deleteCart sampleEnv
      { method := "DELETE".toList, pathname := "/api/cart/abc".toList, authorization := none,
        body := [] } = .respond 401 (errorBody "unauthorized") :=
  ⟨by decide, rfl⟩

/-- C3, amended: in the three handlers a query is issued only when the item
identifier (the last path segment, or the string form of the body field
`nftId`) is `monk-` followed by three ASCII digits, and the query then holds
that identifier between single quotes; for every other identifier no query is
issued and the response is 400 — in the two cart routes when the request is
authenticated, and 401 otherwise, since their token check comes first. -/
theorem identifier_validation (env : Env) (req : Request) :
    (getMonkeyById req =
      if isMonkId (lastSegment req.pathname) then
        .runQuery (monkeyByIdHead ++ ('\'' :: (lastSegment req.pathname ++ ['\''])) ++
          monkeyByIdTail)
      else .respond 400 (errorBody "invalid_id")) ∧
    (∀ sql, deleteCart env req = .runQuery sql →
      isMonkId (lastSegment req.pathname) = true ∧
      ∃ u, sql = cartDeleteHead ++ u ++ " AND monkey_id = ".toList ++
        ('\'' :: (lastSegment req.pathname ++ ['\''])) ++ ";".toList) ∧
    (isMonkId (lastSegment req.pathname) = false →
      deleteCart env req =
        if authenticated env req then .respond 400 (errorBody "invalid_id")
        else .respond 401 (errorBody "unauthorized")) ∧
    (∀ sql, postCart env req = .runQuery sql →
      ∃ d nftId s, jsonParse req.body = some d ∧ getProp d "nftId".toList = some nftId ∧
        toStr nftId = some s ∧ isMonkId s = true ∧
        ∃ u, sql = cartInsertHead ++ u ++ ", ".toList ++ ('\'' :: (s ++ ['\''])) ++
          cartInsertTail) ∧
    (∀ d nftId s, jsonParse req.body = some d → getProp d "nftId".toList = some nftId →
      toStr nftId = some s → isMonkId s = false →
      postCart env req =
        if authenticated env req then
          (if truthy nftId then .respond 400 (errorBody "invalid_nftId")
           else .respond 400 (errorBody "missing_nftId"))
        else .respond 401 (errorBody "unauthorized")) := by
  refine ⟨?_, ?_, ?_, ?_, ?_⟩
  · unfold getMonkeyById
    cases hm : isMonkId (lastSegment req.pathname) with
    | false => simp [hm]
    | true =>
      simp only [hm, Bool.not_true, Bool.false_eq_true, if_false, if_true, monkeyByIdSQL,
        escapeSQL_monkId (.str (lastSegment req.pathname)) _ rfl hm, issue]
  · intro sql h
    unfold deleteCart at h
    split at h
    · exact absurd h (by simp)
    · split at h
      · exact absurd h (by simp)
      · cases hm : isMonkId (lastSegment req.pathname) with
        | false => simp [hm] at h
        | true =>
          refine ⟨rfl, ?_⟩
          simp only [hm, Bool.not_true, Bool.false_eq_true, if_false] at h
          have hq := issue_eq_runQuery _ _ h
          unfold cartDeleteSQL at hq
          rw [escapeSQL_monkId (.str (lastSegment req.pathname)) _ rfl hm] at hq
          split at hq
          · rename_i u i hu hi
            simp only [Option.some.injEq] at hi hq
            subst hi
            exact ⟨u, hq.symm⟩
          · exact absurd hq (by simp)
  · intro hm
    unfold deleteCart authenticated
    cases verifyToken env (getAuthToken req) with
    | none => simp
    | some payload =>
      cases ht : truthy payload with
      | false => simp [ht]
      | true => simp [ht, hm]
  · intro sql h
    unfold postCart at h
    split at h
    · exact absurd h (by simp)
    · split at h
      · exact absurd h (by simp)
      · split at h
        · exact absurd h (by simp)
        · rename_i d hd
          split at h
          · exact absurd h (by simp)
          · rename_i nftId hn
            split at h
            · exact absurd h (by simp)
            · split at h
              · exact absurd h (by simp)
              · rename_i s hs
                cases hm : isMonkId s with
                | false => simp [hm] at h
                | true =>
                  refine ⟨d, nftId, s, hd, hn, hs, hm, ?_⟩
                  simp only [hm, Bool.not_true, Bool.false_eq_true, if_false] at h
                  have hq := issue_eq_runQuery _ _ h
                  unfold cartInsertSQL at hq
                  rw [escapeSQL_monkId nftId s hs hm] at hq
                  split at hq
                  · rename_i u i hu hi
                    simp only [Option.some.injEq] at hi hq
                    subst hi
                    exact ⟨u, hq.symm⟩
                  · exact absurd hq (by simp)
  · intro d nftId s hd hn hs hm
    unfold postCart authenticated
    cases verifyToken env (getAuthToken req) with
    | none => simp
    | some payload =>
      cases ht : truthy payload with
      | false => simp [ht]
      | true =>
        cases hn2 : truthy nftId with
        | false =>
          simp only [ht, hd, hn, hn2, Bool.not_true, Bool.not_false, Bool.false_eq_true, if_true,
            if_false]
        | true =>
          simp only [ht, hd, hn, hn2, hs, hm, Bool.not_true, Bool.not_false, Bool.false_eq_true,
            if_true, if_false]

/-- C3 amended, at `DELETE /api/cart/abc` without a token in the sample
environment. -/
theorem identifier_validation_witness :
    isMonkId (lastSegment "/api/cart/abc".toList) = false ∧
    deleteCart sampleEnv
      { method := "DELETE".toList, pathname := "/api/cart/abc".toList, authorization := none,
        body := [] } =
      if authenticated sampleEnv
        { method := "DELETE".toList, pathname := "/api/cart/abc".toList, authorization := none,
          body := [] }
      then .respond 400 (errorBody "invalid_id") else .respond 401 (errorBody "unauthorized") :=
  ⟨by decide, (identifier_validation sampleEnv _).2.2.1 (by decide)⟩

/-! ## `JSON.parse` after `JSON.stringify`: numbers -/

theorem spanDigits_append (ds : JsString) (c : Char) (tl : JsString)
    (hds : ∀ x ∈ ds, isDigit x = true) (hc : isDigit c = false) :
    spanDigits (ds ++ c :: tl) = (ds, c :: tl) := by
  induction ds with
  | nil => simp [spanDigits, hc]
  | cons x xs ih =>
    have hx : isDigit x = true := hds x (by simp)
    have hxs : ∀ y ∈ xs, isDigit y = true := fun y hy => hds y (by simp [hy])
    simp [spanDigits, hx, ih hxs]

theorem endsNumber_facts (c : Char) (h : endsNumber c = true) :
    isDigit c = false ∧ c ≠ '.' ∧ c ≠ 'e' ∧ c ≠ 'E' := by
  simp only [endsNumber, Bool.and_eq_true, Bool.not_eq_true', decide_eq_true_eq] at h
  exact ⟨h.1.1.1, h.1.1.2, h.1.2, h.2⟩

theorem parseUnsigned_toDigits (m : Nat) (c : Char) (tl : JsString) (hc : endsNumber c = true) :
    parseUnsigned (Nat.toDigits 10 m ++ c :: tl) = some (m, 0, c :: tl) := by
  obtain ⟨hc1, hc2, hc3, hc4⟩ := endsNumber_facts c hc
  have hfrac : parseFraction (c :: tl) = some ([], c :: tl) := by
    simp [parseFraction, hc2]
  have hexp : parseExponent (c :: tl) = some (0, c :: tl) := by
    simp [parseExponent, hc3, hc4]
  by_cases hm : m = 0
  · subst hm
    have h0 : Nat.toDigits 10 0 = ['0'] := by decide
    rw [h0]
    simp only [List.singleton_append, parseUnsigned]
    have hd : isDigit '0' = true := by decide
    simp only [hd, Bool.not_eq_true, Bool.true_eq_false, if_false, if_true, hfrac, hexp]
    simp [digitsToNat]
  · obtain ⟨d, ds, hd, hd0, hdd⟩ := toDigits_head m (by omega)
    have hall := toDigits_all_digits m
    have hspan := spanDigits_append (Nat.toDigits 10 m) c tl hall hc1
    have hval := digitsToNat_toDigits m
    rw [hd] at hspan hval ⊢
    simp only [List.cons_append, parseUnsigned]
    simp only [hdd, Bool.not_eq_true, Bool.true_eq_false, if_false, hd0]
    rw [List.cons_append] at hspan
    rw [hspan]
    simp only [hfrac, hexp, List.append_nil, hval]
    simp

theorem toDigits_head_not_minus (m : Nat) :
    ∃ d ds, Nat.toDigits 10 m = d :: ds ∧ d ≠ '-' := by
  by_cases hm : m = 0
  · subst hm
    exact ⟨'0', [], by decide, by decide⟩
  · obtain ⟨d, ds, hd, _, hdd⟩ := toDigits_head m (by omega)
    refine ⟨d, ds, hd, ?_⟩
    intro h
    subst h
    exact absurd hdd (by decide)

/-- Parsing the text of an integer below `10 ^ 21` in absolute value, followed
by a character that ends a number, gives the integer back. -/
theorem parseNumber_numToString (n : Int) (h : n.natAbs < 10 ^ 21) (c : Char) (tl : JsString)
    (hc : endsNumber c = true) :
    parseNumber (numToString ⟨n, 0⟩ ++ c :: tl) = some (⟨n, 0⟩, c :: tl) := by
  rw [numToString_int n h]
  by_cases hneg : n < 0
  · simp only [hneg, if_true, List.singleton_append, List.cons_append, List.nil_append, parseNumber]
    rw [parseUnsigned_toDigits _ c tl hc]
    simp only [Option.map_some', Option.some.injEq, Prod.mk.injEq, and_true, JsNum.mk.injEq]
    omega
  · obtain ⟨d, ds, hd, hdm⟩ := toDigits_head_not_minus n.natAbs
    have hu := parseUnsigned_toDigits n.natAbs c tl hc
    rw [hd] at hu ⊢
    simp only [hneg, if_false, List.nil_append, List.cons_append, parseNumber, hdm]
    rw [List.cons_append] at hu
    rw [hu]
    simp only [Option.map_some', Option.some.injEq, Prod.mk.injEq, and_true, JsNum.mk.injEq]
    omega

/-! ## `JSON.parse` after `JSON.stringify`: strings -/

theorem parseStringBody_plain (c : Char) (cs : JsString)
    (h1 : c ≠ '"') (h2 : c ≠ '\\') (h3 : ¬ c.toNat < 0x20) :
    parseStringBody none (c :: cs) =
      (parseStringBody none cs).map fun r => (c :: r.1, r.2) := by
  rw [parseStringBody.eq_def]
  simp [h1, h2, h3, flushPending]

theorem parseStringBody_simple (e x : Char) (rest : JsString)
    (he : e ≠ 'u') (hx : simpleEscape e = some x) :
    parseStringBody none ('\\' :: e :: rest) =
      (parseStringBody none rest).map fun r => (x :: r.1, r.2) := by
  rw [parseStringBody.eq_def]
  have h1 : ('\\' : Char) ≠ '"' := by decide
  simp [h1, he, hx, flushPending]

theorem parseStringBody_u (a b c d : Char) (u : Nat) (rest : JsString)
    (h : hex4 a b c d = some u) (hu : u < 0xD800) :
    parseStringBody none ('\\' :: 'u' :: a :: b :: c :: d :: rest) =
      (parseStringBody none rest).map fun r => (Char.ofNat u :: r.1, r.2) := by
  rw [parseStringBody.eq_def]
  have h1 : ('\\' : Char) ≠ '"' := by decide
  have h2 : ¬ (0xD800 ≤ u ∧ u ≤ 0xDBFF) := by omega
  have h3 : ¬ (0xDC00 ≤ u ∧ u ≤ 0xDFFF) := by omega
  simp [h1, h, h2, h3, flushPending]

theorem hexVal_hexDigit (d : Nat) (h : d < 16) : hexVal (hexDigit d) = some d := by
  interval_cases d <;> decide

theorem parseStringBody_escapeChar (c : Char) (tail : JsString) :
    parseStringBody none (jsonEscapeChar c ++ tail) =
      (parseStringBody none tail).map fun r => (c :: r.1, r.2) := by
  unfold jsonEscapeChar
  by_cases c1 : c = '"'
  · subst c1
    simp only [if_true, List.cons_append, List.nil_append]
    exact parseStringBody_simple '"' '"' tail (by decide) (by decide)
  by_cases c2 : c = '\\'
  · subst c2
    simp only [c1, if_true, if_false, List.cons_append, List.nil_append]
    exact parseStringBody_simple '\\' '\\' tail (by decide) (by decide)
  by_cases c3 : c = '\x08'
  · subst c3
    simp only [c1, c2, if_true, if_false, List.cons_append, List.nil_append]
    exact parseStringBody_simple 'b' '\x08' tail (by decide) (by decide)
  by_cases c4 : c = '\x0c'
  · subst c4
    simp only [c1, c2, c3, if_true, if_false, List.cons_append, List.nil_append]
    exact parseStringBody_simple 'f' '\x0c' tail (by decide) (by decide)
  by_cases c5 : c = '\n'
  · subst c5
    simp only [c1, c2, c3, c4, if_true, if_false, List.cons_append, List.nil_append]
    exact parseStringBody_simple 'n' '\n' tail (by decide) (by decide)
  by_cases c6 : c = '\r'
  · subst c6
    simp only [c1, c2, c3, c4, c5, if_true, if_false, List.cons_append, List.nil_append]
    exact parseStringBody_simple 'r' '\r' tail (by decide) (by decide)
  by_cases c7 : c = '\t'
  · subst c7
    simp only [c1, c2, c3, c4, c5, c6, if_true, if_false, List.cons_append, List.nil_append]
    exact parseStringBody_simple 't' '\t' tail (by decide) (by decide)
  by_cases c8 : c.toNat < 0x20
  · simp only [c1, c2, c3, c4, c5, c6, c7, c8, if_true, if_false, List.cons_append, List.nil_append]
    have hx : hex4 '0' '0' (hexDigit (c.toNat / 16)) (hexDigit (c.toNat % 16)) = some c.toNat := by
      have h0 : hexVal '0' = some 0 := by decide
      simp only [hex4, h0, hexVal_hexDigit _ (show c.toNat / 16 < 16 by omega),
        hexVal_hexDigit _ (show c.toNat % 16 < 16 by omega)]
      congr 1
      omega
    rw [parseStringBody_u _ _ _ _ _ _ hx (by omega), Char.ofNat_toNat]
  · simp only [c1, c2, c3, c4, c5, c6, c7, c8, if_false, List.cons_append, List.nil_append]
    exact parseStringBody_plain c tail c1 c2 c8

/-- Parsing the escaped text of a string, up to its closing quote, gives the
string back. -/
theorem parseStringBody_jsonEscape (s rest : JsString) :
    parseStringBody none (jsonEscape s ++ '"' :: rest) = some (s, rest) := by
  induction s with
  | nil =>
    simp only [jsonEscape, List.nil_append]
    rw [parseStringBody.eq_def]
    simp [flushPending]
  | cons c cs ih =>
    simp only [jsonEscape, List.append_assoc]
    rw [parseStringBody_escapeChar, ih]
    rfl

/-! ## `JSON.parse` after `JSON.stringify`: the token payload -/

theorem skipWs_of_not_ws (c : Char) (cs : JsString) (h : isWs c = false) :
    skipWs (c :: cs) = c :: cs := by
  simp [skipWs, h]

theorem parseValue_string (fuel : Nat) (s rest : JsString) :
    parseValue (fuel + 1) (quoteJSON s ++ rest) = some (.str s, rest) := by
  have hq : quoteJSON s ++ rest = '"' :: (jsonEscape s ++ '"' :: rest) := by
    simp [quoteJSON]
  rw [hq, parseValue, skipWs_of_not_ws _ _ (by decide)]
  have h1 : ('"' : Char) ≠ '\x7b' := by decide
  have h2 : ('"' : Char) ≠ '[' := by decide
  simp only [h1, h2, if_false, if_true, parseStringBody_jsonEscape]
  rfl

theorem digit_head_facts (h : Char) (hd : h = '-' ∨ isDigit h = true) :
    isWs h = false ∧ h ≠ '\x7b' ∧ h ≠ '[' ∧ h ≠ '"' ∧ h ≠ 't' ∧ h ≠ 'f' ∧ h ≠ 'n' := by
  rcases hd with rfl | hd
  · decide
  · refine ⟨?_, ?_, ?_, ?_, ?_, ?_, ?_⟩
    · cases hw : isWs h with
      | false => rfl
      | true =>
        simp only [isWs, Bool.or_eq_true, decide_eq_true_eq] at hw
        rcases hw with ((rfl | rfl) | rfl) | rfl <;> exact absurd hd (by decide)
    all_goals
      intro e
      subst e
      exact absurd hd (by decide)

theorem numToString_int_head (n : Int) (h : n.natAbs < 10 ^ 21) :
    ∃ c cs, numToString ⟨n, 0⟩ = c :: cs ∧ (c = '-' ∨ isDigit c = true) := by
  rw [numToString_int n h]
  by_cases hneg : n < 0
  · exact ⟨'-', Nat.toDigits 10 n.natAbs, by simp [hneg], Or.inl rfl⟩
  · by_cases h0 : n.natAbs = 0
    · rw [h0]
      exact ⟨'0', [], by simp [hneg]; decide, Or.inr (by decide)⟩
    · obtain ⟨d, ds, hd, _, hdd⟩ := toDigits_head n.natAbs (by omega)
      exact ⟨d, ds, by simp [hneg, hd], Or.inr hdd⟩

theorem parseValue_int (fuel : Nat) (n : Int) (h : n.natAbs < 10 ^ 21) (c : Char) (tl : JsString)
    (hc : endsNumber c = true) :
    parseValue (fuel + 1) (numToString ⟨n, 0⟩ ++ c :: tl) = some (.num ⟨n, 0⟩, c :: tl) := by
  have hp := parseNumber_numToString n h c tl hc
  obtain ⟨d, ds, hd, hdd⟩ := numToString_int_head n h
  obtain ⟨f1, f2, f3, f4, f5, f6, f7⟩ := digit_head_facts d hdd
  rw [hd] at hp ⊢
  rw [List.cons_append] at hp ⊢
  rw [parseValue, skipWs_of_not_ws _ _ f1]
  simp only [f2, f3, f4, f5, f6, f7, if_false, hp]
  rfl

/-- Parsing the JSON text of a string or integer identifier, followed by a
character that ends a number, gives the identifier back. -/
theorem parseValue_id (fuel : Nat) (v : JsVal) (hv : isStringOrInteger v = true) (c : Char)
    (tl : JsString) (hc : endsNumber c = true) :
    parseValue (fuel + 1) (stringifyVal v ++ c :: tl) = some (v, c :: tl) := by
  cases v with
  | str s =>
    rw [stringifyVal]
    exact parseValue_string fuel s (c :: tl)
  | num x =>
    obtain ⟨m, e⟩ := x
    simp only [isStringOrInteger, Bool.and_eq_true, decide_eq_true_eq] at hv
    obtain ⟨he, hm⟩ := hv
    subst he
    rw [stringifyVal]
    exact parseValue_int fuel m hm c tl hc
  | undefined => exact absurd hv (by simp [isStringOrInteger])
  | null => exact absurd hv (by simp [isStringOrInteger])
  | bool b => exact absurd hv (by simp [isStringOrInteger])
  | arr a => exact absurd hv (by simp [isStringOrInteger])
  | obj o => exact absurd hv (by simp [isStringOrInteger])

theorem parseMembers_step (fuel : Nat) (k text : JsString) (acc : List (JsString × JsVal))
    (v : JsVal) (d : Char) (ds : JsString)
    (hv : parseValue fuel text = some (v, d :: ds)) (hd : isWs d = false) :
    parseMembers (fuel + 1) (quoteJSON k ++ ':' :: text) acc =
      if d = ',' then parseMembers fuel ds (setMember acc k v)
      else if d = '\x7d' then some (.obj (setMember acc k v), ds)
      else none := by
  have hq : quoteJSON k ++ ':' :: text = '"' :: (jsonEscape k ++ '"' :: (':' :: text)) := by
    simp [quoteJSON]
  rw [hq, parseMembers, skipWs_of_not_ws _ _ (by decide)]
  simp only [ne_eq, not_true_eq_false, if_false, parseStringBody_jsonEscape]
  rw [skipWs_of_not_ws _ _ (by decide)]
  simp only [ne_eq, not_true_eq_false, if_false, hv]
  rw [skipWs_of_not_ws _ _ hd]

theorem stringifyVal_payload (E : Int) (v : JsVal) (hv : isStringOrInteger v = true) :
    stringifyVal (.obj [("userId".toList, v), ("exp".toList, .num ⟨E, 0⟩)]) =
      '\x7b' :: (quoteJSON "userId".toList ++ ':' :: (stringifyVal v ++ ',' ::
        (quoteJSON "exp".toList ++ ':' :: (numToString ⟨E, 0⟩ ++ ['\x7d'])))) := by
  cases v with
  | str s =>
    simp only [stringifyVal, stringifyMembers, List.append_assoc,
      List.cons_append, List.nil_append, List.append_nil, Bool.false_eq_true, if_false, if_true]
  | num x =>
    simp only [stringifyVal, stringifyMembers, List.append_assoc,
      List.cons_append, List.nil_append, List.append_nil, Bool.false_eq_true, if_false, if_true]
  | undefined => exact absurd hv (by simp [isStringOrInteger])
  | null => exact absurd hv (by simp [isStringOrInteger])
  | bool b => exact absurd hv (by simp [isStringOrInteger])
  | arr a => exact absurd hv (by simp [isStringOrInteger])
  | obj o => exact absurd hv (by simp [isStringOrInteger])

/-- Parsing the JSON text of an object `{ userId, exp }` gives the object back,
for a string or integer identifier and an integer expiry. -/
theorem jsonParse_payload (E : Int) (hexp : E.natAbs < 10 ^ 21) (v : JsVal)
    (hv : isStringOrInteger v = true) :
    jsonParse (stringifyVal (.obj [("userId".toList, v), ("exp".toList, .num ⟨E, 0⟩)])) =
      some (.obj [("userId".toList, v), ("exp".toList, .num ⟨E, 0⟩)]) := by
  rw [jsonParse, stringifyVal_payload E v hv]
  have hfuel : ∀ t : JsString, 2 * (('\x7b' :: t).length) + 2 = (2 * t.length + 3) + 1 := by
    intro t
    simp only [List.length_cons]
    omega
  rw [hfuel, parseValue, skipWs_of_not_ws _ _ (by decide)]
  simp only [if_true]
  have hq : ∀ (k t : JsString), quoteJSON k ++ t = '"' :: (jsonEscape k ++ '"' :: t) := by
    intro k t
    simp [quoteJSON]
  rw [hq, skipWs_of_not_ws _ _ (by decide)]
  have h1 : ('"' : Char) ≠ '\x7d' := by decide
  simp only [h1, if_false]
  rw [← hq]
  generalize hF : 2 * (quoteJSON "userId".toList ++ ':' :: (stringifyVal v ++ ',' ::
        (quoteJSON "exp".toList ++ ':' :: (numToString ⟨E, 0⟩ ++ ['\x7d'])))).length + 3 = F
  have hF3 : ∃ G, F = G + 3 := ⟨F - 3, by omega⟩
  obtain ⟨G, rfl⟩ := hF3
  have hval := parseValue_id (G + 1) v hv ','
    (quoteJSON "exp".toList ++ ':' :: (numToString ⟨E, 0⟩ ++ ['\x7d'])) (by decide)
  rw [show G + 3 = (G + 2) + 1 from rfl, parseMembers_step (G + 2) _ _ [] v ',' _ hval (by decide)]
  simp only [if_true]
  have hval2 := parseValue_int G E hexp '\x7d' [] (by decide)
  rw [show G + 2 = (G + 1) + 1 from rfl,
    parseMembers_step (G + 1) _ _ _ (.num ⟨E, 0⟩) '\x7d' [] hval2 (by decide)]
  have h2 : ('\x7d' : Char) ≠ ',' := by decide
  simp only [h2, if_false, if_true, skipWs]
  have hk : "userId".toList ≠ "exp".toList := by decide
  simp [setMember, hk]

theorem tokenExpiry_bound (env : Env) (hnow : env.now ≤ maxTime) :
    ((tokenExpiry env : Nat) : Int).natAbs < 10 ^ 21 := by
  have h : tokenExpiry env = env.now / 1000 + 604800 := rfl
  unfold maxTime at hnow
  generalize tokenExpiry env = e at h
  omega

/-- Parsing the JSON text of the payload of a token gives the payload back,
for a string or integer identifier and a time within the range of `Date`. -/
theorem jsonParse_tokenPayload (env : Env) (v : JsVal) (hv : isStringOrInteger v = true)
    (hnow : env.now ≤ maxTime) :
    jsonParse (stringifyVal (tokenPayload env v)) = some (tokenPayload env v) :=
  jsonParse_payload _ (tokenExpiry_bound env hnow) v hv

/-! ## Token codec: structure of tokens -/

theorem encodeSegment_no_dot (v : JsVal) : '.' ∉ encodeSegment v :=
  base64Encode_no_dot _

theorem sign_no_dot (env : Env) (a b : JsString) : '.' ∉ sign env a b :=
  base64Encode_no_dot _

theorem decode_encodeSegment (v : JsVal) :
    utf8Decode (base64Decode (encodeSegment v)) = stringifyVal v := by
  rw [encodeSegment, base64Decode_encode, utf8Decode_encode]

theorem generateToken_eq_signedToken (env : Env) (userId : JsVal) :
    generateToken env userId = signedToken env tokenHeader (tokenPayload env userId) := rfl

/-- What `verifyToken` does with a token of three segments. -/
theorem verifyToken_of_split (env : Env) (t p0 p1 p2 : JsString)
    (hs : jsSplit '.' t = [p0, p1, p2]) :
    verifyToken env (some t) =
      if sign env p0 p1 ≠ p2 then none
      else (jsonParse (utf8Decode (base64Decode p1))).bind (checkExpiry env) := by
  have hne : t ≠ [] := by
    intro h
    subst h
    simp [jsSplit] at hs
  simp only [verifyToken, hne, if_false, hs]
  split
  · rfl
  · cases jsonParse (utf8Decode (base64Decode p1)) <;> rfl

/-- A token that `verifyToken` accepts has three dot-free segments, the third
being the signature of the first two. -/
theorem verifyToken_some_split (env : Env) (t : JsString) (r : JsVal)
    (h : verifyToken env (some t) = some r) :
    ∃ p0 p1 p2, jsSplit '.' t = [p0, p1, p2] ∧ sign env p0 p1 = p2 := by
  unfold verifyToken at h
  simp only at h
  split at h
  · exact absurd h (by simp)
  · split at h
    · rename_i p0 p1 p2 hs
      refine ⟨p0, p1, p2, hs, ?_⟩
      by_contra hne
      simp [hne] at h
    · exact absurd h (by simp)

theorem split_signed (a b c : JsString) (ha : '.' ∉ a) (hb : '.' ∉ b) (hc : '.' ∉ c) :
    jsSplit '.' (a ++ '.' :: (b ++ '.' :: c)) = [a, b, c] :=
  (jsSplit_eq_three '.' _ a b c).2 ⟨rfl, ha, hb, hc⟩

theorem split_signedToken (env : Env) (header payload : JsVal) :
    jsSplit '.' (signedToken env header payload) =
      [encodeSegment header, encodeSegment payload,
        sign env (encodeSegment header) (encodeSegment payload)] :=
  split_signed _ _ _ (encodeSegment_no_dot _) (encodeSegment_no_dot _) (sign_no_dot _ _ _)

/-- What `verifyToken` returns for a correctly signed token whose payload text
parses to `payload`. -/
theorem verifyToken_signedToken (env : Env) (header v payload : JsVal)
    (hp : jsonParse (stringifyVal v) = some payload) :
    verifyToken env (some (signedToken env header v)) = checkExpiry env payload := by
  rw [verifyToken_of_split env _ _ _ _ (split_signedToken env header v)]
  simp only [ne_eq, not_true_eq_false, if_false, decode_encodeSegment, hp, Option.some_bind]

theorem getProp_payload_exp (id : JsVal) (E : Int) :
    getProp (.obj [("userId".toList, id), ("exp".toList, .num ⟨E, 0⟩)]) "exp".toList =
      some (.num ⟨E, 0⟩) := by
  simp [getProp, lookupKey]

theorem getProp_payload_userId (id : JsVal) (E : Int) :
    getProp (.obj [("userId".toList, id), ("exp".toList, .num ⟨E, 0⟩)]) "userId".toList =
      some id := by
  have hk : "exp".toList ≠ "userId".toList := by decide
  simp [getProp, lookupKey, hk]

theorem numLess_int (E : Int) (n : Nat) : numLess ⟨E, 0⟩ n = decide (E < (n : Int)) := by
  simp [numLess]

/-- What `verifyToken` returns, at any time, for a token that `generateToken`
issued for a string or integer identifier: the payload while the expiry is
not below the current second, `null` afterwards. -/
theorem verifyToken_issued (env : Env) (now' : Nat) (id : JsVal)
    (hid : isStringOrInteger id = true) (hnow : env.now ≤ maxTime) :
    verifyToken { env with now := now' } (some (generateToken env id)) =
      if tokenExpiry env < now' / 1000 then none else some (tokenPayload env id) := by
  have hp := jsonParse_tokenPayload env id hid hnow
  have hg : generateToken env id =
      signedToken { env with now := now' } tokenHeader (tokenPayload env id) := rfl
  rw [hg, verifyToken_signedToken _ _ _ _ hp]
  have h604 : tokenExpiry env = env.now / 1000 + 604800 := rfl
  unfold tokenPayload JsVal.int checkExpiry
  generalize tokenExpiry env = E at h604
  rw [getProp_payload_exp]
  have ht : truthy (.num ⟨(E : Int), 0⟩) = true := by
    simp [truthy]
    omega
  simp only [ht, if_true, lessThan, numLess_int]
  generalize now' / 1000 = S
  by_cases hlt : E < S
  · have hd : decide ((E : Int) < (S : Int)) = true := decide_eq_true (by omega)
    rw [hd, if_pos hlt]
  · have hd : decide ((E : Int) < (S : Int)) = false := decide_eq_false (by omega)
    rw [hd, if_neg hlt]

/-! ## Token codec: the claims -/

theorem env_with_now (env : Env) : { env with now := env.now } = env := rfl

theorem tokenExpiry_not_past (env : Env) : ¬ tokenExpiry env < env.now / 1000 := by
  have h : tokenExpiry env = env.now / 1000 + 604800 := rfl
  generalize tokenExpiry env = e at h
  omega

theorem generateToken_segments (env : Env) (id : JsVal) :
    generateToken env id =
      headerSegment ++ '.' :: (payloadSegment env id ++ '.' :: signatureSegment env id) := rfl

theorem getProp_tokenPayload_userId (env : Env) (id : JsVal) :
    getProp (tokenPayload env id) "userId".toList = some id :=
  getProp_payload_userId id _

/-- C4: for a user identifier that is a string or an integer (below `10 ^ 21`
in absolute value, where numbers print without exponent) and a time `now` in
the range of `Date`, the token `generateToken(id)` issued at `now` has exactly
three dot-separated segments (header, payload, signature), and `verifyToken`
applied to it at the same time under the same secret returns a payload whose
`userId` is `id`. -/
theorem verifyToken_generateToken (env : Env) (id : JsVal)
    (hid : isStringOrInteger id = true) (hnow : env.now ≤ maxTime) :
    jsSplit '.' (generateToken env id) =
      [headerSegment, payloadSegment env id, signatureSegment env id] ∧
    ∃ payload, verifyToken env (some (generateToken env id)) = some payload ∧
      getProp payload "userId".toList = some id := by
  refine ⟨split_signedToken env tokenHeader (tokenPayload env id), tokenPayload env id, ?_,
    getProp_tokenPayload_userId env id⟩
  have h := verifyToken_issued env env.now id hid hnow
  rw [env_with_now, if_neg (tokenExpiry_not_past env)] at h
  exact h

/-- C4, at the identifier 42 in the sample environment. -/
theorem verifyToken_generateToken_witness :
    isStringOrInteger (.int 42) = true ∧ sampleEnv.now ≤ maxTime ∧
    jsSplit '.' (generateToken sampleEnv (.int 42)) =
      [headerSegment, payloadSegment sampleEnv (.int 42), signatureSegment sampleEnv (.int 42)] ∧
    ∃ payload, verifyToken sampleEnv (some (generateToken sampleEnv (.int 42))) = some payload ∧
      getProp payload "userId".toList = some (.int 42) :=
  ⟨by decide, by decide, verifyToken_generateToken sampleEnv (.int 42) (by decide) (by decide)⟩

/-- A token of the form `a.b.s` that `verifyToken` accepts has no dot inside
`a`, `b` and `s`, and `s` is the signature of `a.b`. -/
theorem accepted_parts (env : Env) (a b s : JsString) (r : JsVal)
    (hv : verifyToken env (some (a ++ '.' :: (b ++ '.' :: s))) = some r) :
    '.' ∉ a ∧ '.' ∉ b ∧ '.' ∉ s ∧ sign env a b = s := by
  obtain ⟨p0, p1, p2, hs, hsig⟩ := verifyToken_some_split env _ r hv
  obtain ⟨ht, h0, h1, h2⟩ := (jsSplit_eq_three '.' _ p0 p1 p2).1 hs
  have hc := congrArg (List.count '.') ht
  simp only [List.count_append, List.count_cons_self, List.count_eq_zero.2 h0,
    List.count_eq_zero.2 h1, List.count_eq_zero.2 h2] at hc
  have ha : '.' ∉ a := List.count_eq_zero.1 (by omega)
  have hb : '.' ∉ b := List.count_eq_zero.1 (by omega)
  have hs' : '.' ∉ s := List.count_eq_zero.1 (by omega)
  have hsplit := split_signed a b s ha hb hs'
  rw [hs] at hsplit
  simp only [List.cons.injEq, and_true] at hsplit
  obtain ⟨rfl, rfl, rfl⟩ := hsplit
  exact ⟨ha, hb, hs', hsig⟩

theorem rejected_of_not_signed (env : Env) (a b s : JsString) (h : sign env a b ≠ s) :
    verifyToken env (some (a ++ '.' :: (b ++ '.' :: s))) = none := by
  cases hv : verifyToken env (some (a ++ '.' :: (b ++ '.' :: s))) with
  | none => rfl
  | some r => exact absurd (accepted_parts env a b s r hv).2.2.2 h

theorem sign_ne_of_hmac_ne (env : Env) (a b a' b' : JsString)
    (h : env.hmacSha256 env.JWT_SECRET (a' ++ '.' :: b') ≠
      env.hmacSha256 env.JWT_SECRET (a ++ '.' :: b)) :
    sign env a' b' ≠ sign env a b := by
  intro e
  exact h (base64Encode_injective e)

theorem set_ne_of_getElem (l : JsString) (i : Nat) (c d : Char)
    (hd : l[i]? = some d) (hc : c ≠ d) : l.set i c ≠ l := by
  intro e
  have h1 : (l.set i c)[i]? = some d := by rw [e]; exact hd
  have hi : i < l.length := by
    by_contra hn
    have : l[i]? = none := List.getElem?_eq_none (by omega)
    rw [this] at hd
    exact absurd hd (by simp)
  rw [List.getElem?_set_self hi] at h1
  exact hc (by simpa using h1)

/-- C5: a token issued by `generateToken` is `header.payload.signature`;
replacing the character `d` at any position `i` of one of its three segments by
a different character `c` makes `verifyToken` return `null`: always for the
signature segment, and for the header and the payload segment whenever the
HMAC of the altered `header.payload` text differs from that of the original
text. -/
theorem tampered_token_rejected (env : Env) (id : JsVal) (i : Nat) (c d : Char) :
    generateToken env id =
      headerSegment ++ '.' :: (payloadSegment env id ++ '.' :: signatureSegment env id) ∧
    ((signatureSegment env id)[i]? = some d → c ≠ d →
      verifyToken env (some (headerSegment ++ '.' ::
        (payloadSegment env id ++ '.' :: (signatureSegment env id).set i c))) = none) ∧
    (headerSegment[i]? = some d → c ≠ d →
      env.hmacSha256 env.JWT_SECRET (headerSegment.set i c ++ '.' :: payloadSegment env id) ≠
        env.hmacSha256 env.JWT_SECRET (headerSegment ++ '.' :: payloadSegment env id) →
      verifyToken env (some (headerSegment.set i c ++ '.' ::
        (payloadSegment env id ++ '.' :: signatureSegment env id))) = none) ∧
    ((payloadSegment env id)[i]? = some d → c ≠ d →
      env.hmacSha256 env.JWT_SECRET (headerSegment ++ '.' :: (payloadSegment env id).set i c) ≠
        env.hmacSha256 env.JWT_SECRET (headerSegment ++ '.' :: payloadSegment env id) →
      verifyToken env (some (headerSegment ++ '.' ::
        ((payloadSegment env id).set i c ++ '.' :: signatureSegment env id))) = none) := by
  refine ⟨rfl, ?_, ?_, ?_⟩
  · intro hd hc
    apply rejected_of_not_signed
    exact (set_ne_of_getElem _ i c d hd hc).symm
  · intro _ _ hh
    apply rejected_of_not_signed
    exact sign_ne_of_hmac_ne env _ _ _ _ hh
  · intro _ _ hh
    apply rejected_of_not_signed
    exact sign_ne_of_hmac_ne env _ _ _ _ hh

set_option maxRecDepth 100000 in
/-- C5, at the first character of each segment of a token of the sample
environment. -/
theorem tampered_token_rejected_witness :
    verifyToken sampleEnv (some (headerSegment ++ '.' ::
      (payloadSegment sampleEnv (.int 42) ++ '.' :: (signatureSegment sampleEnv (.int 42)).set 0 'A'))) = none ∧
    verifyToken sampleEnv (some (headerSegment.set 0 'f' ++ '.' ::
      (payloadSegment sampleEnv (.int 42) ++ '.' :: signatureSegment sampleEnv (.int 42)))) = none ∧
    verifyToken sampleEnv (some (headerSegment ++ '.' ::
      ((payloadSegment sampleEnv (.int 42)).set 0 'f' ++ '.' :: signatureSegment sampleEnv (.int 42)))) = none :=
  ⟨(tampered_token_rejected sampleEnv (.int 42) 0 'A' 'Z').2.1 (by decide) (by decide),
   (tampered_token_rejected sampleEnv (.int 42) 0 'f' 'e').2.2.1 (by decide) (by decide) (by decide),
   (tampered_token_rejected sampleEnv (.int 42) 0 'f' 'e').2.2.2 (by decide) (by decide) (by decide)⟩

/-- C6: a token issued under the secret of `env` is rejected by a verifier
whose secret `k` gives another HMAC for the token's `header.payload` text; and
whatever token `verifyToken` accepts has three segments, the third being the
base64 HMAC, under the verifier's own secret, of the first two joined by a
dot. -/
theorem other_secret_rejected (env : Env) (id : JsVal) (k : JsString) :
    (env.hmacSha256 k (headerSegment ++ '.' :: payloadSegment env id) ≠
        env.hmacSha256 env.JWT_SECRET (headerSegment ++ '.' :: payloadSegment env id) →
      verifyToken { env with JWT_SECRET := k } (some (generateToken env id)) = none) ∧
    (∀ (t : JsString) (r : JsVal), verifyToken env (some t) = some r →
      ∃ p0 p1 p2, jsSplit '.' t = [p0, p1, p2] ∧
        p2 = base64Encode (env.hmacSha256 env.JWT_SECRET (p0 ++ '.' :: p1))) := by
  constructor
  · intro hh
    rw [generateToken_segments]
    apply rejected_of_not_signed
    intro e
    exact hh (base64Encode_injective e)
  · intro t r hv
    obtain ⟨p0, p1, p2, hs, hsig⟩ := verifyToken_some_split env t r hv
    exact ⟨p0, p1, p2, hs, hsig.symm⟩

/-- C6, at the secret `other` in the sample environment. -/
theorem other_secret_rejected_witness :
    sampleEnv.hmacSha256 "other".toList (headerSegment ++ '.' :: payloadSegment sampleEnv (.int 42)) ≠
      sampleEnv.hmacSha256 sampleEnv.JWT_SECRET
        (headerSegment ++ '.' :: payloadSegment sampleEnv (.int 42)) ∧
    verifyToken { sampleEnv with JWT_SECRET := "other".toList }
      (some (generateToken sampleEnv (.int 42))) = none :=
  ⟨by decide, (other_secret_rejected sampleEnv (.int 42) "other".toList).1 (by decide)⟩

/-! ## Token codec: expiry, failures, payload -/

theorem checkExpiry_zero (env : Env) (id : JsVal) :
    checkExpiry env (.obj [("userId".toList, id), ("exp".toList, .num ⟨0, 0⟩)]) =
      some (.obj [("userId".toList, id), ("exp".toList, .num ⟨0, 0⟩)]) := by
  unfold checkExpiry
  rw [getProp_payload_exp]
  rfl

/-- C7 as stated fails: in the sample environment the correctly signed token
with payload `{"userId":1,"exp":0}` has an `exp` below the current second and
is accepted. -/
theorem zero_exp_accepted :
    jsSplit '.' (signedToken sampleEnv tokenHeader
        (.obj [("userId".toList, .int 1), ("exp".toList, .int 0)])) =
      [headerSegment, encodeSegment (.obj [("userId".toList, .int 1), ("exp".toList, .int 0)]),
        sign sampleEnv headerSegment
          (encodeSegment (.obj [("userId".toList, .int 1), ("exp".toList, .int 0)]))] ∧
    jsonParse (utf8Decode (base64Decode
        (encodeSegment (.obj [("userId".toList, .int 1), ("exp".toList, .int 0)])))) =
      some (.obj [("userId".toList, .int 1), ("exp".toList, .int 0)]) ∧
    numLess ⟨0, 0⟩ (sampleEnv.now / 1000) = true ∧
    verifyToken sampleEnv (some (signedToken sampleEnv tokenHeader
        (.obj [("userId".toList, .int 1), ("exp".toList, .int 0)]))) =
      some (.obj [("userId".toList, .int 1), ("exp".toList, .int 0)]) := by
  have hp := jsonParse_payload 0 (by decide) (.int 1) (by decide)
  simp only [JsVal.int] at hp ⊢
  refine ⟨split_signedToken _ _ _, ?_, by decide, ?_⟩
  · rw [decode_encodeSegment]
    exact hp
  · rw [verifyToken_signedToken sampleEnv tokenHeader _ _ hp]
    exact checkExpiry_zero sampleEnv _

theorem checkExpiry_expired (env : Env) (payload : JsVal) (x : JsNum)
    (he : getProp payload "exp".toList = some (.num x)) (h0 : x.mant ≠ 0)
    (hlt : numLess x (env.now / 1000) = true) :
    checkExpiry env payload = none := by
  unfold checkExpiry
  rw [he]
  have ht : truthy (.num x) = true := by simp [truthy, h0]
  simp [ht, lessThan, hlt]

theorem token_expiry_aux (env : Env) (t p0 p1 p2 : JsString) (payload : JsVal) (x : JsNum)
    (hs : jsSplit '.' t = [p0, p1, p2])
    (hp : jsonParse (utf8Decode (base64Decode p1)) = some payload)
    (he : getProp payload "exp".toList = some (.num x)) (h0 : x.mant ≠ 0)
    (hlt : numLess x (env.now / 1000) = true) :
    verifyToken env (some t) = none := by
  rw [verifyToken_of_split env t p0 p1 p2 hs]
  split
  · rfl
  · rw [hp, Option.some_bind]
    exact checkExpiry_expired env payload x he h0 hlt

/-- C7, amended: the payload segment of `generateToken` at millisecond time
`now` encodes `exp = floor(now / 1000) + 604800`; `verifyToken` returns `null`
for every token of three segments whose payload has an integer other than 0
as `exp` that is below the current second; a token issued for a string or
integer identifier is rejected at every time whose second is later than its `exp`, in
particular eight days after it was issued. -/
theorem token_expiry (env : Env) (id : JsVal) :
    payloadSegment env id =
      encodeSegment (.obj [("userId".toList, id),
        ("exp".toList, .int ((env.now / 1000 + 604800 : Nat) : Int))]) ∧
    (∀ (t p0 p1 p2 : JsString) (payload : JsVal) (E : Int),
      jsSplit '.' t = [p0, p1, p2] →
      jsonParse (utf8Decode (base64Decode p1)) = some payload →
      getProp payload "exp".toList = some (.num ⟨E, 0⟩) → E ≠ 0 →
      E < ((env.now / 1000 : Nat) : Int) →
      verifyToken env (some t) = none) ∧
    (isStringOrInteger id = true → env.now ≤ maxTime →
      (∀ later : Nat, env.now / 1000 + 604800 < later / 1000 →
        verifyToken { env with now := later } (some (generateToken env id)) = none) ∧
      verifyToken { env with now := env.now + 8 * 24 * 60 * 60 * 1000 }
        (some (generateToken env id)) = none) := by
  refine ⟨rfl, ?_, ?_⟩
  · intro t p0 p1 p2 payload E hs hp he h0 hlt
    exact token_expiry_aux env t p0 p1 p2 payload ⟨E, 0⟩ hs hp he h0
      (by rw [numLess_int]; exact decide_eq_true hlt)
  · intro hid hnow
    have h604 : tokenExpiry env = env.now / 1000 + 604800 := rfl
    constructor
    · intro later hl
      rw [verifyToken_issued env later id hid hnow, if_pos (by rw [h604]; exact hl)]
    · rw [verifyToken_issued env _ id hid hnow, if_pos]
      generalize tokenExpiry env = e at h604
      omega

/-- C7 amended, at the identifier 42 in the sample environment. -/
theorem token_expiry_witness :
    isStringOrInteger (.int 42) = true ∧ sampleEnv.now ≤ maxTime ∧
    verifyToken { sampleEnv with now := sampleEnv.now + 8 * 24 * 60 * 60 * 1000 }
      (some (generateToken sampleEnv (.int 42))) = none :=
  ⟨by decide, by decide, ((token_expiry sampleEnv (.int 42)).2.2 (by decide) (by decide)).2⟩

/-- C8 as stated fails: in the sample environment the correctly signed token
with payload `{"userId":"ana","exp":0}` is in the failure case `exp < now`,
and `verifyToken` returns its payload, not `null`. -/
theorem zero_exp_not_null :
    jsonParse (utf8Decode (base64Decode
        (encodeSegment (.obj [("userId".toList, .str "ana".toList), ("exp".toList, .int 0)])))) =
      some (.obj [("userId".toList, .str "ana".toList), ("exp".toList, .int 0)]) ∧
    numLess ⟨0, 0⟩ (sampleEnv.now / 1000) = true ∧
    verifyToken sampleEnv (some (signedToken sampleEnv tokenHeader
        (.obj [("userId".toList, .str "ana".toList), ("exp".toList, .int 0)]))) ≠ none := by
  have hp := jsonParse_payload 0 (by decide) (.str "ana".toList) (by decide)
  simp only [JsVal.int] at hp ⊢
  refine ⟨?_, by decide, ?_⟩
  · rw [decode_encodeSegment]
    exact hp
  · rw [verifyToken_signedToken sampleEnv tokenHeader _ _ hp, checkExpiry_zero]
    simp

/-- C8, amended: `verifyToken` returns `null` when the token is `null` or
empty, when it does not split on `.` into exactly three parts, when the third
part differs from the signature of the first two, when the decoded payload is
not valid JSON or is the JSON `null` (reading `exp` then throws inside the
`try`), and when `exp` is an integer other than 0 that is below the current
second; every result other than `null` is the parsed payload of a correctly
signed token, so no failure is told apart from another. -/
theorem verifyToken_failures (env : Env) :
    verifyToken env none = none ∧
    verifyToken env (some []) = none ∧
    (∀ t : JsString, (jsSplit '.' t).length ≠ 3 → verifyToken env (some t) = none) ∧
    (∀ t p0 p1 p2 : JsString, jsSplit '.' t = [p0, p1, p2] → p2 ≠ sign env p0 p1 →
      verifyToken env (some t) = none) ∧
    (∀ t p0 p1 p2 : JsString, jsSplit '.' t = [p0, p1, p2] →
      jsonParse (utf8Decode (base64Decode p1)) = none → verifyToken env (some t) = none) ∧
    (∀ t p0 p1 p2 : JsString, jsSplit '.' t = [p0, p1, p2] →
      jsonParse (utf8Decode (base64Decode p1)) = some .null → verifyToken env (some t) = none) ∧
    (∀ (t p0 p1 p2 : JsString) (payload : JsVal) (E : Int), jsSplit '.' t = [p0, p1, p2] →
      jsonParse (utf8Decode (base64Decode p1)) = some payload →
      getProp payload "exp".toList = some (.num ⟨E, 0⟩) → E ≠ 0 →
      E < ((env.now / 1000 : Nat) : Int) → verifyToken env (some t) = none) ∧
    (∀ (t : JsString) (r : JsVal), verifyToken env (some t) = some r →
      ∃ p0 p1 p2, jsSplit '.' t = [p0, p1, p2] ∧ p2 = sign env p0 p1 ∧
        jsonParse (utf8Decode (base64Decode p1)) = some r) := by
  refine ⟨rfl, rfl, ?_, ?_, ?_, ?_, ?_, ?_⟩
  · intro t hlen
    cases hv : verifyToken env (some t) with
    | none => rfl
    | some r =>
      obtain ⟨p0, p1, p2, hs, _⟩ := verifyToken_some_split env t r hv
      rw [hs] at hlen
      exact absurd rfl hlen
  · intro t p0 p1 p2 hs hne
    rw [verifyToken_of_split env t p0 p1 p2 hs, if_pos (fun e => hne e.symm)]
  · intro t p0 p1 p2 hs hp
    rw [verifyToken_of_split env t p0 p1 p2 hs, hp]
    split <;> rfl
  · intro t p0 p1 p2 hs hp
    rw [verifyToken_of_split env t p0 p1 p2 hs, hp]
    split <;> rfl
  · intro t p0 p1 p2 payload E hs hp he h0 hlt
    exact token_expiry_aux env t p0 p1 p2 payload ⟨E, 0⟩ hs hp he h0
      (by rw [numLess_int]; exact decide_eq_true hlt)
  · intro t r hv
    obtain ⟨p0, p1, p2, hs, hsig⟩ := verifyToken_some_split env t r hv
    refine ⟨p0, p1, p2, hs, hsig.symm, ?_⟩
    rw [verifyToken_of_split env t p0 p1 p2 hs, if_neg (by simp [hsig])] at hv
    cases hp : jsonParse (utf8Decode (base64Decode p1)) with
    | none => rw [hp] at hv; exact absurd hv (by simp)
    | some payload =>
      rw [hp, Option.some_bind] at hv
      have : payload = r := by
        unfold checkExpiry at hv
        split at hv
        · exact absurd hv (by simp)
        · split at hv
          · split at hv
            · exact absurd hv (by simp)
            · exact absurd hv (by simp)
            · simpa using hv
          · simpa using hv
      rw [this]

/-- C8 amended, at a token of two parts and at a token whose third part is
not the signature, in the sample environment. -/
theorem verifyToken_failures_witness :
    (jsSplit '.' "a.b".toList).length ≠ 3 ∧
    "c".toList ≠ sign sampleEnv "a".toList "b".toList ∧
    verifyToken sampleEnv (some "a.b".toList) = none ∧
    verifyToken sampleEnv (some "a.b.c".toList) = none :=
  ⟨by decide, by decide,
    (verifyToken_failures sampleEnv).2.2.1 "a.b".toList (by decide),
    (verifyToken_failures sampleEnv).2.2.2.1 "a.b.c".toList "a".toList "b".toList "c".toList
      (by decide) (by decide)⟩

/-! ## Token codec: what an accepted token carries -/

/-- C9 as stated fails: in the sample environment the correctly signed token
whose payload is the empty object `{}` is accepted, and the result has no
`userId` member (`payload.userId` is `undefined`). -/
theorem empty_payload_accepted :
    verifyToken sampleEnv (some (signedToken sampleEnv tokenHeader (.obj []))) = some (.obj []) ∧
    hasKey [] "userId".toList = false ∧
    getProp (.obj []) "userId".toList = some .undefined := by
  have hp : jsonParse (stringifyVal (.obj [])) = some (.obj []) := by rfl
  refine ⟨?_, rfl, rfl⟩
  rw [verifyToken_signedToken sampleEnv tokenHeader _ _ hp]
  rfl

/-- C9, amended: for every token that `generateToken` issued for a string or
integer identifier, and every time at which `verifyToken` returns a result
other than `null` for it, that result is the decoded payload object of the
token and contains a `userId` member, equal to the identifier. -/
theorem verifyToken_result_userId (env : Env) (later : Nat) (id r : JsVal)
    (hid : isStringOrInteger id = true) (hnow : env.now ≤ maxTime)
    (h : verifyToken { env with now := later } (some (generateToken env id)) = some r) :
    r = tokenPayload env id ∧
    jsonParse (utf8Decode (base64Decode (payloadSegment env id))) = some r ∧
    (∃ members, r = .obj members ∧ hasKey members "userId".toList = true) ∧
    getProp r "userId".toList = some id := by
  rw [verifyToken_issued env later id hid hnow] at h
  have hr : r = tokenPayload env id := by
    split at h
    · exact absurd h (by simp)
    · simpa using h.symm
  subst hr
  refine ⟨rfl, ?_, ⟨_, rfl, ?_⟩, getProp_tokenPayload_userId env id⟩
  · rw [payloadSegment, decode_encodeSegment]
    exact jsonParse_tokenPayload env id hid hnow
  · simp [hasKey]

/-- C9 amended, at the identifier `ana` in the sample environment, three days
after the token was issued. -/
theorem verifyToken_result_userId_witness :
    isStringOrInteger (.str "ana".toList) = true ∧ sampleEnv.now ≤ maxTime ∧
    verifyToken { sampleEnv with now := sampleEnv.now + 259200000 }
      (some (generateToken sampleEnv (.str "ana".toList))) =
        some (tokenPayload sampleEnv (.str "ana".toList)) ∧
    getProp (tokenPayload sampleEnv (.str "ana".toList)) "userId".toList =
      some (.str "ana".toList) :=
  have h : verifyToken { sampleEnv with now := sampleEnv.now + 259200000 }
      (some (generateToken sampleEnv (.str "ana".toList))) =
        some (tokenPayload sampleEnv (.str "ana".toList)) := by
    rw [verifyToken_issued sampleEnv _ _ (by decide) (by decide), if_neg (by decide)]
  ⟨by decide, by decide, h,
    (verifyToken_result_userId sampleEnv (sampleEnv.now + 259200000) (.str "ana".toList)
      (tokenPayload sampleEnv (.str "ana".toList)) (by decide) (by decide) h).2.2.2⟩

/-! ## Protected routes -/

theorem verifyToken_missing (env : Env) (req : Request) (h : req.authorization = none) :
    verifyToken env (getAuthToken req) = none := by
  simp [getAuthToken, h, verifyToken]

/-- C11: on each of the four protected routes (`GET /api/profile`,
`GET /api/cart`, `POST /api/cart`, `DELETE /api/cart/:id`) a request whose
token is missing or is rejected by `verifyToken` is answered with 401 and
`{ error: 'unauthorized' }`, whatever its body and its path identifier are;
the answer is a response, so no query is issued. -/
theorem protected_routes_unauthorized (env : Env) (req : Request)
    (hroute : (req.method = "GET".toList ∧ req.pathname = "/api/profile".toList) ∨
      (req.method = "GET".toList ∧ req.pathname = "/api/cart".toList) ∨
      (req.method = "POST".toList ∧ req.pathname = "/api/cart".toList) ∨
      (req.method = "DELETE".toList ∧ startsWith req.pathname "/api/cart/".toList = true))
    (htoken : req.authorization = none ∨ verifyToken env (getAuthToken req) = none) :
    server env req = .respond 401 (errorBody "unauthorized") := by
  have hv : verifyToken env (getAuthToken req) = none := by
    rcases htoken with h | h
    · exact verifyToken_missing env req h
    · exact h
  rcases hroute with ⟨hm, hp⟩ | ⟨hm, hp⟩ | ⟨hm, hp⟩ | ⟨hm, hp⟩
  · simp [server, hm, hp, getProfile, hv]
  · simp [server, hm, hp, startsWith, getCart, hv]
  · simp [server, hm, hp, postCart, hv]
  · have hp2 : startsWith req.pathname ['/', 'a', 'p', 'i', '/', 'c', 'a', 'r', 't', '/'] = true := hp
    simp [server, hm, hp2, deleteCart, hv]

/-- C11, at a request: a cart insertion with a token of three segments whose
signature is wrong, and with a body that is not JSON. -/
theorem protected_routes_unauthorized_witness :
    server sampleEnv
      { method := "POST".toList, pathname := "/api/cart".toList,
        authorization := some "Bearer a.b.c".toList, body := "no json".toList } =
      .respond 401 (errorBody "unauthorized") :=
  protected_routes_unauthorized sampleEnv _ (Or.inr (Or.inr (Or.inl ⟨rfl, rfl⟩)))
    (Or.inr (by rfl))

/-! ## The name filter under `LIKE` -/

theorem toLower_plain (c : Char) (h : c ≠ '%' ∧ c ≠ '_' ∧ c ≠ '\\') :
    Char.toLower c ≠ '%' ∧ Char.toLower c ≠ '_' ∧ Char.toLower c ≠ '\\' := by
  unfold Char.toLower
  by_cases hc : c.toNat ≥ 65 ∧ c.toNat ≤ 90
  · simp only [hc, and_self, if_true]
    obtain ⟨h1, h2⟩ := hc
    generalize c.toNat = n at h1 h2
    interval_cases n <;> decide
  · simp only [hc, if_false]
    exact h

theorem sqlLower_plain (s : JsString) (hs : ∀ c ∈ s, c ≠ '%' ∧ c ≠ '_' ∧ c ≠ '\\') :
    ∀ c ∈ sqlLower s, c ≠ '%' ∧ c ≠ '_' ∧ c ≠ '\\' := by
  intro c hc
  simp only [sqlLower, List.mem_map] at hc
  obtain ⟨d, hd, rfl⟩ := hc
  exact toLower_plain d (hs d hd)

theorem anyTail_iff (f : JsString → Bool) (t : JsString) :
    anyTail f t = true ↔ ∃ a b, t = a ++ b ∧ f b = true := by
  induction t with
  | nil =>
    simp only [anyTail]
    constructor
    · intro h
      exact ⟨[], [], rfl, h⟩
    · rintro ⟨a, b, hab, hf⟩
      have hb : b = [] := by
        cases a with
        | nil => simpa using hab.symm
        | cons x xs => simp at hab
      rw [← hb]
      exact hf
  | cons c rest ih =>
    simp only [anyTail, Bool.or_eq_true, ih]
    constructor
    · rintro (h | ⟨a, b, hab, hf⟩)
      · exact ⟨[], c :: rest, rfl, h⟩
      · exact ⟨c :: a, b, by simp [hab], hf⟩
    · rintro ⟨a, b, hab, hf⟩
      cases a with
      | nil =>
        left
        simp only [List.nil_append] at hab
        rw [hab]
        exact hf
      | cons x xs =>
        right
        simp only [List.cons_append, List.cons.injEq] at hab
        exact ⟨xs, b, hab.2, hf⟩

theorem likeMatch_percent (t : JsString) : likeMatch ['%'] t = true := by
  have h : likeMatch ['%'] t = anyTail (likeMatch []) t := by simp [likeMatch]
  rw [h, anyTail_iff]
  exact ⟨t, [], by simp, by simp [likeMatch]⟩

theorem likeMatch_plain (s : JsString) (hs : ∀ c ∈ s, c ≠ '%' ∧ c ≠ '_' ∧ c ≠ '\\') :
    ∀ t : JsString, likeMatch (s ++ ['%']) t = true ↔ ∃ b, t = s ++ b := by
  induction s with
  | nil =>
    intro t
    simp [likeMatch_percent]
  | cons p ps ih =>
    intro t
    obtain ⟨h1, h2, h3⟩ := hs p (by simp)
    have ih2 := ih (fun c hc => hs c (by simp [hc]))
    cases t with
    | nil => simp [likeMatch, h1, h3]
    | cons x xs =>
      simp only [List.cons_append, likeMatch, h1, h2, h3, if_false, decide_False, Bool.false_or,
        Bool.and_eq_true, decide_eq_true_eq, ih2, List.cons.injEq]
      constructor
      · rintro ⟨hx, b, hb⟩
        exact ⟨b, hx, hb⟩
      · rintro ⟨b, hx, hb⟩
        exact ⟨hx, b, hb⟩

theorem nameMatches_iff (s n : JsString) (hs : ∀ c ∈ s, c ≠ '%' ∧ c ≠ '_' ∧ c ≠ '\\') :
    nameMatches s n = true ↔ ∃ a b, sqlLower n = a ++ sqlLower s ++ b := by
  have hp : sqlLower ('%' :: (s ++ ['%'])) = '%' :: (sqlLower s ++ ['%']) := by
    simp [sqlLower]
  have hm : likeMatch ('%' :: (sqlLower s ++ ['%'])) (sqlLower n) =
      anyTail (likeMatch (sqlLower s ++ ['%'])) (sqlLower n) := by
    simp [likeMatch]
  rw [nameMatches, hp, hm, anyTail_iff]
  constructor
  · rintro ⟨a, b, hab, hf⟩
    obtain ⟨b2, hb2⟩ := (likeMatch_plain _ (sqlLower_plain s hs) b).1 hf
    exact ⟨a, b2, by rw [hab, hb2, List.append_assoc]⟩
  · rintro ⟨a, b, hab⟩
    exact ⟨a, sqlLower s ++ b, by rw [hab, List.append_assoc],
      (likeMatch_plain _ (sqlLower_plain s hs) _).2 ⟨b, rfl⟩⟩

theorem searchFilter_literal (s : JsString) :
    searchFilter s =
      "LOWER(m.name) LIKE LOWER(".toList ++ quoteLiteral ('%' :: (s ++ ['%'])) ++ [')'] := by
  simp [searchFilter, quoteLiteral, doubleQuotes, doubleQuotes_append]

/-- C12, as the code has it: the search text is put into the `LIKE` pattern
as it is, between two `%`; for a search text without the pattern characters
`%`, `_` and backslash the condition holds of an item exactly when its
lower-cased name contains the lower-cased search text. -/
theorem search_like_substring (s n : JsString)
    (hs : ∀ c ∈ s, c ≠ '%' ∧ c ≠ '_' ∧ c ≠ '\\') :
    searchFilter s =
        "LOWER(m.name) LIKE LOWER(".toList ++ quoteLiteral ('%' :: (s ++ ['%'])) ++ [')'] ∧
      (nameMatches s n = true ↔ ∃ a b, sqlLower n = a ++ sqlLower s ++ b) :=
  ⟨searchFilter_literal s, nameMatches_iff s n hs⟩

/-- C12, at an item: the search text `ape` and the name `Grape Monk`. -/
theorem search_like_substring_witness :
    (∀ c ∈ "ape".toList, c ≠ '%' ∧ c ≠ '_' ∧ c ≠ '\\') ∧
      nameMatches "ape".toList "Grape Monk".toList = true ∧
      ∃ a b, sqlLower "Grape Monk".toList = a ++ sqlLower "ape".toList ++ b :=
  ⟨by decide, by decide,
    (search_like_substring "ape".toList "Grape Monk".toList (by decide)).2.1 (by decide)⟩

/-- C12 fails for a search text with a pattern character: the search text `_`
selects the item called `a`, whose name has no `_` in it. -/
theorem search_underscore_matches :
    searchConditions (.str "_".toList) = some [searchFilter "_".toList] ∧
      nameMatches "_".toList "a".toList = true ∧
      ¬ ∃ a b, sqlLower "a".toList = a ++ sqlLower "_".toList ++ b := by
  refine ⟨by rfl, by decide, ?_⟩
  rintro ⟨a, b, h⟩
  have hmem : '_' ∈ sqlLower "a".toList := by
    rw [h]
    simp [sqlLower]
  revert hmem
  decide

/-! ## The `WHERE` clause -/

theorem searchConditions_str (search : Option JsString) :
    searchConditions (paramValue search) =
      some ((search.filter (fun s => !s.isEmpty)).map searchFilter).toList := by
  cases search with
  | none => rfl
  | some s =>
    cases s with
    | nil => rfl
    | cons c cs => rfl

theorem rarityConditions_str (rarity : Option JsString) :
    rarityConditions (paramValue rarity) =
      some ((rarity.filter (fun s => !s.isEmpty)).map rarityFilter).toList := by
  cases rarity with
  | none => rfl
  | some s =>
    cases s with
    | nil => rfl
    | cons c cs => rfl

theorem priceConditions_str (maxPrice : Option JsString) :
    priceConditions (paramValue maxPrice) =
      some ((maxPrice.filter (fun s => !s.isEmpty)).bind
        (fun m => (parseInt10 m).map priceFilter)).toList := by
  cases maxPrice with
  | none => rfl
  | some s =>
    cases s with
    | nil => rfl
    | cons c cs =>
      cases h : parseInt10 (c :: cs) with
      | none => simp [priceConditions, paramValue, truthy, toStr, h, Option.filter]
      | some price => simp [priceConditions, paramValue, truthy, toStr, h, Option.filter]

theorem whereClause_nil_iff (filters : List JsString) : whereClause filters = [] ↔ filters = [] := by
  cases filters with
  | nil => simp [whereClause]
  | cons x xs => simp [whereClause]

theorem priceConditions_presence (maxPrice : Option JsString) :
    ∃ c : Option JsString, priceConditions (paramValue maxPrice) = some c.toList ∧
      (c = none ↔ (maxPrice.filter (fun s => !s.isEmpty)).bind parseInt10 = none) := by
  refine ⟨(maxPrice.filter (fun s => !s.isEmpty)).bind (fun m => (parseInt10 m).map priceFilter),
    priceConditions_str maxPrice, ?_⟩
  cases Option.filter (fun s => !s.isEmpty) maxPrice with
  | none => simp
  | some m =>
    cases h : parseInt10 m with
    | none => simp [h]
    | some n => simp [h]

theorem listMonkeys_repeated (req : Request) (items : List JsVal)
    (h : queryParam req "search" = .arr items ∨ queryParam req "rarity" = .arr items) :
    listMonkeys req = .throws := by
  unfold listMonkeys
  rcases h with h | h
  · rw [h]
    simp [filtersOf, searchConditions, truthy]
  · rw [h]
    cases hs : searchConditions (queryParam req "search") with
    | none => simp [filtersOf, hs]
    | some a => simp [filtersOf, hs, rarityConditions, truthy]

/-- C13, as the code has it: for parameters `search`, `rarity` and `maxPrice`
that are each absent or given once, `filters` holds, in the order name,
rarity, price, at most one condition for each parameter: `search` and `rarity`
yield theirs exactly when they are not empty, `maxPrice` yields one exactly
when it is not empty and `parseInt` reads a number from it, so a parameter can
be present and not empty and yield nothing. The `WHERE` clause is empty exactly
when no parameter yields a condition, and otherwise it is `WHERE ` followed by
the conditions with ` AND ` between them. A `search` or `rarity` that is given
more than once is an array, and the handler throws. -/
theorem where_clause (search rarity maxPrice : Option JsString) :
    ∃ a b c : Option JsString,
      a = (search.filter (fun s => !s.isEmpty)).map searchFilter ∧
      b = (rarity.filter (fun s => !s.isEmpty)).map rarityFilter ∧
      priceConditions (paramValue maxPrice) = some c.toList ∧
      (c = none ↔ (maxPrice.filter (fun s => !s.isEmpty)).bind parseInt10 = none) ∧
      filtersOf (paramValue search) (paramValue rarity) (paramValue maxPrice) =
        some (a.toList ++ b.toList ++ c.toList) ∧
      (whereClause (a.toList ++ b.toList ++ c.toList) = [] ↔ a = none ∧ b = none ∧ c = none) ∧
      (∀ x, whereClause [x] = "WHERE ".toList ++ x) ∧
      (∀ x y, whereClause [x, y] = "WHERE ".toList ++ x ++ " AND ".toList ++ y) ∧
      (∀ x y z, whereClause [x, y, z] =
        "WHERE ".toList ++ x ++ " AND ".toList ++ y ++ " AND ".toList ++ z) ∧
      (∀ (req : Request) (items : List JsVal),
        queryParam req "search" = .arr items ∨ queryParam req "rarity" = .arr items →
        listMonkeys req = .throws) := by
  obtain ⟨c, hc, hnone⟩ := priceConditions_presence maxPrice
  refine ⟨_, _, c, rfl, rfl, hc, hnone, ?_, ?_, ?_, ?_, ?_, listMonkeys_repeated⟩
  · simp only [filtersOf, searchConditions_str, rarityConditions_str, hc]
  · rw [whereClause_nil_iff]
    generalize Option.map searchFilter _ = a
    generalize Option.map rarityFilter _ = b
    cases a <;> cases b <;> cases c <;> simp
  · intro x
    simp [whereClause, List.intercalate]
  · intro x y
    simp [whereClause, List.intercalate]
  · intro x y z
    simp [whereClause, List.intercalate]

/-- C13 fails when a parameter is present and yields nothing: for
`search=a&maxPrice=abc` two parameters are present and not empty, and the
`WHERE` clause holds the one condition of `search`. -/
theorem two_parameters_one_condition :
    filtersOf (paramValue (some "a".toList)) (paramValue none) (paramValue (some "abc".toList)) =
      some [searchFilter "a".toList] ∧
    whereClause [searchFilter "a".toList] =
      "WHERE LOWER(m.name) LIKE LOWER('%a%')".toList := by
  refine ⟨by rfl, by decide⟩

/-! ## The price filter -/

theorem spanDigits_all (ds : JsString) (h : ∀ c ∈ ds, isDigit c = true) :
    spanDigits ds = (ds, []) := by
  induction ds with
  | nil => rfl
  | cons c cs ih =>
    have hc : isDigit c = true := h c (by simp)
    have ih2 := ih (fun x hx => h x (by simp [hx]))
    simp [spanDigits, hc, ih2]

theorem isDigit_not_space (c : Char) (h : isDigit c = true) : isStrWhiteSpace c = false := by
  simp only [isDigit, Bool.and_eq_true, decide_eq_true_eq] at h
  simp only [isStrWhiteSpace, Bool.or_eq_false_iff, decide_eq_false_iff_not, Bool.and_eq_false_imp,
    decide_eq_true_eq]
  omega

theorem readSign_digit (c : Char) (cs : JsString) (h : isDigit c = true) :
    readSign (c :: cs) = (false, c :: cs) := by
  have h1 : c ≠ '-' := fun e => by rw [e] at h; exact absurd h (by decide)
  have h2 : c ≠ '+' := fun e => by rw [e] at h; exact absurd h (by decide)
  unfold readSign
  split
  · rename_i heq
    simp only [List.cons.injEq] at heq
    exact absurd heq.1 h1
  · rename_i heq
    simp only [List.cons.injEq] at heq
    exact absurd heq.1 h2
  · rfl

theorem parseInt10_digits (ds : JsString) (hne : ds ≠ []) (h : ∀ c ∈ ds, isDigit c = true) :
    parseInt10 ds = some (digitsToNat ds 0 : Int) := by
  cases ds with
  | nil => exact absurd rfl hne
  | cons c cs =>
    have hc : isDigit c = true := h c (by simp)
    have ht : trimStart (c :: cs) = c :: cs := by simp [trimStart, isDigit_not_space c hc]
    simp [parseInt10, ht, readSign_digit c cs hc, spanDigits_all (c :: cs) h]

theorem priceConditions_of_parse (m : JsString) :
    (parseInt10 m = none → priceConditions (.str m) = some []) ∧
    (∀ n : Int, parseInt10 m = some n → priceConditions (.str m) = some [priceFilter n]) := by
  have hm : m = [] → parseInt10 m = none := fun e => by rw [e]; rfl
  constructor
  · intro h
    cases m with
    | nil => rfl
    | cons c cs => simp [priceConditions, truthy, toStr, h]
  · intro n h
    cases m with
    | nil => rw [hm rfl] at h; exact absurd h (by simp)
    | cons c cs => simp [priceConditions, truthy, toStr, h]

theorem priceFilter_int (n : Int) (h : n.natAbs ≤ 9007199254740992) :
    priceFilter n =
      "m.price <= ".toList ++ ((if n < 0 then ['-'] else []) ++ Nat.toDigits 10 n.natAbs) := by
  have h2 := numToString_int n (by omega)
  simp only [priceFilter, h2]

/-- C14, as the code has it: the price condition follows `parseInt(maxPrice,
10)`, which reads an optional sign and the digits that follow it, and ignores
what comes after them. When it reads no digit no condition is added; when it
reads digits one condition is added, and for an integer `n` of absolute value
at most `2 ^ 53` (the range in which `parseInt` is exact) it is `m.price <= n`
with `n` written as its decimal numeral, whatever follows the digits and
whatever the sign is. No string makes the handler throw. For a value made of decimal digits only
that denotes a number up to `2 ^ 53`, the condition carries that number. -/
theorem maxPrice_condition (m : JsString) :
    (parseInt10 m = none → priceConditions (.str m) = some []) ∧
    (∀ n : Int, parseInt10 m = some n → n.natAbs ≤ 9007199254740992 →
      priceConditions (.str m) =
        some ["m.price <= ".toList ++
          ((if n < 0 then ['-'] else []) ++ Nat.toDigits 10 n.natAbs)]) ∧
    priceConditions (.str m) ≠ none ∧
    (parseInt10 m ≠ none → ∃ condition, priceConditions (.str m) = some [condition]) ∧
    (m ≠ [] → (∀ c ∈ m, isDigit c = true) → digitsToNat m 0 ≤ 9007199254740992 →
      priceConditions (.str m) =
        some ["m.price <= ".toList ++ Nat.toDigits 10 (digitsToNat m 0)]) ∧
    (∀ n : Nat, n ≤ 9007199254740992 →
      priceConditions (.str (Nat.toDigits 10 n)) =
        some ["m.price <= ".toList ++ Nat.toDigits 10 n]) := by
  obtain ⟨h1, h2⟩ := priceConditions_of_parse m
  refine ⟨h1, ?_, ?_, ?_, ?_, ?_⟩
  · intro n hn hb
    rw [h2 n hn, priceFilter_int n hb]
  · cases h : parseInt10 m with
    | none => rw [h1 h]; simp
    | some n => rw [h2 n h]; simp
  · intro hne
    cases h : parseInt10 m with
    | none => exact absurd h hne
    | some n => exact ⟨_, h2 n h⟩
  · intro hne hd hb
    rw [h2 _ (parseInt10_digits m hne hd), priceFilter_int _ (by simpa using hb)]
    simp
  · intro n hn
    have hne : Nat.toDigits 10 n ≠ [] := by
      rw [toDigits_step]
      split <;> simp
    have hp := parseInt10_digits _ hne (toDigits_all_digits n)
    rw [digitsToNat_toDigits] at hp
    rw [(priceConditions_of_parse _).2 _ hp, priceFilter_int _ (by simpa using hn)]
    simp

/-- C14 fails for three of its own examples: `12abc`, `-5` and `1e3` each add
a price condition; `abc` adds none. -/
theorem maxPrice_prefix_accepted :
    priceConditions (.str "12abc".toList) = some ["m.price <= 12".toList] ∧
    priceConditions (.str "-5".toList) = some ["m.price <= -5".toList] ∧
    priceConditions (.str "1e3".toList) = some ["m.price <= 1".toList] ∧
    priceConditions (.str "abc".toList) = some [] := by
  refine ⟨by rfl, by rfl, by rfl, by rfl⟩

/-! ## The ordering -/

theorem orderByOf_cases (sortBy : JsVal) :
    (sortBy = .str "price-asc".toList ∧ orderByOf sortBy = "m.price ASC".toList) ∨
    (sortBy = .str "price-desc".toList ∧ orderByOf sortBy = "m.price DESC".toList) ∨
    (sortBy = .str "rarity-asc".toList ∧ orderByOf sortBy = rarityAscOrder) ∨
    (sortBy = .str "rarity-desc".toList ∧ orderByOf sortBy = rarityDescOrder) ∨
    (sortBy ≠ .str "price-asc".toList ∧ sortBy ≠ .str "price-desc".toList ∧
      sortBy ≠ .str "rarity-asc".toList ∧ sortBy ≠ .str "rarity-desc".toList ∧
      orderByOf sortBy = "m.id".toList) := by
  cases sortBy with
  | str s =>
    by_cases h1 : s = "price-asc".toList
    · left
      subst h1
      exact ⟨rfl, rfl⟩
    by_cases h2 : s = "price-desc".toList
    · right; left
      subst h2
      exact ⟨rfl, rfl⟩
    by_cases h3 : s = "rarity-asc".toList
    · right; right; left
      subst h3
      exact ⟨rfl, rfl⟩
    by_cases h4 : s = "rarity-desc".toList
    · right; right; right; left
      subst h4
      exact ⟨rfl, rfl⟩
    right; right; right; right
    refine ⟨by simpa using h1, by simpa using h2, by simpa using h3, by simpa using h4, ?_⟩
    unfold orderByOf
    simp only [h1, h2, h3, h4, if_false]
    split <;> rfl
  | undefined => exact Or.inr (Or.inr (Or.inr (Or.inr ⟨by simp, by simp, by simp, by simp, rfl⟩)))
  | null => exact Or.inr (Or.inr (Or.inr (Or.inr ⟨by simp, by simp, by simp, by simp, rfl⟩)))
  | bool b =>
    refine Or.inr (Or.inr (Or.inr (Or.inr ⟨by simp, by simp, by simp, by simp, ?_⟩)))
    cases b <;> rfl
  | num n =>
    refine Or.inr (Or.inr (Or.inr (Or.inr ⟨by simp, by simp, by simp, by simp, ?_⟩)))
    unfold orderByOf
    split <;> rfl
  | arr items => exact Or.inr (Or.inr (Or.inr (Or.inr ⟨by simp, by simp, by simp, by simp, rfl⟩)))
  | obj members => exact Or.inr (Or.inr (Or.inr (Or.inr ⟨by simp, by simp, by simp, by simp, rfl⟩)))

/-- C15: in every query of `GET /api/monkeys` the text after `ORDER BY` is one
of five constants, chosen by comparing `query.sortBy` with the four labels: a
label selects its ordering, and every other value (absent, another string, a
repeated parameter) leaves the default `m.id`. The request contributes
nothing else to that text. -/
theorem orderBy_fixed (req : Request) :
    (listMonkeys req = .throws ∨
      ∃ filters, listMonkeys req =
        .runQuery (listHead ++ whereClause filters ++ "\n      ORDER BY ".toList ++
          orderByOf (queryParam req "sortBy") ++ "\n    ) x;".toList)) ∧
    ((queryParam req "sortBy" = .str "price-asc".toList ∧
        orderByOf (queryParam req "sortBy") = "m.price ASC".toList) ∨
      (queryParam req "sortBy" = .str "price-desc".toList ∧
        orderByOf (queryParam req "sortBy") = "m.price DESC".toList) ∨
      (queryParam req "sortBy" = .str "rarity-asc".toList ∧
        orderByOf (queryParam req "sortBy") = rarityAscOrder) ∨
      (queryParam req "sortBy" = .str "rarity-desc".toList ∧
        orderByOf (queryParam req "sortBy") = rarityDescOrder) ∨
      (queryParam req "sortBy" ≠ .str "price-asc".toList ∧
        queryParam req "sortBy" ≠ .str "price-desc".toList ∧
        queryParam req "sortBy" ≠ .str "rarity-asc".toList ∧
        queryParam req "sortBy" ≠ .str "rarity-desc".toList ∧
        orderByOf (queryParam req "sortBy") = "m.id".toList)) := by
  refine ⟨?_, orderByOf_cases _⟩
  unfold listMonkeys
  cases filtersOf (queryParam req "search") (queryParam req "rarity")
      (queryParam req "maxPrice") with
  | none => exact Or.inl rfl
  | some filters => exact Or.inr ⟨filters, rfl⟩

/-! ## The rarity orderings -/

theorem rarityOrder_text :
    rarityAscOrder = renderCase rarityArms 99 "ASC".toList ∧
    rarityDescOrder = renderCase rarityArms 99 "DESC".toList :=
  ⟨by rfl, by rfl⟩

theorem rarityKey_recognised :
    rarityKey "Common".toList = 1 ∧ rarityKey "Rare".toList = 2 ∧ rarityKey "Epic".toList = 3 ∧
    rarityKey "Legendary".toList = 4 ∧ rarityKey "Mythic".toList = 5 := by
  refine ⟨by decide, by decide, by decide, by decide, by decide⟩

theorem rarityKey_other (r : JsString)
    (h : r ∉ ["Common".toList, "Rare".toList, "Epic".toList, "Legendary".toList,
      "Mythic".toList]) : rarityKey r = 99 := by
  simp only [List.mem_cons, List.mem_singleton, not_or, List.not_mem_nil, or_false] at h
  obtain ⟨h1, h2, h3, h4, h5⟩ := h
  simp only [rarityKey, rarityArms, evalCase, h1, h2, h3, h4, h5, if_false]

theorem rarity_ascending (r : JsString)
    (h : r ∉ ["Common".toList, "Rare".toList, "Epic".toList, "Legendary".toList,
      "Mythic".toList]) :
    placedBefore false "Common".toList "Rare".toList = true ∧
    placedBefore false "Rare".toList "Epic".toList = true ∧
    placedBefore false "Epic".toList "Legendary".toList = true ∧
    placedBefore false "Legendary".toList "Mythic".toList = true ∧
    placedBefore false "Mythic".toList r = true := by
  refine ⟨by decide, by decide, by decide, by decide, ?_⟩
  have hm : rarityKey "Mythic".toList = 5 := rarityKey_recognised.2.2.2.2
  simp only [placedBefore, rarityKey_other r h, hm]
  decide

theorem rarity_descending (r : JsString)
    (h : r ∉ ["Common".toList, "Rare".toList, "Epic".toList, "Legendary".toList,
      "Mythic".toList]) :
    placedBefore true r "Mythic".toList = true ∧
    placedBefore true "Mythic".toList "Legendary".toList = true ∧
    placedBefore true "Legendary".toList "Epic".toList = true ∧
    placedBefore true "Epic".toList "Rare".toList = true ∧
    placedBefore true "Rare".toList "Common".toList = true := by
  refine ⟨?_, by decide, by decide, by decide, by decide⟩
  have hm : rarityKey "Mythic".toList = 5 := rarityKey_recognised.2.2.2.2
  simp only [placedBefore, rarityKey_other r h, hm]
  decide

/-- C16 at `sortBy=rarity-desc`: the ordering is the same `CASE` as for
`rarity-asc`, with `ELSE 99`, followed by `DESC`; an item whose rarity is
`Unknown` has the key 99 and is put in front of an item of rarity `Mythic`
(key 5), not after it. Under `rarity-asc` it is put after it. -/
theorem rarity_desc_unrecognised_first :
    orderByOf (.str "rarity-desc".toList) = renderCase rarityArms 99 "DESC".toList ∧
    rarityKey "Unknown".toList = 99 ∧ rarityKey "Mythic".toList = 5 ∧
    placedBefore true "Unknown".toList "Mythic".toList = true ∧
    placedBefore true "Mythic".toList "Unknown".toList = false ∧
    orderByOf (.str "rarity-asc".toList) = renderCase rarityArms 99 "ASC".toList ∧
    placedBefore false "Mythic".toList "Unknown".toList = true := by
  refine ⟨by rfl, by decide, by decide, by decide, by decide, by rfl, by decide⟩

/-! ## The item route -/

theorem startsWith_append (p r : JsString) : startsWith (p ++ r) p = true := by
  induction p with
  | nil => cases r <;> rfl
  | cons c cs ih => simp [startsWith, ih]

theorem lastSegment_monkeys (r : JsString) :
    lastSegment ("/api/monkeys/".toList ++ r) = lastSegment r := by
  have h1 : "/api/monkeys/".toList ++ r =
      [] ++ '/' :: ("api".toList ++ '/' :: ("monkeys".toList ++ '/' :: r)) := rfl
  have hne := jsSplit_ne_nil '/' r
  unfold lastSegment
  rw [h1, jsSplit_append '/' [] _ (by simp), jsSplit_append '/' "api".toList _ (by decide),
    jsSplit_append '/' "monkeys".toList _ (by decide)]
  cases hs : jsSplit '/' r with
  | nil => exact absurd hs hne
  | cons x xs => simp

theorem lastSegment_of_no_slash (r : JsString) (h : '/' ∉ r) : lastSegment r = r := by
  simp [lastSegment, jsSplit_of_not_mem '/' r h]

theorem server_item_route (env : Env) (req : Request) (r : JsString)
    (hm : req.method = "GET".toList) (hp : req.pathname = "/api/monkeys/".toList ++ r) :
    server env req = getMonkeyById req := by
  have hs : startsWith req.pathname "/api/monkeys/".toList = true := by
    rw [hp]
    exact startsWith_append _ r
  have hs2 : startsWith req.pathname ['/', 'a', 'p', 'i', '/', 'm', 'o', 'n', 'k', 'e', 'y', 's', '/'] =
      true := hs
  have hp2 : req.pathname = '/' :: 'a' :: 'p' :: 'i' :: '/' :: 'm' :: 'o' :: 'n' :: 'k' :: 'e' ::
      'y' :: 's' :: '/' :: r := hp
  have h1 : req.pathname ≠ "/health".toList := by rw [hp2]; simp
  have h2 : req.pathname ≠ "/api/profile".toList := by rw [hp2]; simp
  have h3 : req.pathname ≠ "/api/monkeys".toList := by rw [hp2]; simp
  unfold server
  rw [hm]
  simp only [h1, h2, h3, hs, and_false, and_true, if_false, if_true]
  simp

/-- C17, as the code has it: the route takes the text after the last `/` of
the path as the identifier. A `GET` for `/api/monkeys/` followed by `r` is
answered with 400 and `{ error: 'invalid_id' }`, without a query, when the
last segment of `r` is not `monk-` and three digits, and issues the item query
for that segment when it is; for an `r` without `/` the last segment is `r`. -/
theorem item_id_validation (env : Env) (req : Request) (r : JsString)
    (hm : req.method = "GET".toList) (hp : req.pathname = "/api/monkeys/".toList ++ r) :
    (isMonkId (lastSegment r) = false →
      server env req = .respond 400 (errorBody "invalid_id")) ∧
    (isMonkId (lastSegment r) = true →
      server env req =
        .runQuery (monkeyByIdHead ++ quoteLiteral (lastSegment r) ++ monkeyByIdTail)) ∧
    ('/' ∉ r → lastSegment r = r) := by
  have hl : lastSegment req.pathname = lastSegment r := by rw [hp, lastSegment_monkeys]
  rw [server_item_route env req r hm hp]
  refine ⟨?_, ?_, lastSegment_of_no_slash r⟩
  · intro h
    simp [getMonkeyById, hl, h]
  · intro h
    simp [getMonkeyById, hl, h, monkeyByIdSQL, escapeSQL, toStr, issue]

/-- C17, at a request: `GET /api/monkeys/abc`. -/
theorem item_id_validation_witness :
    server sampleEnv
      { method := "GET".toList, pathname := "/api/monkeys/abc".toList, authorization := none,
        body := [] } = .respond 400 (errorBody "invalid_id") :=
  (item_id_validation sampleEnv _ "abc".toList rfl rfl).1 (by decide)

/-- C17 fails for a remainder with a `/` in it: `GET /api/monkeys/x/monk-001`
issues the item query for `monk-001`, though `x/monk-001` is not `monk-` and
three digits. -/
theorem nested_item_path_accepted :
    isMonkId "x/monk-001".toList = false ∧
    server sampleEnv
      { method := "GET".toList, pathname := "/api/monkeys/x/monk-001".toList,
        authorization := none, body := [] } =
      .runQuery (monkeyByIdHead ++ "'monk-001'".toList ++ monkeyByIdTail) :=
  ⟨by decide, by rfl⟩

/-! ## Registration: the request -/

theorem server_register (env : Env) (req : Request) (hm : req.method = "POST".toList)
    (hp : req.pathname = "/api/register".toList) : server env req = register env req := by
  simp [server, hm, hp]

theorem register_invalid_json (env : Env) (req : Request) (h : jsonParse req.body = none) :
    register env req = .respond 400 (errorBody "invalid_json") := by
  simp [register, h]

theorem register_missing_fields (env : Env) (req : Request) (d : JsVal)
    (h : jsonParse req.body = some d) (hn : d ≠ .null) (hu : d ≠ .undefined)
    (hf : (truthy ((getProp d "username".toList).getD .undefined) &&
      truthy ((getProp d "email".toList).getD .undefined) &&
      truthy ((getProp d "password".toList).getD .undefined)) = false) :
    register env req = .respond 400 (errorBody "missing_fields") := by
  have hg : ∃ u, getProp d "username".toList = some u := by
    cases d with
    | undefined => exact absurd rfl hu
    | null => exact absurd rfl hn
    | bool b => exact ⟨_, rfl⟩
    | num n => exact ⟨_, rfl⟩
    | str s => exact ⟨_, rfl⟩
    | arr items => exact ⟨_, rfl⟩
    | obj members => exact ⟨_, rfl⟩
  obtain ⟨u, hu2⟩ := hg
  rw [hu2] at hf
  simp only [Option.getD_some] at hf
  unfold register
  simp only [h, hu2]
  have hc : (!truthy u || !truthy ((getProp d "email".toList).getD .undefined) ||
      !truthy ((getProp d "password".toList).getD .undefined)) = true := by
    revert hf
    cases truthy u <;> cases truthy ((getProp d "email".toList).getD .undefined) <;>
      cases truthy ((getProp d "password".toList).getD .undefined) <;> simp
  simp only [hc, if_true]

/-- C18 at the body `null`: it is valid JSON, and the handler of
`POST /api/register` reads `d.username` of it, which throws; the exception is
raised in the `end` listener outside the `try`, so no response is written.
The bodies `5`, `"text"` and `[1]` are answered with 400 and
`{ error: 'missing_fields' }`, a body that is not JSON with 400 and
`{ error: 'invalid_json' }`. -/
theorem register_null_body_throws :
    jsonParse "null".toList = some .null ∧
    server sampleEnv
      { method := "POST".toList, pathname := "/api/register".toList, authorization := none,
        body := "null".toList } = .throws ∧
    server sampleEnv
      { method := "POST".toList, pathname := "/api/register".toList, authorization := none,
        body := "5".toList } = .respond 400 (errorBody "missing_fields") ∧
    server sampleEnv
      { method := "POST".toList, pathname := "/api/register".toList, authorization := none,
        body := "\"text\"".toList } = .respond 400 (errorBody "missing_fields") ∧
    server sampleEnv
      { method := "POST".toList, pathname := "/api/register".toList, authorization := none,
        body := "[1]".toList } = .respond 400 (errorBody "missing_fields") ∧
    server sampleEnv
      { method := "POST".toList, pathname := "/api/register".toList, authorization := none,
        body := "no json".toList } = .respond 400 (errorBody "invalid_json") := by
  refine ⟨by rfl, by rfl, by rfl, by rfl, by rfl, by rfl⟩

/-! ## Registration: the answer of the store -/

/-- C19 at a registration that the store accepts: the request for the account
`ana` issues the insert with `RETURNING id, username, email`; for the new row
with the identifier 1, `psql -t -A -F ''` writes the three fields with nothing
between them (with or without the line `INSERT 0 1` after them), which is not
JSON, and the callback answers 500 with `{ error: 'parse_error' }`, not 201.
The login query wraps its row in `row_to_json`, and the callback of the login
answers 200 with the user for the output of that query. -/
theorem register_success_parse_error (env : Env) :
    (∃ digest,
      server sampleEnv
        { method := "POST".toList, pathname := "/api/register".toList, authorization := none,
          body := "\x7b\"username\":\"ana\",\"email\":\"a@x.com\",\"password\":\"p1\"\x7d".toList } =
        .runQuery (registerHead ++ "'ana', 'a@x.com', ".toList ++ quoteLiteral digest ++
          ")\n        RETURNING id, username, email;".toList)) ∧
    registerDone env (.output (psqlOutput [["1".toList, "ana".toList, "a@x.com".toList]])) =
      .respond 500 (errorBody "parse_error") ∧
    registerDone env
        (.output (psqlOutput [["1".toList, "ana".toList, "a@x.com".toList]] ++
          "INSERT 0 1\n".toList)) =
      .respond 500 (errorBody "parse_error") ∧
    loginDone env
        (.output (psqlOutput
          [["\x7b\"id\":1,\"username\":\"ana\",\"email\":\"a@x.com\"\x7d".toList]])) =
      .respond 200 (.obj [("user".toList,
          .obj [("id".toList, .int 1), ("username".toList, .str "ana".toList),
            ("email".toList, .str "a@x.com".toList)]),
        ("token".toList, .str (generateToken env (.int 1)))]) := by
  refine ⟨⟨_, by rfl⟩, by rfl, by rfl, by rfl⟩

/-! ## Registration: store failures -/

theorem startsWith_iff (s p : JsString) : startsWith s p = true ↔ ∃ b, s = p ++ b := by
  induction p generalizing s with
  | nil => cases s <;> simp [startsWith]
  | cons d p ih =>
    cases s with
    | nil => simp [startsWith]
    | cons c s =>
      simp only [startsWith, Bool.and_eq_true, decide_eq_true_eq, ih, List.cons_append,
        List.cons.injEq]
      constructor
      · rintro ⟨h, b, hb⟩
        exact ⟨b, h, hb⟩
      · rintro ⟨b, h, hb⟩
        exact ⟨h, b, hb⟩

theorem includes_iff (s part : JsString) :
    includes s part = true ↔ ∃ a b, s = a ++ part ++ b := by
  induction s with
  | nil =>
    simp only [includes, startsWith_iff]
    constructor
    · rintro ⟨b, hb⟩
      exact ⟨[], b, by simpa using hb⟩
    · rintro ⟨a, b, hab⟩
      have h := congrArg List.length hab
      simp only [List.length_nil, List.length_append] at h
      have ha : a = [] := List.eq_nil_of_length_eq_zero (by omega)
      subst ha
      exact ⟨b, by simpa using hab⟩
  | cons c s ih =>
    simp only [includes, Bool.or_eq_true, startsWith_iff, ih]
    constructor
    · rintro (⟨b, hb⟩ | ⟨a, b, hab⟩)
      · exact ⟨[], b, by simpa using hb⟩
      · exact ⟨c :: a, b, by simp [hab]⟩
    · rintro ⟨a, b, hab⟩
      cases a with
      | nil => exact Or.inl ⟨b, by simpa using hab⟩
      | cons x xs =>
        simp only [List.cons_append, List.cons.injEq] at hab
        exact Or.inr ⟨xs, b, hab.2⟩

theorem registerDone_output_code (env : Env) (stdout : JsString) :
    registerDone env (.output stdout) = .respond 500 (errorBody "parse_error") ∨
    ∃ payload, registerDone env (.output stdout) = .respond 201 payload := by
  unfold registerDone
  simp only
  cases jsonParse (jsTrim stdout) with
  | none => exact Or.inl rfl
  | some user =>
    simp only
    cases getProp user "id".toList with
    | none => exact Or.inl rfl
    | some id => exact Or.inr ⟨_, rfl⟩

theorem includes_append (pre s post part : JsString) (h : includes s part = true) :
    includes (pre ++ s ++ post) part = true := by
  obtain ⟨a, b, hab⟩ := (includes_iff s part).1 h
  exact (includes_iff _ _).2 ⟨pre ++ a, b ++ post, by rw [hab]; simp⟩

theorem registerDone_duplicate (env : Env) (message : JsString)
    (h : includes message "duplicate key".toList = true) :
    registerDone env (.failed message) = .respond 409 (errorBody "user_exists") := by
  simp only [registerDone, h, if_true]

/-- C20, as the code has it: the callback of `POST /api/register` answers 409
with `{ error: 'user_exists' }` exactly when the store call failed and the
message of the failure contains the text `duplicate key`; every other failure
is answered with 500 and `{ error: 'db_error', detail: message }`; and no
failure is answered with 201. The message of a failed `psql` is `Command
failed: `, the command line with the query in it, and the error output, so
the answer is 409 when the error output has the text (a uniqueness violation)
and also when the query has it, whatever the failure was. -/
theorem register_store_failure (env : Env) (r : StoreResult) :
    (registerDone env r = .respond 409 (errorBody "user_exists") ↔
      ∃ message a b, r = .failed message ∧ message = a ++ "duplicate key".toList ++ b) ∧
    (∀ message, r = .failed message →
      (¬ ∃ a b, message = a ++ "duplicate key".toList ++ b) →
      registerDone env r = .respond 500 (dbError message)) ∧
    (∀ message payload, r = .failed message → registerDone env r ≠ .respond 201 payload) ∧
    (∀ databaseUrl sql stderr : JsString,
      includes stderr "duplicate key".toList = true ∨
        includes (shellEscape sql) "duplicate key".toList = true →
      registerDone env (runQueryFailure databaseUrl sql stderr) =
        .respond 409 (errorBody "user_exists")) := by
  refine ⟨?_, ?_, ?_, ?_⟩
  · cases r with
    | failed message =>
      by_cases h : includes message "duplicate key".toList = true
      · rw [registerDone_duplicate env message h]
        obtain ⟨a, b, hab⟩ := (includes_iff _ _).1 h
        simp only [true_iff]
        exact ⟨message, a, b, rfl, hab⟩
      · have h2 : includes message "duplicate key".toList = false := Bool.eq_false_iff.2 h
        have hd : registerDone env (.failed message) = .respond 500 (dbError message) := by
          simp only [registerDone, h2, Bool.false_eq_true, if_false]
        rw [hd]
        constructor
        · intro e
          simp at e
        · rintro ⟨m, a, b, hm, hab⟩
          simp only [StoreResult.failed.injEq] at hm
          subst hm
          exact absurd ((includes_iff _ _).2 ⟨a, b, hab⟩) h
    | output stdout =>
      constructor
      · intro e
        rcases registerDone_output_code env stdout with h | ⟨p, h⟩
        · rw [h] at e
          simp at e
        · rw [h] at e
          simp at e
      · rintro ⟨m, a, b, hm, _⟩
        simp at hm
  · intro message hr hno
    subst hr
    have h : includes message "duplicate key".toList = false := by
      cases hi : includes message "duplicate key".toList with
      | false => rfl
      | true => exact absurd ((includes_iff _ _).1 hi) hno
    simp only [registerDone, h, Bool.false_eq_true, if_false]
  · intro message payload hr
    subst hr
    unfold registerDone
    simp only
    split <;> simp
  · intro databaseUrl sql stderr h
    apply registerDone_duplicate
    rcases h with h | h
    · have h2 := includes_append ("Command failed: ".toList ++ commandLine databaseUrl sql ++ ['\n'])
        stderr [] _ h
      simpa [execMessage] using h2
    · have h2 := includes_append
        ("Command failed: ".toList ++ ("psql \"".toList ++ databaseUrl ++
          "\" -t -A -F '' -c ".toList) ++ ['\''])
        (shellEscape sql) ('\'' :: '\n' :: stderr) _ h
      simpa [execMessage, commandLine, commandWord] using h2

set_option maxRecDepth 100000 in
/-- C20 fails for a failure that is no uniqueness violation: the registration
of the username `duplicate key` issues a query with that text in it; when
`psql` cannot reach the server, its error output is without the text, the
message of the failure has it from the command line, and the answer is 409
with `{ error: 'user_exists' }`, not 500. -/
theorem other_failure_user_exists :
    ∃ sql,
      server sampleEnv
        { method := "POST".toList, pathname := "/api/register".toList, authorization := none,
          body := "\x7b\"username\":\"duplicate key\",\"email\":\"a@x.com\",\"password\":\"p1\"\x7d".toList } =
        .runQuery sql ∧
      includes "psql: error: connection to server failed".toList "duplicate key".toList = false ∧
      registerDone sampleEnv
          (runQueryFailure "postgres://db".toList sql
            "psql: error: connection to server failed".toList) =
        .respond 409 (errorBody "user_exists") :=
  ⟨_, by rfl, by decide, by rfl⟩

/-! ## Removing a cart line -/

theorem cartDeleteDone_output (stdout : JsString) :
    cartDeleteDone (.output stdout) = .respond 204 (.obj []) := rfl

set_option maxRecDepth 100000 in
/-- C21 at a removal that the store accepts: `DELETE /api/cart/monk-001` with
a token issued for the account 1 issues the delete statement; whatever the
store writes, the callback calls `respond(res, 204, {})`, and `respond` passes
the two characters of `JSON.stringify({})` to `res.end` under the header
`Content-Length: 2`. The answer to `OPTIONS` has the status 204 without a
body and without `Content-Length`. -/
theorem delete_success_has_body :
    server sampleEnv
      { method := "DELETE".toList, pathname := "/api/cart/monk-001".toList,
        authorization := some ("Bearer ".toList ++ generateToken sampleEnv (.int 1)),
        body := [] } =
      .runQuery (cartDeleteHead ++ "1 AND monkey_id = 'monk-001';".toList) ∧
    (∀ stdout, cartDeleteDone (.output stdout) = .respond 204 (.obj [])) ∧
    respond 204 (.obj []) =
      { statusCode := 204, contentLength := some 2, body := "\x7b\x7d".toList } ∧
    preflightResponse = { statusCode := 204, contentLength := none, body := [] } :=
  ⟨by rfl, cartDeleteDone_output, by decide, rfl⟩

/-! ## Exceptions that no handler catches -/

set_option maxRecDepth 100000 in
/-- C22 at four requests: `GET /api/monkeys?search=a&search=b` (the repeated
parameter is an array, which has no method `replace`), `POST /api/login` and
`POST /api/cart` with the body `null` (reading a property of `null`), and
`GET /api/monkeys` when the store writes a text that is not JSON (the
`JSON.parse` of the callback is not inside a `try`): each ends with an
exception and without a response. -/
theorem uncaught_exceptions :
    server sampleEnv
      { method := "GET".toList, pathname := "/api/monkeys".toList, authorization := none,
        body := [],
        query := [("search".toList, .arr [.str "a".toList, .str "b".toList])] } = .throws ∧
    server sampleEnv
      { method := "POST".toList, pathname := "/api/login".toList, authorization := none,
        body := "null".toList } = .throws ∧
    server sampleEnv
      { method := "POST".toList, pathname := "/api/cart".toList,
        authorization := some ("Bearer ".toList ++ generateToken sampleEnv (.int 1)),
        body := "null".toList } = .throws ∧
    (∃ sql, server sampleEnv
      { method := "GET".toList, pathname := "/api/monkeys".toList, authorization := none,
        body := [] } = .runQuery sql) ∧
    listDone (.output "psql: warning".toList) = .throws ∧
    itemDone (.output "psql: warning".toList) = .throws := by
  refine ⟨by rfl, by rfl, by rfl, ⟨_, by rfl⟩, by rfl, by rfl⟩

/-! ## Adding to the cart -/

theorem cartInsert_text :
    cartInsertTail =
      ", ".toList ++ Nat.toDigits 10 cartInitialQuantity ++
        ")\n        ON CONFLICT (profile_id, monkey_id)\n          DO UPDATE SET quantity = shoppingcart.quantity + ".toList ++
        Nat.toDigits 10 cartIncrement ++ ";".toList := by
  decide

theorem upsertLine_absent (initial increment : Nat) (account item : JsString)
    (table : List CartLine) (h : ∀ line ∈ table, isLineOf account item line = false) :
    upsertLine initial increment account item table =
      table ++ [{ account := account, item := item, quantity := initial }] := by
  induction table with
  | nil => rfl
  | cons l rest ih =>
    have hl : isLineOf account item l = false := h l (by simp)
    have ih2 := ih (fun x hx => h x (by simp [hx]))
    simp [upsertLine, hl, ih2]

theorem upsertLine_last (initial increment : Nat) (account item : JsString)
    (table : List CartLine) (q : Nat) (h : ∀ line ∈ table, isLineOf account item line = false) :
    upsertLine initial increment account item
        (table ++ [{ account := account, item := item, quantity := q }]) =
      table ++ [{ account := account, item := item, quantity := q + increment }] := by
  induction table with
  | nil => simp [upsertLine, isLineOf]
  | cons l rest ih =>
    have hl : isLineOf account item l = false := h l (by simp)
    have ih2 := ih (fun x hx => h x (by simp [hx]))
    simp [upsertLine, hl, ih2]

theorem addToCartTimes_last (n : Nat) (account item : JsString) (table : List CartLine) (q : Nat)
    (h : ∀ line ∈ table, isLineOf account item line = false) :
    addToCartTimes n account item
        (table ++ [{ account := account, item := item, quantity := q }]) =
      table ++ [{ account := account, item := item, quantity := q + n }] := by
  induction n generalizing q with
  | zero => rfl
  | succ n ih =>
    rw [addToCartTimes, addToCart, upsertLine_last _ _ _ _ _ _ h, ih]
    simp only [cartIncrement]
    rw [Nat.add_assoc, Nat.add_comm 1 n]

theorem addToCartTimes_absent (n : Nat) (account item : JsString) (table : List CartLine)
    (h : ∀ line ∈ table, isLineOf account item line = false) (hn : 0 < n) :
    addToCartTimes n account item table =
      table ++ [{ account := account, item := item, quantity := n }] := by
  obtain ⟨m, rfl⟩ : ∃ m, n = m + 1 := ⟨n - 1, by omega⟩
  rw [addToCartTimes, addToCart, upsertLine_absent _ _ _ _ _ h, addToCartTimes_last _ _ _ _ _ h]
  simp only [cartInitialQuantity]
  rw [Nat.add_comm 1 m]

/-- C23: the insert of `POST /api/cart` has the initial quantity 1 and the
increment 1; on a table with unique pairs that has no line for the account and
the item, `n` successive adds (`n` at least 1) leave exactly one line for the
pair, with quantity `n`, leave the other lines as they were, and keep the
pairs unique. -/
theorem cart_add_times (table : List CartLine) (account item : JsString) (n : Nat)
    (hu : uniqueLines table) (hnew : ∀ line ∈ table, isLineOf account item line = false)
    (hn : 0 < n) :
    (addToCartTimes n account item table).filter (isLineOf account item) =
      [{ account := account, item := item, quantity := n }] ∧
    (addToCartTimes n account item table).filter (fun line => !isLineOf account item line) =
      table ∧
    uniqueLines (addToCartTimes n account item table) ∧
    cartInsertTail =
      ", ".toList ++ Nat.toDigits 10 cartInitialQuantity ++
        ")\n        ON CONFLICT (profile_id, monkey_id)\n          DO UPDATE SET quantity = shoppingcart.quantity + ".toList ++
        Nat.toDigits 10 cartIncrement ++ ";".toList := by
  rw [addToCartTimes_absent n account item table hnew hn]
  have hf1 : table.filter (isLineOf account item) = [] := by
    rw [List.filter_eq_nil_iff]
    intro l hl
    simp [hnew l hl]
  have hf2 : table.filter (fun line => !isLineOf account item line) = table := by
    rw [List.filter_eq_self]
    intro l hl
    simp [hnew l hl]
  refine ⟨?_, ?_, ?_, cartInsert_text⟩
  · rw [List.filter_append, hf1]
    simp [isLineOf]
  · rw [List.filter_append, hf2]
    simp [isLineOf]
  · unfold uniqueLines at hu ⊢
    rw [List.map_append, List.nodup_append]
    refine ⟨hu, by simp, ?_⟩
    intro a ha hb
    simp only [List.map_cons, List.map_nil, List.mem_singleton] at hb
    subst hb
    simp only [List.mem_map] at ha
    obtain ⟨l, hl, hkey⟩ := ha
    have hno := hnew l hl
    simp only [Prod.mk.injEq] at hkey
    simp [isLineOf, hkey.1, hkey.2] at hno

/-- C23, at two adds of `monk-001` by the account 1 to a cart that holds one
line for `monk-002`. -/
theorem cart_add_times_witness :
    uniqueLines [{ account := "1".toList, item := "monk-002".toList, quantity := 3 }] ∧
    addToCartTimes 2 "1".toList "monk-001".toList
        [{ account := "1".toList, item := "monk-002".toList, quantity := 3 }] =
      [{ account := "1".toList, item := "monk-002".toList, quantity := 3 },
        { account := "1".toList, item := "monk-001".toList, quantity := 2 }] ∧
    (addToCartTimes 2 "1".toList "monk-001".toList
        [{ account := "1".toList, item := "monk-002".toList, quantity := 3 }]).filter
        (isLineOf "1".toList "monk-001".toList) =
      [{ account := "1".toList, item := "monk-001".toList, quantity := 2 }] :=
  ⟨by simp [uniqueLines], by decide,
    (cart_add_times [{ account := "1".toList, item := "monk-002".toList, quantity := 3 }]
      "1".toList "monk-001".toList 2 (by simp [uniqueLines]) (by decide) (by decide)).1⟩

/-! ## The data client on a 401 -/

/-- C24 at a 401 response: `addToCart` and `removeFromCart` assign
`/login.html` to `window.location.href`; `getCart` assigns nothing and ends
with the exception `Failed to fetch cart`. -/
theorem getCart_no_redirect (body : JsString) :
    Api.getCart { status := 401, body := body } = { location := none, failed := true } ∧
    Api.addToCart { status := 401, body := body } =
      { location := some "/login.html".toList, failed := false } ∧
    Api.removeFromCart { status := 401, body := body } =
      { location := some "/login.html".toList, failed := false } :=
  ⟨rfl, rfl, rfl⟩

/-! ## The quantity buttons of the cart page -/

/-- C26 for every item and every stored token: the request that
`handleIncreaseQuantity` sends has no `Authorization` header, and the handler
of `POST /api/cart` answers it with 401 and `{ error: 'unauthorized' }`, not
with 201; nothing is added on the backend. -/
theorem increase_quantity_unauthorized (env : Env) (authToken : Option JsString)
    (itemId : JsString) :
    (handleIncreaseQuantity authToken itemId).authorization = none ∧
    server env (handleIncreaseQuantity authToken itemId) =
      .respond 401 (errorBody "unauthorized") ∧
    (Api.addToCartRequest (some (generateToken env (.int 1))) itemId).authorization =
      some ("Bearer ".toList ++ generateToken env (.int 1)) :=
  ⟨rfl, rfl, by
    have h : generateToken env (.int 1) ≠ [] := by
      simp [generateToken]
    simp [Api.addToCartRequest, getAuthHeaders, h]⟩

/-- C27 at the displayed quantity 2: `handleDecreaseQuantity` removes the
line, although one less than 2 is 1; at 1 (where one less is 0) and at 3 it
leaves the line. -/
theorem decrease_removes_at_two :
    handleDecreaseQuantity (numToString ⟨2, 0⟩) = true ∧
    handleDecreaseQuantity (numToString ⟨1, 0⟩) = false ∧
    handleDecreaseQuantity (numToString ⟨3, 0⟩) = false := by
  decide

/-! ## The totals of the cart -/

/-- C29 at a cart of one line with the price 100 and the quantity 2: the
totals of `updateCartSummary` and of `handleCheckout` are 200, the total of
`displayCart` in `main.js`, which adds the prices without the quantities, is
100. -/
theorem displayCart_ignores_quantity :
    updateCartSummary [{ price := 100, quantity := 2 }] = 200 ∧
    handleCheckout [{ price := 100, quantity := 2 }] = 200 ∧
    displayCart [{ price := 100, quantity := 2 }] = 100 := by
  decide

theorem summary_eq_checkout (items : List CartItem) :
    updateCartSummary items = handleCheckout items := rfl

/-! ## The shell word of the query -/

theorem shellWord_open (cs : JsString) : shellWord false ('\'' :: cs) = shellWord true cs := by
  rw [shellWord.eq_def]
  simp

theorem shellWord_close (cs : JsString) : shellWord true ('\'' :: cs) = shellWord false cs := by
  rw [shellWord]
  simp

theorem shellWord_inside (c : Char) (cs : JsString) (h : c ≠ '\'') :
    shellWord true (c :: cs) = (shellWord true cs).map (fun r => (c :: r.1, r.2)) := by
  rw [shellWord]
  simp [h]

theorem shellWord_escaped_quote (cs : JsString) :
    shellWord false ('\\' :: '\'' :: cs) =
      (shellWord false cs).map (fun r => ('\'' :: r.1, r.2)) := by
  rw [shellWord]
  simp

theorem shellWord_end (rest : JsString)
    (h : rest = [] ∨ ∃ c r, rest = c :: r ∧ endsWord c = true) :
    shellWord false rest = some ([], rest) := by
  rcases h with h | ⟨c, r, h, hc⟩
  · subst h
    rfl
  · subst h
    have h1 : c ≠ '\'' := fun e => by rw [e] at hc; exact absurd hc (by decide)
    have h2 : c ≠ '\\' := fun e => by rw [e] at hc; exact absurd hc (by decide)
    rw [shellWord.eq_def]
    simp [h1, h2, hc]

theorem shellWord_quoted (q rest : JsString)
    (h : rest = [] ∨ ∃ c r, rest = c :: r ∧ endsWord c = true) :
    shellWord true (shellEscape q ++ '\'' :: rest) = some (q, rest) := by
  induction q with
  | nil =>
    simp only [shellEscape, List.nil_append]
    rw [shellWord_close]
    exact shellWord_end rest h
  | cons c cs ih =>
    by_cases hc : c = '\''
    · subst hc
      simp only [shellEscape, if_true, List.cons_append]
      rw [shellWord_close, shellWord_escaped_quote, shellWord_open, ih]
      rfl
    · simp only [shellEscape, hc, if_false, List.cons_append]
      rw [shellWord_inside c _ hc, ih]
      rfl

/-- C25: the word that `runQuery` puts after `-c` is a single quote, the query
with every single quote replaced by quote, backslash, quote, quote, and a
single quote; read by the quoting rules of POSIX it denotes exactly the query,
at the end of the command (where `runQuery` puts it) and in front of a
blank. -/
theorem shell_word_roundtrip (q : JsString) :
    shellWord false (commandWord q) = some (q, []) ∧
    (∀ rest, shellWord false (commandWord q ++ ' ' :: rest) = some (q, ' ' :: rest)) ∧
    (∀ databaseUrl, commandLine databaseUrl q =
      "psql \"".toList ++ databaseUrl ++ "\" -t -A -F '' -c '".toList ++ shellEscape q ++ ['\'']) := by
  refine ⟨?_, ?_, ?_⟩
  · have h := shellWord_quoted q [] (Or.inl rfl)
    rw [commandWord, shellWord_open]
    exact h
  · intro rest
    have h := shellWord_quoted q (' ' :: rest) (Or.inr ⟨' ', rest, rfl, by decide⟩)
    rw [commandWord, List.cons_append, shellWord_open, List.append_assoc]
    exact h
  · intro databaseUrl
    simp [commandLine, commandWord]

/-! ## The expiry test -/

theorem stringifyVal_userId (v : JsVal) (hv : isStringOrInteger v = true) :
    stringifyVal (.obj [("userId".toList, v)]) =
      '\x7b' :: (quoteJSON "userId".toList ++ ':' :: (stringifyVal v ++ ['\x7d'])) := by
  cases v with
  | str s =>
    simp only [stringifyVal, stringifyMembers, List.append_assoc,
      List.cons_append, List.nil_append, List.append_nil, Bool.false_eq_true, if_false, if_true]
  | num x =>
    simp only [stringifyVal, stringifyMembers, List.append_assoc,
      List.cons_append, List.nil_append, List.append_nil, Bool.false_eq_true, if_false, if_true]
  | undefined => exact absurd hv (by simp [isStringOrInteger])
  | null => exact absurd hv (by simp [isStringOrInteger])
  | bool b => exact absurd hv (by simp [isStringOrInteger])
  | arr items => exact absurd hv (by simp [isStringOrInteger])
  | obj members => exact absurd hv (by simp [isStringOrInteger])

theorem jsonParse_userId (v : JsVal) (hv : isStringOrInteger v = true) :
    jsonParse (stringifyVal (.obj [("userId".toList, v)])) =
      some (.obj [("userId".toList, v)]) := by
  rw [jsonParse, stringifyVal_userId v hv]
  have hfuel : ∀ t : JsString, 2 * (('\x7b' :: t).length) + 2 = (2 * t.length + 3) + 1 := by
    intro t
    simp only [List.length_cons]
    omega
  rw [hfuel, parseValue, skipWs_of_not_ws _ _ (by decide)]
  simp only [if_true]
  have hq : ∀ (k t : JsString), quoteJSON k ++ t = '"' :: (jsonEscape k ++ '"' :: t) := by
    intro k t
    simp [quoteJSON]
  rw [hq, skipWs_of_not_ws _ _ (by decide)]
  have h1 : ('"' : Char) ≠ '\x7d' := by decide
  simp only [h1, if_false]
  rw [← hq]
  generalize hF : 2 * (quoteJSON "userId".toList ++ ':' :: (stringifyVal v ++ ['\x7d'])).length + 3 = F
  have hF3 : ∃ G, F = G + 3 := ⟨F - 3, by omega⟩
  obtain ⟨G, rfl⟩ := hF3
  have hval := parseValue_id (G + 1) v hv '\x7d' [] (by decide)
  rw [show G + 3 = (G + 2) + 1 from rfl, parseMembers_step (G + 2) _ _ [] v '\x7d' _ hval (by decide)]
  have h2 : ('\x7d' : Char) ≠ ',' := by decide
  simp only [h2, if_false, if_true, skipWs]
  simp [setMember]

theorem checkExpiry_num (env : Env) (id : JsVal) (E : Int) :
    checkExpiry env (.obj [("userId".toList, id), ("exp".toList, .num ⟨E, 0⟩)]) =
      if E ≠ 0 ∧ E < ((env.now / 1000 : Nat) : Int) then none
      else some (.obj [("userId".toList, id), ("exp".toList, .num ⟨E, 0⟩)]) := by
  unfold checkExpiry
  rw [getProp_payload_exp]
  by_cases h0 : E = 0
  · subst h0
    simp [truthy]
  · have ht : truthy (.num ⟨E, 0⟩) = true := by simp [truthy, h0]
    simp only [ht, if_true, lessThan, numLess_int]
    generalize env.now / 1000 = S
    by_cases hlt : E < (S : Int)
    · have hd : decide (E < (S : Int)) = true := decide_eq_true hlt
      rw [hd, if_pos ⟨h0, hlt⟩]
    · have hd : decide (E < (S : Int)) = false := decide_eq_false hlt
      rw [hd, if_neg (fun h => hlt h.2)]

theorem checkExpiry_no_exp (env : Env) (id : JsVal) :
    checkExpiry env (.obj [("userId".toList, id)]) = some (.obj [("userId".toList, id)]) := by
  have hk : "userId".toList ≠ "exp".toList := by decide
  have hg : getProp (.obj [("userId".toList, id)]) "exp".toList = some .undefined := by
    simp [getProp, lookupKey, hk]
  unfold checkExpiry
  rw [hg]
  rfl

/-- C28: the expiry test of `verifyToken` is `payload.exp && payload.exp <
now`, with `now` the current second. For a correctly signed token whose
payload is `{ userId, exp }` with an integer `exp`: it is rejected when `exp`
is not 0 and is below the current second, and accepted when `exp` is 0 or is
not below the current second, so in particular at the second `now = exp`. A
correctly signed token whose payload has no `exp` is accepted at every
time. -/
theorem expiry_is_strict (env : Env) (id : JsVal) (E : Int)
    (hid : isStringOrInteger id = true) (hE : E.natAbs < 10 ^ 21) :
    (E ≠ 0 → E < ((env.now / 1000 : Nat) : Int) →
      verifyToken env (some (signedToken env tokenHeader
        (.obj [("userId".toList, id), ("exp".toList, .num ⟨E, 0⟩)]))) = none) ∧
    (E = 0 ∨ ((env.now / 1000 : Nat) : Int) ≤ E →
      verifyToken env (some (signedToken env tokenHeader
        (.obj [("userId".toList, id), ("exp".toList, .num ⟨E, 0⟩)]))) =
        some (.obj [("userId".toList, id), ("exp".toList, .num ⟨E, 0⟩)])) ∧
    verifyToken env (some (signedToken env tokenHeader (.obj [("userId".toList, id)]))) =
      some (.obj [("userId".toList, id)]) := by
  have hp := jsonParse_payload E hE id hid
  have hv := verifyToken_signedToken env tokenHeader _ _ hp
  refine ⟨?_, ?_, ?_⟩
  · intro h0 hlt
    rw [hv, checkExpiry_num, if_pos ⟨h0, hlt⟩]
  · intro h
    rw [hv, checkExpiry_num, if_neg]
    rintro ⟨h0, hlt⟩
    rcases h with h | h
    · exact h0 h
    · omega
  · rw [verifyToken_signedToken env tokenHeader _ _ (jsonParse_userId id hid)]
    exact checkExpiry_no_exp env id

/-- C28, in the sample environment at the account 1: the token whose `exp` is
the current second, 1700000000, is accepted. -/
theorem expiry_is_strict_witness :
    sampleEnv.now / 1000 = 1700000000 ∧
    verifyToken sampleEnv (some (signedToken sampleEnv tokenHeader
      (.obj [("userId".toList, .int 1), ("exp".toList, .num ⟨1700000000, 0⟩)]))) =
      some (.obj [("userId".toList, .int 1), ("exp".toList, .num ⟨1700000000, 0⟩)]) :=
  ⟨by decide,
    (expiry_is_strict sampleEnv (.int 1) 1700000000 (by decide) (by decide)).2.1
      (Or.inr (by decide))⟩

end Monkstore
